import Mathlib

/-!
# eModbus frame codec

A shallow embedding of `eModbus::Frame` (`include/ModbusFrame.hpp`): the
300-octet frame buffer with its direction flag, the field accessors, the
CRC-16 routine, the length calculation, the register-value codec and the
builders, followed by theorems about them.

Machine integers are natural numbers; every narrowing conversion of the
source (`uint8_t`, `uint16_t`) is an explicit `% 256` or `% 65536`.
-/

namespace eModbus

/-! ## Buffer -/

/-- One octet of the frame buffer (`uint8_t`). -/
abbrev Byte := Fin 256

/-- Narrowing conversion to `uint8_t`. -/
def toByte (v : Nat) : Byte := ⟨v % 256, Nat.mod_lt v (by decide)⟩

/-- The storage behind `_internalDataBuffer` (`std::array<uint8_t, 300>`),
addressed by offset.  Offsets from 300 on lie outside the array; the
accessors below never reach them for any buffer content. -/
abbrev Buffer := Nat → Byte

/-- Capacity of `_internalDataBuffer`. -/
def BUFFER_SIZE : Nat := 300

/-- Assignment `buffer[pos] = value` with the implicit `uint8_t` narrowing. -/
def Buffer.write (b : Buffer) (pos value : Nat) : Buffer :=
  fun i => if i = pos then toByte value else b i

/-- The octets of `subspan(offset, count)`, in order. -/
def Buffer.subspan (b : Buffer) (offset count : Nat) : List Nat :=
  (List.range count).map (fun i => (b (offset + i)).val)

/-- The frame object: `_internalDataBuffer` and `_isRequest`. -/
structure Frame where
  buf : Buffer
  isRequest : Bool

/-- A default-constructed frame: zeroed buffer, response direction. -/
def Frame.empty : Frame := ⟨fun _ => toByte 0, false⟩

/-! ## Layout constants -/

def MBAP_HEADER_SIZE : Nat := 7
def RTU_HEADER_START_POSITION : Nat := MBAP_HEADER_SIZE - 1
def TRANSACTION_ID_SIZE : Nat := 2
def PROTOCOL_ID_SIZE : Nat := 2
def TCP_LENGTH_SIZE : Nat := 2
def UNIT_ID_SIZE : Nat := 1
def RTU_HEADER_SIZE : Nat := 2
def BYTE_COUNT_SIZE : Nat := 1
def STARTING_ADDRESS_SIZE : Nat := 2
def REGISTER_COUNT_SIZE : Nat := 2
def WRITE_DATA_SIZE : Nat := 2
def CRC_SIZE : Nat := 2
def EXCEPTION_CODE_SIZE : Nat := 1

/-! `enum FRAME_POS` -/

def TRANSACTION_ID : Nat := 0
def PROTOCOL_ID : Nat := 2
def LENGTH : Nat := 4
def UNIT_ID : Nat := 6
def FUNCTION_CODE : Nat := 7
def DATA : Nat := 8
def EXCEPTION_CODE : Nat := DATA
def START_ADDRESS : Nat := DATA
def BYTE_COUNT : Nat := DATA
def REGISTER_DATA : Nat := BYTE_COUNT + 1
def REGISTER_COUNT : Nat := START_ADDRESS + 2
def BYTE_COUNT_MULTIPLE_REGISTERS : Nat := REGISTER_COUNT + 2
def REGISTER_DATA_WRITE_SINGLE : Nat := START_ADDRESS + 2
def REGISTER_DATA_WRITE_MULTIPLE : Nat := BYTE_COUNT_MULTIPLE_REGISTERS + 1

/-! `enum FunctionCode`: the wire values.  The getter `functionCode()` casts
any seven-bit value to the enumeration, so function codes are numbers. -/

def ReadCoils : Nat := 0x01
def ReadDiscreteInputs : Nat := 0x02
def ReadHoldingRegisters : Nat := 0x03
def ReadInputRegisters : Nat := 0x04
def WriteSingleCoil : Nat := 0x05
def WriteSingleRegister : Nat := 0x06
def WriteMultipleCoils : Nat := 0x0F
def WriteMultipleRegisters : Nat := 0x10
def Diagnostics : Nat := 0x08
def MaskWriteRegister : Nat := 0x16
def ReadWriteMultipleRegisters : Nat := 0x17
def ReadDeviceIdentification : Nat := 0x0E
def Invalid : Nat := 0

/-- The `case` labels of the source's `switch (functionCode())` statements. -/
inductive FunctionGroup where
  | bulkRead
  | writeSingle
  | writeMultiple
  | other
  deriving DecidableEq, Repr

/-- Which group of `case` labels a function code falls under:
`ReadCoils .. ReadInputRegisters`, `WriteSingleCoil/WriteSingleRegister`,
`WriteMultipleCoils/WriteMultipleRegisters`, or `default`. -/
def functionGroup (fc : Nat) : FunctionGroup :=
  if fc = ReadCoils ∨ fc = ReadDiscreteInputs ∨ fc = ReadHoldingRegisters
      ∨ fc = ReadInputRegisters then .bulkRead
  else if fc = WriteSingleCoil ∨ fc = WriteSingleRegister then .writeSingle
  else if fc = WriteMultipleCoils ∨ fc = WriteMultipleRegisters then .writeMultiple
  else .other

/-- The `enum class ValidationStatus`. -/
inductive ValidationStatus where
  | OK
  | ProtocolIdentifier
  | MBAPHeaderLengthInvalid
  | InvalidCRC
  | TransactionID
  | InvalidFunctionCode
  | Unknown
  deriving DecidableEq, Repr

/-! ## Byte order helpers -/

/-- `betole(p)`: `static_cast<uint16_t>(p[0] << 8) | (p[1] & 0xFF)`. -/
def betole (b : Buffer) (pos : Nat) : Nat :=
  (((b pos).val <<< 8) % 65536) ||| ((b (pos + 1)).val &&& 0xFF)

/-- `letobe(v, p)`: high octet to `p[0]`, low octet to `p[1]`. -/
def letobe (value : Nat) (b : Buffer) (pos : Nat) : Buffer :=
  (b.write pos ((value >>> 8) &&& 0xFF)).write (pos + 1) (value &&& 0xFF)

/-! ## CRC-16 -/

/-- The 256-entry table of `calculateModbusCRC`. -/
def crcTable : List Nat := [
  0x0000, 0xC0C1, 0xC181, 0x0140, 0xC301, 0x03C0, 0x0280, 0xC241,
  0xC601, 0x06C0, 0x0780, 0xC741, 0x0500, 0xC5C1, 0xC481, 0x0440,
  0xCC01, 0x0CC0, 0x0D80, 0xCD41, 0x0F00, 0xCFC1, 0xCE81, 0x0E40,
  0x0A00, 0xCAC1, 0xCB81, 0x0B40, 0xC901, 0x09C0, 0x0880, 0xC841,
  0xD801, 0x18C0, 0x1980, 0xD941, 0x1B00, 0xDBC1, 0xDA81, 0x1A40,
  0x1E00, 0xDEC1, 0xDF81, 0x1F40, 0xDD01, 0x1DC0, 0x1C80, 0xDC41,
  0x1400, 0xD4C1, 0xD581, 0x1540, 0xD701, 0x17C0, 0x1680, 0xD641,
  0xD201, 0x12C0, 0x1380, 0xD341, 0x1100, 0xD1C1, 0xD081, 0x1040,
  0xF001, 0x30C0, 0x3180, 0xF141, 0x3300, 0xF3C1, 0xF281, 0x3240,
  0x3600, 0xF6C1, 0xF781, 0x3740, 0xF501, 0x35C0, 0x3480, 0xF441,
  0x3C00, 0xFCC1, 0xFD81, 0x3D40, 0xFF01, 0x3FC0, 0x3E80, 0xFE41,
  0xFA01, 0x3AC0, 0x3B80, 0xFB41, 0x3900, 0xF9C1, 0xF881, 0x3840,
  0x2800, 0xE8C1, 0xE981, 0x2940, 0xEB01, 0x2BC0, 0x2A80, 0xEA41,
  0xEE01, 0x2EC0, 0x2F80, 0xEF41, 0x2D00, 0xEDC1, 0xEC81, 0x2C40,
  0xE401, 0x24C0, 0x2580, 0xE541, 0x2700, 0xE7C1, 0xE681, 0x2640,
  0x2200, 0xE2C1, 0xE381, 0x2340, 0xE101, 0x21C0, 0x2080, 0xE041,
  0xA001, 0x60C0, 0x6180, 0xA141, 0x6300, 0xA3C1, 0xA281, 0x6240,
  0x6600, 0xA6C1, 0xA781, 0x6740, 0xA501, 0x65C0, 0x6480, 0xA441,
  0x6C00, 0xACC1, 0xAD81, 0x6D40, 0xAF01, 0x6FC0, 0x6E80, 0xAE41,
  0xAA01, 0x6AC0, 0x6B80, 0xAB41, 0x6900, 0xA9C1, 0xA881, 0x6840,
  0x7800, 0xB8C1, 0xB981, 0x7940, 0xBB01, 0x7BC0, 0x7A80, 0xBA41,
  0xBE01, 0x7EC0, 0x7F80, 0xBF41, 0x7D00, 0xBDC1, 0xBC81, 0x7C40,
  0xB401, 0x74C0, 0x7580, 0xB541, 0x7700, 0xB7C1, 0xB681, 0x7640,
  0x7200, 0xB2C1, 0xB381, 0x7340, 0xB101, 0x71C0, 0x7080, 0xB041,
  0x5000, 0x90C1, 0x9181, 0x5140, 0x9301, 0x53C0, 0x5280, 0x9241,
  0x9601, 0x56C0, 0x5780, 0x9741, 0x5500, 0x95C1, 0x9481, 0x5440,
  0x9C01, 0x5CC0, 0x5D80, 0x9D41, 0x5F00, 0x9FC1, 0x9E81, 0x5E40,
  0x5A00, 0x9AC1, 0x9B81, 0x5B40, 0x9901, 0x59C0, 0x5880, 0x9841,
  0x8801, 0x48C0, 0x4980, 0x8941, 0x4B00, 0x8BC1, 0x8A81, 0x4A40,
  0x4E00, 0x8EC1, 0x8F81, 0x4F40, 0x8D01, 0x4DC0, 0x4C80, 0x8C41,
  0x4400, 0x84C1, 0x8581, 0x4540, 0x8701, 0x47C0, 0x4680, 0x8641,
  0x8201, 0x42C0, 0x4380, 0x8341, 0x4100, 0x81C1, 0x8081, 0x4040]

/-- One iteration of the loop of `calculateModbusCRC`:
`xor_ = byte ^ crc; crc >>= 8; crc ^= table[xor_]`, with `xor_` a `uint8_t`. -/
def crcStep (crc byte : Nat) : Nat :=
  let xor_ := (byte ^^^ crc) % 256
  (crc >>> 8) ^^^ crcTable.getD xor_ 0

/-- The static `calculateModbusCRC(span)`: seed `0xFFFF`, one table step per
octet of the span. -/
def calculateModbusCRC (data : List Nat) : Nat :=
  data.foldl crcStep 0xFFFF

/-! ## Field accessors -/

/-- Setter `isRequest(bool)`. -/
def Frame.setIsRequest (f : Frame) (is_request : Bool) : Frame :=
  { f with isRequest := is_request }

/-- Getter `transactionID()`. -/
def Frame.transactionID (f : Frame) : Nat := betole f.buf TRANSACTION_ID

/-- Setter `transactionID(value)`. -/
def Frame.setTransactionID (f : Frame) (value : Nat) : Frame :=
  { f with buf := letobe value f.buf TRANSACTION_ID }

/-- Getter `protocolID()`. -/
def Frame.protocolID (f : Frame) : Nat := betole f.buf PROTOCOL_ID

/-- Setter `protocolID(value)`. -/
def Frame.setProtocolID (f : Frame) (value : Nat) : Frame :=
  { f with buf := letobe value f.buf PROTOCOL_ID }

/-- Getter `MBAPLength()`. -/
def Frame.MBAPLength (f : Frame) : Nat := betole f.buf LENGTH

/-- Setter `MBAPLength(value)`. -/
def Frame.setMBAPLength (f : Frame) (value : Nat) : Frame :=
  { f with buf := letobe value f.buf LENGTH }

/-- `RTULength()`: `MBAPLength() + CRC_SIZE` as `uint16_t`. -/
def Frame.RTULength (f : Frame) : Nat := (f.MBAPLength + CRC_SIZE) % 65536

/-- Setter `slaveID(value)`. -/
def Frame.setSlaveID (f : Frame) (value : Nat) : Frame :=
  { f with buf := f.buf.write UNIT_ID value }

/-- Getter `slaveID()`. -/
def Frame.slaveID (f : Frame) : Nat := (f.buf UNIT_ID).val

/-- Getter `functionCode()`: the low seven bits of the function-code octet. -/
def Frame.functionCode (f : Frame) : Nat := (f.buf FUNCTION_CODE).val &&& 0x7F

/-- Setter `functionCode(value)`. -/
def Frame.setFunctionCode (f : Frame) (value : Nat) : Frame :=
  { f with buf := f.buf.write FUNCTION_CODE value }

/-- Getter `isException()`: bit 7 of the function-code octet. -/
def Frame.isException (f : Frame) : Bool :=
  decide ((f.buf FUNCTION_CODE).val &&& 0x80 ≠ 0)

/-- Setter `isException(setFlag)`. -/
def Frame.setIsException (f : Frame) (setFlag : Bool) : Frame :=
  if setFlag then
    { buf := f.buf.write FUNCTION_CODE ((f.buf FUNCTION_CODE).val ||| 0x80),
      isRequest := false }
  else
    { f with buf := f.buf.write FUNCTION_CODE ((f.buf FUNCTION_CODE).val &&& 0x7F) }

/-- Getter `exceptionCode()`. -/
def Frame.exceptionCode (f : Frame) : Nat :=
  if f.isException then (f.buf EXCEPTION_CODE).val else 0

/-- Setter `exceptionCode(code)`. -/
def Frame.setExceptionCode (f : Frame) (exception_code : Nat) : Frame :=
  { f with buf := f.buf.write EXCEPTION_CODE exception_code }

/-- `hasStartAddress()`. -/
def Frame.hasStartAddress (f : Frame) : Bool :=
  if f.isException then false
  else match functionGroup f.functionCode with
    | .bulkRead => f.isRequest
    | .writeSingle => true
    | .writeMultiple => true
    | .other => false

/-- Getter `startAddress()`. -/
def Frame.startAddress (f : Frame) : Nat :=
  if !f.hasStartAddress then 0 else betole f.buf START_ADDRESS

/-- Setter `startAddress(value)`. -/
def Frame.setStartAddress (f : Frame) (value : Nat) : Frame :=
  if f.hasStartAddress then { f with buf := letobe value f.buf START_ADDRESS } else f

/-- Getter `byteCount()`. -/
def Frame.byteCount (f : Frame) : Nat :=
  if f.isException then 0
  else match functionGroup f.functionCode with
    | .bulkRead => if f.isRequest then 0 else (f.buf BYTE_COUNT).val
    | .writeMultiple =>
        if f.isRequest then (f.buf BYTE_COUNT_MULTIPLE_REGISTERS).val else 0
    | .writeSingle => 2
    | .other => 0

/-- Setter `byteCount(uint8_t value)`. -/
def Frame.setByteCount (f : Frame) (value : Nat) : Frame :=
  if !f.isException then
    match functionGroup f.functionCode with
    | .bulkRead =>
        if !f.isRequest then { f with buf := f.buf.write BYTE_COUNT value } else f
    | .writeMultiple =>
        if f.isRequest then
          { f with buf := f.buf.write BYTE_COUNT_MULTIPLE_REGISTERS value }
        else f
    | .writeSingle => f
    | .other => f
  else f

/-- Getter `registerCount()`. -/
def Frame.registerCount (f : Frame) : Nat :=
  if f.isException then 0
  else
    if f.functionCode = ReadCoils ∨ f.functionCode = ReadDiscreteInputs then
      if f.isRequest then betole f.buf REGISTER_COUNT else (f.byteCount * 8) % 65536
    else if f.functionCode = ReadHoldingRegisters ∨ f.functionCode = ReadInputRegisters then
      if f.isRequest then betole f.buf REGISTER_COUNT else f.byteCount / 2
    else if f.functionCode = WriteSingleCoil ∨ f.functionCode = WriteSingleRegister then 1
    else if f.functionCode = WriteMultipleCoils ∨ f.functionCode = WriteMultipleRegisters then
      betole f.buf REGISTER_COUNT
    else 0

/-- Setter `registerCount(value)`. -/
def Frame.setRegisterCount (f : Frame) (value : Nat) : Frame :=
  if !f.isException then
    match functionGroup f.functionCode with
    | .bulkRead =>
        if f.isRequest then { f with buf := letobe value f.buf REGISTER_COUNT } else f
    | .writeMultiple => { f with buf := letobe value f.buf REGISTER_COUNT }
    | .writeSingle => f
    | .other => f
  else f

/-! ## Length calculation and CRC placement -/

/-- The four-argument `calculateRTULength`.  It is a member function: the
direction tests inside the `switch` read the member `_isRequest`, not the
parameter `isRequest`. -/
def Frame.calculateRTULengthOf (f : Frame) (isException _isRequest : Bool)
    (functionCode byteCount : Nat) : Nat :=
  if isException then RTU_HEADER_SIZE + EXCEPTION_CODE_SIZE + CRC_SIZE
  else match functionGroup functionCode with
    | .bulkRead =>
        if f.isRequest then
          RTU_HEADER_SIZE + STARTING_ADDRESS_SIZE + REGISTER_COUNT_SIZE + CRC_SIZE
        else (RTU_HEADER_SIZE + BYTE_COUNT_SIZE + byteCount + CRC_SIZE) % 65536
    | .writeSingle => RTU_HEADER_SIZE + STARTING_ADDRESS_SIZE + WRITE_DATA_SIZE + CRC_SIZE
    | .writeMultiple =>
        if f.isRequest then
          (RTU_HEADER_SIZE + STARTING_ADDRESS_SIZE + REGISTER_COUNT_SIZE + BYTE_COUNT_SIZE
            + byteCount + CRC_SIZE) % 65536
        else RTU_HEADER_SIZE + STARTING_ADDRESS_SIZE + REGISTER_COUNT_SIZE + CRC_SIZE
    | .other => 0

/-- The argument-free `calculateRTULength()`. -/
def Frame.calculateRTULength (f : Frame) : Nat :=
  f.calculateRTULengthOf f.isException f.isRequest f.functionCode f.byteCount

/-- `RTULengthWithoutCRC()`: `calculateRTULength() - CRC_SIZE` computed in
`int`, clamped at zero. -/
def Frame.RTULengthWithoutCRC (f : Frame) : Nat :=
  let result : Int := (f.calculateRTULength : Int) - (CRC_SIZE : Int)
  if result ≥ 0 then result.toNat % 65536 else 0

/-- `pduLength()`: the MBAP length (or the computed length when that is 0)
minus the unit-id octet, as `uint16_t`. -/
def Frame.pduLength (f : Frame) : Nat :=
  let len := if f.MBAPLength = 0 then f.RTULengthWithoutCRC else f.MBAPLength
  (((len : Int) - (UNIT_ID_SIZE : Int)) % 65536).toNat

/-- The member `calculateModbusCRC()`: the CRC of
`subspan(RTU_HEADER_START_POSITION, RTULengthWithoutCRC())`. -/
def Frame.calculateModbusCRC (f : Frame) : Nat :=
  eModbus.calculateModbusCRC (f.buf.subspan RTU_HEADER_START_POSITION f.RTULengthWithoutCRC)

/-- `crcPosition()`. -/
def Frame.crcPosition (f : Frame) : Nat :=
  (RTU_HEADER_START_POSITION + f.RTULengthWithoutCRC) % 65536

/-- Getter `crc()`: the stored checksum, low octet first. -/
def Frame.crc (f : Frame) : Nat :=
  let crcPos := f.crcPosition
  ((f.buf crcPos).val ||| ((f.buf (crcPos + 1)).val <<< 8)) % 65536

/-- Setter `crc(value)`. -/
def Frame.setCrc (f : Frame) (value : Nat) : Frame :=
  let crcPos := f.crcPosition
  { f with buf := (f.buf.write crcPos (value &&& 0xFF)).write (crcPos + 1) ((value >>> 8) &&& 0xFF) }

/-- `appendCRC()`. -/
def Frame.appendCRC (f : Frame) : Frame := f.setCrc f.calculateModbusCRC

/-! ## Validation -/

/-- `validateCommon()`. -/
def Frame.validateCommon (f : Frame) : ValidationStatus :=
  let function_code := f.functionCode % 256
  if function_code = 0 then .InvalidFunctionCode else .OK

/-- `validateTCP()`. -/
def Frame.validateTCP (f : Frame) : ValidationStatus :=
  if f.protocolID ≠ 0 then .ProtocolIdentifier
  else if f.MBAPLength = 0 then .MBAPHeaderLengthInvalid
  else f.validateCommon

/-- `validateRTU()`. -/
def Frame.validateRTU (f : Frame) : ValidationStatus :=
  let commonValidation := f.validateCommon
  if commonValidation ≠ .OK then commonValidation
  else if f.crc ≠ f.calculateModbusCRC then .InvalidCRC
  else .OK

/-! ## Register values -/

/-- `hasRegistersValues()`. -/
def Frame.hasRegistersValues (f : Frame) : Bool :=
  if f.isException then false
  else match functionGroup f.functionCode with
    | .other => false
    | .bulkRead => !f.isRequest
    | .writeSingle => true
    | .writeMultiple => f.isRequest

/-- The span returned by `registersData()`, as (offset into the buffer,
size); the empty span `{}` is `(0, 0)`. -/
def Frame.registersDataSpan (f : Frame) : Nat × Nat :=
  if !f.hasRegistersValues then (0, 0)
  else
    let data_pos :=
      match functionGroup f.functionCode with
      | .bulkRead => REGISTER_DATA
      | .writeSingle => REGISTER_DATA_WRITE_SINGLE
      | .writeMultiple => REGISTER_DATA_WRITE_MULTIPLE
      | .other => 0
    (data_pos, f.byteCount)

/-- The octets of the span returned by `registersData()`. -/
def Frame.registersData (f : Frame) : List Nat :=
  f.buf.subspan f.registersDataSpan.1 f.registersDataSpan.2

/-- `swap_bytes(val)`: `(val << 8) | (val >> 8)` as `uint16_t`. -/
def swap_bytes (val : Nat) : Nat := ((val <<< 8) ||| (val >>> 8)) % 65536

/-- Getter `registersValues()`: one word per bit for the coil and
discrete-input codes, one word per octet pair otherwise. -/
def Frame.registersValues (f : Frame) : List Nat :=
  let byte_span := f.registersData
  if f.functionCode = ReadCoils ∨ f.functionCode = ReadDiscreteInputs then
    (List.range (byte_span.length * 8)).map fun i =>
      let bit_index := i % 8
      let byte_index := i / 8
      let bit_value := decide ((byte_span.getD byte_index 0 >>> bit_index) &&& 0x1 ≠ 0)
      if bit_value then 0xFF00 else 0
  else
    (List.range (byte_span.length / 2)).map fun i =>
      let idx1 := i * 2
      let idx2 := i * 2 + 1
      let val := byte_span.getD idx1 0 ||| (byte_span.getD idx2 0 <<< 8)
      swap_bytes val

/-- The loop of the setter `registersValues(values)` over a span of `size`
octets at buffer offset `dataPos`, from index `i` on.  The index advances by
two and `size` is at most 255, so `size` iterations of fuel always reach the
loop exit and the `uint16_t` index never wraps. -/
def registersValuesLoop (values : List Nat) (dataPos size : Nat) :
    Nat → Nat → Buffer → Buffer
  | 0, _, b => b
  | fuel + 1, i, b =>
    if i < size then
      let pos_values := i / 2
      if pos_values ≥ values.length then b
      else
        let b := b.write (dataPos + i) (values.getD pos_values 0 >>> 8)
        let b := b.write (dataPos + (i + 1)) (values.getD pos_values 0 &&& 0xFF)
        registersValuesLoop values dataPos size fuel (i + 2) b
    else b

/-- Setter `registersValues(values)`. -/
def Frame.setRegistersValues (f : Frame) (values : List Nat) : Frame :=
  if f.hasRegistersValues then
    let registers_data := f.registersDataSpan
    let size := registers_data.2
    { f with buf := registersValuesLoop values registers_data.1 size size 0 f.buf }
  else f

/-! ## Raw data, wire frames and builders -/

/-- `std::memcpy(buffer + offset, data, count)`. -/
def Buffer.memcpy (b : Buffer) (offset : Nat) (data : List Nat) (count : Nat) : Buffer :=
  fun i => if offset ≤ i ∧ i < offset + count then toByte (data.getD (i - offset) 0) else b i

/-- `setRawRtuData(RTU_Data, is_request)`, whose `copy` parameter is unused:
copies at most the size of `rtuBuffer()` (the buffer from
`RTU_HEADER_START_POSITION` on) and records the computed length in the MBAP
length field. -/
def Frame.setRawRtuData (f : Frame) (RTU_Data : List Nat) (is_request : Bool) : Frame :=
  let f := f.setIsRequest is_request
  let copy_count := min RTU_Data.length (BUFFER_SIZE - RTU_HEADER_START_POSITION)
  let f := { f with buf := f.buf.memcpy RTU_HEADER_START_POSITION RTU_Data copy_count }
  f.setMBAPLength f.RTULengthWithoutCRC

/-- `fromRawRtuData(RTU_Data, isRequest)`; the parameters `transaction_ID` and
`copy` of the source are not used by it. -/
def Frame.fromRawRtuData (RTU_Data : List Nat) (isRequest : Bool) : Frame :=
  Frame.empty.setRawRtuData RTU_Data isRequest

/-- `rtuFrame()`: appends the CRC and returns the frame afterwards together
with the octets of `subspan(RTU_HEADER_START_POSITION, rtuLength)`. -/
def Frame.rtuFrame (f : Frame) : Frame × List Nat :=
  let rtuLength := f.calculateRTULength
  let f := f.appendCRC
  (f, f.buf.subspan RTU_HEADER_START_POSITION rtuLength)

/-- `rebuild(...)`. -/
def Frame.rebuild (f : Frame) (is_request : Bool)
    (slave_ID function_code start_address register_count : Nat)
    (registers_values : List Nat) (transaction_ID : Nat) : Frame :=
  let f := f.setIsRequest is_request
  let f := f.setTransactionID transaction_ID
  let f := f.setSlaveID slave_ID
  let f := f.setFunctionCode function_code
  let f := f.setStartAddress start_address
  let f := f.setRegisterCount register_count
  let f := f.setByteCount (register_count * 2)
  let f := f.setRegistersValues registers_values
  let f := f.setMBAPLength f.RTULengthWithoutCRC
  f.appendCRC

/-- `build(...)`: `rebuild` on a default-constructed frame. -/
def Frame.build (is_request : Bool)
    (slave_ID function_code start_address register_count : Nat)
    (registers_values : List Nat) (transaction_ID : Nat) : Frame :=
  Frame.empty.rebuild is_request slave_ID function_code start_address register_count
    registers_values transaction_ID

/-- `rebuildExceptionResponse(...)`. -/
def Frame.rebuildExceptionResponse (f : Frame)
    (slave_ID function_code exception_code transaction_ID : Nat) : Frame :=
  let f := f.setTransactionID transaction_ID
  let f := f.setSlaveID slave_ID
  let f := f.setFunctionCode function_code
  let f := f.setIsException true
  let f := f.setExceptionCode exception_code
  let f := f.setMBAPLength f.RTULengthWithoutCRC
  f.appendCRC

/-- `buildExceptionResponse(...)`. -/
def Frame.buildExceptionResponse
    (slaveID function_code exception_code transaction_ID : Nat) : Frame :=
  Frame.empty.rebuildExceptionResponse slaveID function_code exception_code transaction_ID

/-! ## Reference bit-serial CRC-16/MODBUS -/

/-- One bit of the bit-serial CRC: shift the register right by one and XOR
it with `0xA001` when the bit shifted out was 1. -/
def crcBitStep (crc : Nat) : Nat :=
  if crc % 2 = 1 then (crc >>> 1) ^^^ 0xA001 else crc >>> 1

/-- One octet of the bit-serial CRC: XOR the octet into the low eight bits of
the register, then eight bit steps. -/
def crcBitSerialByte (crc byte : Nat) : Nat :=
  crcBitStep^[8] (crc ^^^ byte)

/-- The bit-serial CRC-16/MODBUS of a byte sequence, seed `0xFFFF`. -/
def crcBitSerial (data : List Nat) : Nat :=
  data.foldl crcBitSerialByte 0xFFFF

/-! ## Predicates and reference layouts used in the statements -/

/-- The frame is an exception response or carries one of the eight function
codes that the length calculation serializes. -/
def Frame.Serialized (f : Frame) : Prop :=
  f.isException = true ∨ functionGroup f.functionCode ≠ .other

/-- Frame `g` has the direction flag of `f` and the same octets in the `n`
octets from `RTU_HEADER_START_POSITION` on. -/
def Frame.AgreeRTU (f g : Frame) (n : Nat) : Prop :=
  g.isRequest = f.isRequest ∧ ∀ p, 6 ≤ p → p < 6 + n → g.buf p = f.buf p

/-- The eight function codes that `calculateRTULength` serializes. -/
def IsSupported (fc : Nat) : Prop :=
  fc = ReadCoils ∨ fc = ReadDiscreteInputs ∨ fc = ReadHoldingRegisters
    ∨ fc = ReadInputRegisters ∨ fc = WriteSingleCoil ∨ fc = WriteSingleRegister
    ∨ fc = WriteMultipleCoils ∨ fc = WriteMultipleRegisters

/-- A message body followed by its CRC-16, low octet first. -/
def withCRC (body : List Nat) : List Nat :=
  body ++ [calculateModbusCRC body % 256, calculateModbusCRC body / 256]

/-- The two octets of a 16-bit word, high octet first. -/
def wordOctets (x : Nat) : List Nat := [x / 256, x % 256]

/-- The function codes of `enum FunctionCode` other than `Invalid`. -/
def IsFunctionCode (fc : Nat) : Prop :=
  IsSupported fc ∨ fc = Diagnostics ∨ fc = MaskWriteRegister
    ∨ fc = ReadWriteMultipleRegisters ∨ fc = ReadDeviceIdentification

/-! ## TCP framing -/

/-- `tcpFrameSize()`: `MBAP_HEADER_SIZE + pduLength()`, an `int`. -/
def Frame.tcpFrameSize (f : Frame) : Nat := MBAP_HEADER_SIZE + f.pduLength

/-- `tcpFrame()`: stores the computed length in the MBAP length field and
returns the frame afterwards together with the octets of
`subspan(0, tcpFrameSize())`. -/
def Frame.tcpFrame (f : Frame) : Frame × List Nat :=
  let f := f.setMBAPLength f.RTULengthWithoutCRC
  (f, f.buf.subspan 0 f.tcpFrameSize)

/-! ## Expected response length and transmission time -/

/-- `calculateExpectedResponseRTULength()`.  For a request it calls the
four-argument `calculateRTULength(false, true, functionCode(),
registerCount() * 2)`, the last argument narrowed to `uint16_t`. -/
def Frame.calculateExpectedResponseRTULength (f : Frame) : Nat :=
  if !f.isRequest then f.RTULength
  else f.calculateRTULengthOf false true f.functionCode ((f.registerCount * 2) % 65536)

/-- Narrowing conversion to a 32-bit `int`. -/
def toInt32 (x : Int) : Int := (x + 2147483648) % 4294967296 - 2147483648

/-- `calculateTransmissionTimeMs(length, bitsPerSecond)`.  The quotient is
computed in `ssize_t` with C++ division (truncation toward zero) and stored
in the `int` variable `result`; a negative result is replaced by 0.  The C++
is undefined for `bitsPerSecond = 0` (division by zero) and for a product
outside `ssize_t`; the value computed here for such arguments is no behaviour
of the program, and the statements below keep to a non-zero divisor. -/
def calculateTransmissionTimeMs (length : Nat) (bitsPerSecond : Int) : Int :=
  let BITS_PER_BYTE : Int := 10
  let INCREASE_PRECISION : Int := 10
  let result : Int :=
    toInt32 (Int.tdiv
      (Int.tdiv (BITS_PER_BYTE * 1000 * (length : Int) * INCREASE_PRECISION) bitsPerSecond + 5)
      INCREASE_PRECISION)
  if result < 0 then 0 else result

/-- The one-argument `calculateTransmissionTimeMs(bitsPerSecond)`: the time for
`calculateRTULength()` octets. -/
def Frame.calculateTransmissionTimeMs (f : Frame) (bitsPerSecond : Int) : Int :=
  eModbus.calculateTransmissionTimeMs f.calculateRTULength bitsPerSecond

/-- `calculateResponseTransmissionTimeMs(bitsPerSecond)`. -/
def Frame.calculateResponseTransmissionTimeMs (f : Frame) (bitsPerSecond : Int) : Int :=
  let length := f.calculateExpectedResponseRTULength
  eModbus.calculateTransmissionTimeMs length bitsPerSecond

/-- `MasterBase::getResponseTimeout(send_frame, baud)`: the response
transmission time plus the member `deviceResponseTime_ms`, as `uint32_t`; the
`unsigned long` rate is narrowed to the `int` parameter of the callee. -/
def MasterBase.getResponseTimeout (deviceResponseTime_ms : Nat) (send_frame : Frame)
    (baud : Nat) : Nat :=
  ((send_frame.calculateResponseTransmissionTimeMs (toInt32 baud)
      + (deviceResponseTime_ms : Int)) % 4294967296).toNat

/-! ## Byte/register codec (`ModbusUtils.hpp`)

Registers are `uint16_t` values held in a list; a span is the list itself.
A function that can throw returns `Except`. -/

/-- The exception thrown by the codec: `std::out_of_range`. -/
inductive CodecError where
  | out_of_range
  deriving DecidableEq, Repr

/-- `getU8MSB(registerValue)`. -/
def getU8MSB (registerValue : Nat) : Nat := (registerValue >>> 8) % 256

/-- `getU8LSB(registerValue)`. -/
def getU8LSB (registerValue : Nat) : Nat := (registerValue &&& 0xFF) % 256

/-- `setU8LSB(currentRegisterValue, u8Value)`:
`(currentRegisterValue & ~(0xFF00)) | u8Value` as `uint16_t`.  On a 16-bit
value the mask `~(0xFF00)` keeps the low octet. -/
def setU8LSB (currentRegisterValue u8Value : Nat) : Nat :=
  ((currentRegisterValue % 65536 &&& 0x00FF) ||| u8Value) % 65536

/-- `setU8MSB(currentRegisterValue, u8Value)`:
`(currentRegisterValue & ~(0x00FF)) | u8Value << 8` as `uint16_t`.  On a 16-bit
value the mask `~(0x00FF)` keeps the high octet. -/
def setU8MSB (currentRegisterValue u8Value : Nat) : Nat :=
  ((currentRegisterValue % 65536 &&& 0xFF00) ||| (u8Value <<< 8)) % 65536

/-- `registersToU32(registers)`. -/
def registersToU32 (registers : List Nat) : Except CodecError Nat :=
  if registers.length < 2 then .error .out_of_range
  else .ok (((registers.getD 0 0 <<< 16) % 4294967296) ||| registers.getD 1 0)

/-- `u32ToRegisters(source, registers)`: the registers afterwards. -/
def u32ToRegisters (source : Nat) (registers : List Nat) : Except CodecError (List Nat) :=
  if registers.length < 2 then .error .out_of_range
  else .ok ((registers.set 0 ((source >>> 16) % 65536)).set 1 ((source &&& 0xFFFF) % 65536))

/-- `convertFromRegisters<uint32_t>(registers)`. -/
def convertFromRegistersU32 (registers : List Nat) : Except CodecError Nat :=
  if registers.length < 4 then .error .out_of_range
  else registersToU32 registers

/-- `convertToRegisters<uint32_t>(registers, source)`: the registers afterwards. -/
def convertToRegistersU32 (registers : List Nat) (source : Nat) :
    Except CodecError (List Nat) :=
  if registers.length < 4 then .error .out_of_range
  else u32ToRegisters source registers

/-- `convertFromRegisters<uint16_t>(registers)`. -/
def convertFromRegistersU16 (registers : List Nat) : Except CodecError Nat :=
  if registers.length < 1 then .error .out_of_range
  else .ok (registers.getD 0 0)

/-- `convertToRegisters<uint16_t>(registers, source)`: the registers afterwards. -/
def convertToRegistersU16 (registers : List Nat) (source : Nat) :
    Except CodecError (List Nat) :=
  if registers.length < 1 then .error .out_of_range
  else .ok (registers.set 0 (source % 65536))

/-- `convertFromRegisters<uint8_t, ByteOrder::MSB>(registers)`. -/
def convertFromRegistersU8MSB (registers : List Nat) : Except CodecError Nat :=
  if registers.length < 1 then .error .out_of_range
  else .ok (getU8MSB (registers.getD 0 0))

/-- `convertFromRegisters<uint8_t, ByteOrder::LSB>(registers)`. -/
def convertFromRegistersU8LSB (registers : List Nat) : Except CodecError Nat :=
  if registers.length < 1 then .error .out_of_range
  else .ok (getU8LSB (registers.getD 0 0))

/-- `convertToRegisters<uint8_t, ByteOrder::MSB>(registers, source)`:
`registers[0] = (registers[0] & 0x00FF) | (source << 8)`. -/
def convertToRegistersU8MSB (registers : List Nat) (source : Nat) :
    Except CodecError (List Nat) :=
  if registers.length < 1 then .error .out_of_range
  else .ok (registers.set 0 (((registers.getD 0 0 &&& 0x00FF) ||| ((source % 256) <<< 8)) % 65536))

/-- `convertToRegisters<uint8_t, ByteOrder::LSB>(registers, source)`:
`registers[0] = (registers[0] & 0xFF00) | source`. -/
def convertToRegistersU8LSB (registers : List Nat) (source : Nat) :
    Except CodecError (List Nat) :=
  if registers.length < 1 then .error .out_of_range
  else .ok (registers.set 0 (((registers.getD 0 0 &&& 0xFF00) ||| (source % 256)) % 65536))

/-- `convertFromRegisters<std::string>(registers)`: the characters, as their
octet values; stops at the first zero octet. -/
def convertFromRegistersString : List Nat → List Nat
  | [] => []
  | reg :: rest =>
    let msb := getU8MSB reg
    let lsb := getU8LSB reg
    if msb = 0 then []
    else if lsb = 0 then [msb]
    else msb :: lsb :: convertFromRegistersString rest

/-- `convertFromRegisters<std::vector<uint8_t>>(registers)`. -/
def convertFromRegistersBytes (registers : List Nat) : List Nat :=
  registers.flatMap fun reg => [getU8MSB reg, getU8LSB reg]

/-- The range-for loop of `convertToRegisters<std::string>` over the registers
still to visit, with the running `char_index`.  A character is represented by
its octet value; `static_cast<uint16_t>` of a character above `0x7F` depends on
the signedness of `char` and is taken as the octet value here. -/
def convertToRegistersStringLoop (source : List Nat) (max_chars : Nat) :
    List Nat → Nat → List Nat
  | [], _ => []
  | reg :: rest, char_index =>
    let step1 : Nat × Nat :=
      if char_index < source.length ∧ char_index < max_chars then
        ((reg ||| ((source.getD char_index 0 % 65536) <<< 8)) % 65536, char_index + 1)
      else (reg, char_index)
    let step2 : Nat × Nat :=
      if step1.2 < source.length ∧ step1.2 < max_chars then
        ((step1.1 ||| (source.getD step1.2 0 % 65536)) % 65536, step1.2 + 1)
      else step1
    if step2.2 ≥ source.length then step2.1 :: rest
    else step2.1 :: convertToRegistersStringLoop source max_chars rest step2.2

/-- `convertToRegisters<std::string>(registers, source)`: the registers
afterwards. -/
def convertToRegistersString (registers : List Nat) (source : List Nat) :
    Except CodecError (List Nat) :=
  let max_chars := registers.length * 2
  if max_chars < source.length then .error .out_of_range
  else
    .ok (convertToRegistersStringLoop source max_chars (registers.map fun _ => 0x0000) 0)

/-- The loop of `convertToRegisters<std::vector<uint8_t>>`.  Every iteration
advances `byte_idx`, so `bytes_to_process` iterations of fuel reach the exit. -/
def convertToRegistersBytesLoop (source : List Nat) (bytes_to_process : Nat) :
    Nat → Nat → Nat → List Nat → List Nat
  | 0, _, _, registers => registers
  | fuel + 1, reg_idx, byte_idx, registers =>
    if byte_idx < bytes_to_process then
      let registers :=
        registers.set reg_idx (setU8MSB (registers.getD reg_idx 0) (source.getD byte_idx 0))
      let byte_idx := byte_idx + 1
      if byte_idx < bytes_to_process then
        let registers :=
          registers.set reg_idx (setU8LSB (registers.getD reg_idx 0) (source.getD byte_idx 0))
        convertToRegistersBytesLoop source bytes_to_process fuel (reg_idx + 1) (byte_idx + 1)
          registers
      else
        convertToRegistersBytesLoop source bytes_to_process fuel (reg_idx + 1) byte_idx
          registers
    else registers

/-- `convertToRegisters<std::vector<uint8_t>>(registers, source)`: the
registers afterwards. -/
def convertToRegistersBytes (registers : List Nat) (source : List Nat) :
    Except CodecError (List Nat) :=
  let max_regs := registers.length
  let max_bytes_to_write := max_regs * 2
  let source_byte_count := source.length
  let bytes_to_process := min source_byte_count max_bytes_to_write
  if max_bytes_to_write < source.length then .error .out_of_range
  else .ok (convertToRegistersBytesLoop source bytes_to_process bytes_to_process 0 0 registers)

/-! ## Codec writes as state transformers

The registers after the call together with the exception thrown, if any: the
statements of the source in their order, the size guard first. -/

/-- `convertToRegisters<std::string>(registers, source)`: the registers after
the call and the exception, if one is thrown. -/
def convertToRegistersStringEffect (registers : List Nat) (source : List Nat) :
    List Nat × Option CodecError :=
  let max_chars := registers.length * 2
  if max_chars < source.length then (registers, some .out_of_range)
  else
    let registers := registers.map fun _ => 0x0000
    (convertToRegistersStringLoop source max_chars registers 0, none)

/-- `convertToRegisters<std::vector<uint8_t>>(registers, source)`: the
registers after the call and the exception, if one is thrown. -/
def convertToRegistersBytesEffect (registers : List Nat) (source : List Nat) :
    List Nat × Option CodecError :=
  let max_regs := registers.length
  let max_bytes_to_write := max_regs * 2
  let source_byte_count := source.length
  let bytes_to_process := min source_byte_count max_bytes_to_write
  if max_bytes_to_write < source.length then (registers, some .out_of_range)
  else
    (convertToRegistersBytesLoop source bytes_to_process bytes_to_process 0 0 registers, none)

/-! ## Register buffer (`ModbusRegisterBuffer.hpp`) -/

/-- `MAX_MODBUS_REGISTERS`. -/
def MAX_MODBUS_REGISTERS : Nat := 125

/-- `enum class RegisterType`. -/
inductive RegisterType where
  | Coil
  | DiscreteInput
  | AnalogInput
  | Holding
  deriving DecidableEq, Repr

/-- The value of the enumerator, `static_cast<int>(registerType)`. -/
def RegisterType.toNat : RegisterType → Nat
  | .Coil => 0
  | .DiscreteInput => 1
  | .AnalogInput => 2
  | .Holding => 3

/-- `RegisterBufferView`: start address, register type and the registers of
the span it views. -/
structure RegisterBufferView where
  startAddress_ : Nat
  registerType_ : RegisterType
  buffer_ : List Nat

/-- `calculate_offset(modbus_address)`. -/
def RegisterBufferView.calculate_offset (v : RegisterBufferView) (modbus_address : Nat) :
    Except CodecError Nat :=
  if modbus_address < v.startAddress_ then .error .out_of_range
  else
    let offset := (modbus_address - v.startAddress_) % 65536
    if offset > v.buffer_.length ∨ offset > MAX_MODBUS_REGISTERS then .error .out_of_range
    else .ok offset

/-- `get_buffer_for_address(modbus_address)`: `buffer_.subspan(offset)` as the
offset at which the sub-span begins and its registers. -/
def RegisterBufferView.get_buffer_for_address (v : RegisterBufferView) (modbus_address : Nat) :
    Except CodecError (Nat × List Nat) :=
  match v.calculate_offset modbus_address with
  | .error e => .error e
  | .ok offset => .ok (offset, v.buffer_.drop offset)

/-- `put<uint16_t>(modbus_address, value)`: the view after
`convertToRegisters<uint16_t>` has written through the sub-span. -/
def RegisterBufferView.putU16 (v : RegisterBufferView) (modbus_address value : Nat) :
    Except CodecError RegisterBufferView :=
  match v.get_buffer_for_address modbus_address with
  | .error e => .error e
  | .ok (offset, span) =>
    match convertToRegistersU16 span value with
    | .error e => .error e
    | .ok span => .ok { v with buffer_ := v.buffer_.take offset ++ span }

/-- `get<uint16_t>(modbus_address)`. -/
def RegisterBufferView.getU16 (v : RegisterBufferView) (modbus_address : Nat) :
    Except CodecError Nat :=
  match v.get_buffer_for_address modbus_address with
  | .error e => .error e
  | .ok (_, span) => convertFromRegistersU16 span

/-- `RegisterBuffer`: the owner of the registers. -/
structure RegisterBuffer where
  startAddress_ : Nat
  registerType_ : RegisterType
  registersValue_ : List Nat

/-- The constructor `RegisterBuffer(startAddress, registerType, numRegisters)`:
a vector of `numRegisters` value-initialised registers. -/
def RegisterBuffer.new (startAddress : Nat) (registerType : RegisterType) (numRegisters : Nat) :
    RegisterBuffer :=
  ⟨startAddress, registerType, List.replicate numRegisters 0⟩

/-- `view()`. -/
def RegisterBuffer.view (b : RegisterBuffer) : RegisterBufferView :=
  ⟨b.startAddress_, b.registerType_, b.registersValue_⟩

/-- `RegisterBuffer::put<uint16_t>(modbus_address, value)`: forwards to the
view, whose span is the vector of this buffer. -/
def RegisterBuffer.putU16 (b : RegisterBuffer) (modbus_address value : Nat) :
    Except CodecError RegisterBuffer :=
  match b.view.putU16 modbus_address value with
  | .error e => .error e
  | .ok v => .ok { b with registersValue_ := v.buffer_ }

/-- `RegisterBuffer::get<uint16_t>(modbus_address)`. -/
def RegisterBuffer.getU16 (b : RegisterBuffer) (modbus_address : Nat) : Except CodecError Nat :=
  b.view.getU16 modbus_address

/-! ## Tag catalog and request planner (`ModbusMasterTag.hpp`) -/

/-- `TagID`. -/
abbrev TagID := String

/-- The fields of `struct Tag` that the catalog and the planner read. -/
structure Tag where
  register_type : RegisterType
  register_number : Nat
  register_length : Nat
  key : TagID
  deriving DecidableEq, Repr

/-- `MasterTag::Request`. -/
structure Request where
  registerType : RegisterType
  startAddress : Nat
  quantity : Nat
  deriving DecidableEq, Repr

/-- `TagMap`, a `std::unordered_map<TagID, size_t>`: the index stored for a
key, if any. -/
abbrev TagMap := TagID → Option Nat

/-- `TagMap::clear()` leaves the empty map. -/
def TagMap.empty : TagMap := fun _ => none

/-- `TagMap::contains(key)`. -/
def TagMap.contains (m : TagMap) (key : TagID) : Bool := (m key).isSome

/-- `TagMap::emplace(key, index)`: inserts unless the key is present. -/
def TagMap.emplace (m : TagMap) (key : TagID) (index : Nat) : TagMap :=
  fun k => if k = key then (match m key with | some i => some i | none => some index) else m k

/-- The members of `MasterTag` that the catalog and the planner use. -/
structure MasterTag where
  tagsDatabase : List Tag
  IDtoTagMap : TagMap
  excludedTags : List TagID
  excludedRegisters : RegisterType → List Nat

/-- The comparator passed to `std::ranges::sort` in `registerTags` and in
`prepareReadRequests`: by register type, then by register number. -/
def tagLess (a b : Tag) : Bool :=
  decide (a.register_type.toNat < b.register_type.toNat) ||
    (decide (a.register_type = b.register_type) && decide (a.register_number < b.register_number))

/-- `std::ranges::sort(tags, tagLess)`: the elements rearranged so that no
element is `tagLess` an earlier one, here by insertion.  `std::ranges::sort`
leaves the order of elements that compare equal unspecified; the insertion
order used here is one of the orders it may produce. -/
def sortTagsByRegister (tags : List Tag) : List Tag :=
  tags.insertionSort (fun a b => tagLess b a = false)

/-- `clearTags()`. -/
def MasterTag.clearTags (m : MasterTag) : MasterTag :=
  { m with IDtoTagMap := TagMap.empty, tagsDatabase := [] }

/-- The loop of `registerTags` from index `i` on, over the catalog elements
from that index: `IDtoTagMap.emplace(TagID{tagsDatabase[i].key}, i)`. -/
def registerTagsLoop : TagMap → Nat → List Tag → TagMap
  | IDtoTagMap, _, [] => IDtoTagMap
  | IDtoTagMap, i, tag :: rest => registerTagsLoop (IDtoTagMap.emplace tag.key i) (i + 1) rest

/-- `registerTags(tagsToRegister)`. -/
def MasterTag.registerTags (m : MasterTag) (tagsToRegister : List Tag) : MasterTag :=
  let m := m.clearTags
  let m := { m with tagsDatabase := tagsToRegister }
  let m := { m with tagsDatabase := sortTagsByRegister m.tagsDatabase }
  { m with IDtoTagMap := registerTagsLoop m.IDtoTagMap 0 m.tagsDatabase }

/-- `getTag(tagID)`: `tagsDatabase[IDtoTagMap.at(tagID)]`; `none` stands for a
missing key or an index outside the catalog. -/
def MasterTag.getTag (m : MasterTag) (tagID : TagID) : Option Tag :=
  match m.IDtoTagMap tagID with
  | none => none
  | some i => m.tagsDatabase[i]?

/-- `checkRegistersContinuity(first_tag_id, end_tag_id)`. -/
def MasterTag.checkRegistersContinuity (m : MasterTag) (first_tag_id end_tag_id : TagID) :
    Bool :=
  if first_tag_id = end_tag_id then true
  else if !m.IDtoTagMap.contains first_tag_id || !m.IDtoTagMap.contains end_tag_id then false
  else true

/-- `checkForExcludedRegisters(registerType, firstRegisterNumber,
lastRegisterNumber)`: whether an excluded register of that type lies between
the two numbers, taken in ascending order. -/
def MasterTag.checkForExcludedRegisters (m : MasterTag) (registerType : RegisterType)
    (firstRegisterNumber lastRegisterNumber : Nat) : Bool :=
  let bounds : Nat × Nat :=
    if firstRegisterNumber > lastRegisterNumber then (lastRegisterNumber, firstRegisterNumber)
    else (firstRegisterNumber, lastRegisterNumber)
  (m.excludedRegisters registerType).any fun excludedRegisterNumber =>
    decide (excludedRegisterNumber ≥ bounds.1) && decide (excludedRegisterNumber ≤ bounds.2)

/-- The request that a tag opens: its own span. -/
def Tag.request (tag : Tag) : Request :=
  ⟨tag.register_type, tag.register_number, tag.register_length⟩

/-- `currentRegisterEnd`: `std::max(distance + register_length, quantity)` in
`int`, with `distance = register_number - startAddress`, narrowed to
`uint16_t`. -/
def currentRegisterEnd (currentRequest : Request) (currentTag : Tag) : Nat :=
  let distance : Int := (currentTag.register_number : Int) - (currentRequest.startAddress : Int)
  ((max (distance + (currentTag.register_length : Int)) (currentRequest.quantity : Int))
    % 65536).toNat

/-- One iteration of the loop of `prepareReadRequests(std::span<const TagRef>)`
on the requests collected so far. -/
def MasterTag.prepareReadRequestsStep (m : MasterTag) (requests : List Request)
    (currentTag : Tag) : List Request :=
  let requests := if requests.isEmpty then requests ++ [currentTag.request] else requests
  match requests.getLast? with
  | none => requests
  | some currentRequest =>
    let isSameType := decide (currentRequest.registerType = currentTag.register_type)
    let registerOffsetLessThanMax :=
      decide (currentRegisterEnd currentRequest currentTag ≤ MAX_MODBUS_REGISTERS)
    if isSameType && registerOffsetLessThanMax
        && m.checkForExcludedRegisters currentRequest.registerType currentRequest.startAddress
          currentTag.register_number then
      requests.dropLast
        ++ [{ currentRequest with quantity := currentRegisterEnd currentRequest currentTag }]
    else requests ++ [currentTag.request]

set_option linter.unusedVariables false in
/-- `prepareReadRequests(std::span<const TagRef> tags)`: `sortedTags` is
computed and sorted, the loop runs over `tags`. -/
def MasterTag.prepareReadRequests (m : MasterTag) (tags : List Tag) : List Request :=
  if tags.isEmpty then []
  else
    let sortedTags := sortTagsByRegister tags
    tags.foldl m.prepareReadRequestsStep []

/-- One iteration of the loop of `prepareReadRequests(std::span<TagID>)`;
`previousTagID` is the variable of that name, which the loop never assigns. -/
def MasterTag.prepareReadRequestsTagIDStep (m : MasterTag) (previousTagID : TagID)
    (requests : List Request) (currentTagID : TagID) : List Request :=
  if !m.IDtoTagMap.contains currentTagID then requests
  else if m.excludedTags.contains currentTagID then requests
  else
    match m.getTag currentTagID with
    | none => requests
    | some currentTag =>
      let requests := if requests.isEmpty then requests ++ [currentTag.request] else requests
      match requests.getLast? with
      | none => requests
      | some currentRequest =>
        let isSameType := decide (currentRequest.registerType = currentTag.register_type)
        let registerOffsetLessThanMax :=
          decide (currentRegisterEnd currentRequest currentTag ≤ MAX_MODBUS_REGISTERS)
        let registersSpaceContinuous := m.checkRegistersContinuity previousTagID currentTagID
        if isSameType && registerOffsetLessThanMax && registersSpaceContinuous then
          requests.dropLast
            ++ [{ currentRequest with quantity := currentRegisterEnd currentRequest currentTag }]
        else requests ++ [currentTag.request]

/-- `prepareReadRequests(std::span<TagID> tags)`; the call of `sortTags` is
commented out in the source. -/
def MasterTag.prepareReadRequestsTagID (m : MasterTag) (tags : List TagID) : List Request :=
  if tags.isEmpty then []
  else tags.foldl (m.prepareReadRequestsTagIDStep "") []

/-! ## Example data used in the statements about the planner -/

/-- Tag `A`: two Holding registers from register 10. -/
def exampleTagA : Tag := ⟨.Holding, 10, 2, "A"⟩

/-- Tag `B`: one Holding register, register 12. -/
def exampleTagB : Tag := ⟨.Holding, 12, 1, "B"⟩

/-- Tag `C`: one Holding register, register 100. -/
def exampleTagC : Tag := ⟨.Holding, 100, 1, "C"⟩

/-- A master with an empty catalog, no excluded tags and the given set of
excluded Holding registers. -/
def MasterTag.withExcludedHolding (excluded : List Nat) : MasterTag :=
  ⟨[], TagMap.empty, [], fun registerType => if registerType = .Holding then excluded else []⟩

/-! ## Stream device (`IStreamDevice.hpp`) -/

/-- `enum class SerialError`. -/
inductive SerialError where
  | SUCCESS
  | TIMEOUT
  | READY_TIMEOUT
  | INTERNAL_ERROR
  | BUSY
  | BUFFER_TOO_SMALL
  | INVALID_ARGUMENT
  | UNKNOWN_ERROR
  deriving DecidableEq, Repr

/-- `IStreamDevice::InvalidBaudrate`. -/
def InvalidBaudrate : Nat := 0

/-- A call of a state-changing member function of the stream device with its
arguments: `baudrate(baudrate)`, `write(buffer, timeout_ms)` and
`read(buffer, timeout_ms)`, the latter with the size of the buffer offered. -/
inductive DeviceCall where
  | setBaudrate (baudrate : Nat)
  | write (buffer : List Nat) (timeout_ms : Nat)
  | read (size : Nat) (timeout_ms : Nat)
  deriving DecidableEq, Repr

/-- An implementation of the abstract interface `IStreamDevice`: what each member
function returns given all the calls made so far, the current one last.  `read`
also gives the octets it stored at the start of the buffer passed to it. -/
structure StreamBehaviour where
  read : List DeviceCall → SerialError × List Nat
  write : List DeviceCall → SerialError
  baudrate : List DeviceCall → Nat

/-- The stream device that a master refers to: its implementation and the
calls made on it so far, oldest first. -/
structure IStreamDevice where
  behaviour : StreamBehaviour
  calls : List DeviceCall

/-- The setter `IStreamDevice::baudrate(baudrate)`. -/
def IStreamDevice.setBaudrate (d : IStreamDevice) (baudrate : Nat) : IStreamDevice :=
  { d with calls := d.calls ++ [.setBaudrate baudrate] }

/-- The getter `IStreamDevice::baudrate()`. -/
def IStreamDevice.baudrate (d : IStreamDevice) : Nat := d.behaviour.baudrate d.calls

/-- `IStreamDevice::write(buffer, timeout_ms)`: the device afterwards and the
error code. -/
def IStreamDevice.write (d : IStreamDevice) (buffer : List Nat) (timeout_ms : Nat) :
    IStreamDevice × SerialError :=
  let calls := d.calls ++ [.write buffer timeout_ms]
  ({ d with calls := calls }, d.behaviour.write calls)

/-- `IStreamDevice::read(buffer, timeout_ms)` on a buffer of `size` octets: the
device afterwards, the error code and the octets stored. -/
def IStreamDevice.read (d : IStreamDevice) (size timeout_ms : Nat) :
    IStreamDevice × SerialError × List Nat :=
  let calls := d.calls ++ [.read size timeout_ms]
  ({ d with calls := calls }, d.behaviour.read calls)

/-! ## Master (`ModbusMasterBase.cpp`) -/

/-- The exceptions thrown by `MasterBase`: `std::invalid_argument`,
`StreamDeviceFailure`, `InvalidFrame` and `ModbusException`. -/
inductive MasterError where
  | invalid_argument
  | StreamDeviceFailure (device_error : SerialError)
  | InvalidFrame (validation_status : ValidationStatus)
  | ModbusException (exception_code : Nat)
  deriving DecidableEq, Repr

/-- The table `devicesBaudratesMap`, a `std::map<uint8_t, uint32_t>`: the rate
stored for a slave id, if any. -/
abbrev BaudMap := Nat → Option Nat

/-- `std::map::contains(key)`. -/
def BaudMap.contains (m : BaudMap) (key : Nat) : Bool := (m key).isSome

/-- `std::map::emplace(key, value)`: inserts unless the key is present. -/
def BaudMap.emplace (m : BaudMap) (key value : Nat) : BaudMap :=
  fun k => if k = key then (match m key with | some v => some v | none => some value) else m k

/-- `std::map::erase(key)`. -/
def BaudMap.erase (m : BaudMap) (key : Nat) : BaudMap :=
  fun k => if k = key then none else m k

/-- `std::map::operator[](key)`: the table afterwards, with a value-initialised
entry inserted when the key was absent, and the value of the entry. -/
def BaudMap.subscript (m : BaudMap) (key : Nat) : BaudMap × Nat :=
  match m key with
  | some v => (m, v)
  | none => (fun k => if k = key then some 0 else m k, 0)

/-- The members of `MasterBase`: the stream device it refers to, `isTCP`,
`devicesBaudratesMap` and `deviceResponseTime_ms`. -/
structure MasterBase where
  streamDevice : IStreamDevice
  isTCP : Bool
  devicesBaudratesMap : BaudMap
  deviceResponseTime_ms : Nat

/-- `MasterBase::baudrates`. -/
def MasterBase.baudrates : List Nat :=
  [9600, 19200, 38400, 57600, 115200, 230400, 460800, 921600, 1000000, 2000000]

/-- `MasterBase::getFunctionCode(isRead, register_type)`; the four enumerators
of `RegisterType` leave nothing for the `default` label. -/
def MasterBase.getFunctionCode (isRead : Bool) (register_type : RegisterType) :
    Except MasterError Nat :=
  match register_type with
  | .Coil => if isRead then .ok ReadCoils else .ok WriteMultipleCoils
  | .DiscreteInput => if isRead then .ok ReadDiscreteInputs else .error .invalid_argument
  | .AnalogInput => if isRead then .ok ReadInputRegisters else .error .invalid_argument
  | .Holding => if isRead then .ok ReadHoldingRegisters else .ok WriteMultipleRegisters

/-- The timeout argument `send_frame.calculateTransmissionTimeMs(baud) * 2`,
an `int`, converted to an unsigned parameter of `bits` bits. -/
def transmissionTimeout (send_frame : Frame) (baud : Nat) (bits : Nat) : Nat :=
  ((send_frame.calculateTransmissionTimeMs (toInt32 baud) * 2) % (2 ^ bits : Int)).toNat

/-- The frame after `_streamDevice.read(span, timeout)` has stored `data` at
the start of the span that begins at `offset` of the frame buffer. -/
def Frame.storeRead (f : Frame) (offset : Nat) (data : List Nat) : Frame :=
  { f with buf := f.buf.memcpy offset data (min data.length (BUFFER_SIZE - offset)) }

/-- The probe loop of `detectBaud` over the remaining candidates: the device,
the two frames and `working_baud` at the loop exit.  `rtuFrame()` is taken
before the timeout argument of the same call.  At a candidate whose value as
`int` is 0 the C++ divides by zero in `calculateTransmissionTimeMs`; what this
loop computes from such a candidate on is no behaviour of the program. -/
def MasterBase.detectBaudLoop (deviceResponseTime_ms : Nat) :
    IStreamDevice → Frame → Frame → List Nat → IStreamDevice × Frame × Frame × Nat
  | device, send_frame, receive_frame, [] => (device, send_frame, receive_frame, 0)
  | device, send_frame, receive_frame, baud :: rest =>
    let device := device.setBaudrate baud
    let sent := send_frame.rtuFrame
    let send_frame := sent.1
    let written := device.write sent.2 (transmissionTimeout send_frame baud 32)
    let device := written.1
    if written.2 ≠ SerialError.SUCCESS then (device, send_frame, receive_frame, 0)
    else
      let got := device.read (BUFFER_SIZE - RTU_HEADER_START_POSITION)
        (MasterBase.getResponseTimeout deviceResponseTime_ms send_frame baud)
      let device := got.1
      let receive_frame := receive_frame.storeRead RTU_HEADER_START_POSITION got.2.2
      if got.2.1 = SerialError.TIMEOUT then
        MasterBase.detectBaudLoop deviceResponseTime_ms device send_frame receive_frame rest
      else if got.2.1 ≠ SerialError.SUCCESS then (device, send_frame, receive_frame, 0)
      else if receive_frame.validateRTU = ValidationStatus.OK then
        (device, send_frame, receive_frame, baud)
      else MasterBase.detectBaudLoop deviceResponseTime_ms device send_frame receive_frame rest

/-- The end of `detectBaud`: `emplace` when `working_baud` is non-zero,
`erase` otherwise. -/
def MasterBase.recordBaud (m : MasterBase) (slave_ID working_baud : Nat) : MasterBase × Nat :=
  if working_baud ≠ 0 then
    ({ m with devicesBaudratesMap := m.devicesBaudratesMap.emplace slave_ID working_baud },
      working_baud)
  else ({ m with devicesBaudratesMap := m.devicesBaudratesMap.erase slave_ID }, working_baud)

/-- `MasterBase::detectBaud(slave_ID, baudrates)`: the master afterwards and the
value returned. -/
def MasterBase.detectBaud (m : MasterBase) (slave_ID : Nat) (baudrates : List Nat) :
    MasterBase × Nat :=
  let send_frame := Frame.build true slave_ID ReadInputRegisters 0 1 [] 0
  let receive_frame := Frame.empty
  let originalBaud := m.streamDevice.baudrate
  if originalBaud ≠ InvalidBaudrate then
    let looped :=
      MasterBase.detectBaudLoop m.deviceResponseTime_ms m.streamDevice send_frame receive_frame
        baudrates
    let device := looped.1.setBaudrate originalBaud
    ({ m with streamDevice := device }).recordBaud slave_ID looped.2.2.2
  else
    let originalBaud := 9600
    let sent := send_frame.rtuFrame
    let send_frame := sent.1
    let written := m.streamDevice.write sent.2 (transmissionTimeout send_frame originalBaud 32)
    if written.2 ≠ SerialError.SUCCESS then
      ({ m with streamDevice := written.1 }, InvalidBaudrate)
    else
      let got := written.1.read (BUFFER_SIZE - RTU_HEADER_START_POSITION)
        (MasterBase.getResponseTimeout m.deviceResponseTime_ms send_frame originalBaud)
      let receive_frame := receive_frame.storeRead RTU_HEADER_START_POSITION got.2.2
      if got.2.1 ≠ SerialError.SUCCESS then ({ m with streamDevice := got.1 }, InvalidBaudrate)
      else
        let working_baud :=
          if receive_frame.validateRTU = ValidationStatus.OK then
            (if baudrates.isEmpty then 1 else baudrates.getD 0 0)
          else 0
        ({ m with streamDevice := got.1 }).recordBaud slave_ID working_baud

/-- `MasterBase::sendFrame(send_frame, timeout_ms)`: the master and the frame
afterwards, and the exception thrown, if any. -/
def MasterBase.sendFrame (m : MasterBase) (send_frame : Frame) (timeout_ms : Nat) :
    MasterBase × Frame × Option MasterError :=
  let sent := if m.isTCP then send_frame.tcpFrame else send_frame.rtuFrame
  let written := m.streamDevice.write sent.2 timeout_ms
  let m := { m with streamDevice := written.1 }
  if written.2 ≠ SerialError.SUCCESS then (m, sent.1, some (.StreamDeviceFailure written.2))
  else (m, sent.1, none)

/-- `MasterBase::receiveFrame(receive_frame, timeout_ms)`: the master and the
frame afterwards, and the exception thrown, if any. -/
def MasterBase.receiveFrame (m : MasterBase) (receive_frame : Frame) (timeout_ms : Nat) :
    MasterBase × Frame × Option MasterError :=
  let receive_frame := receive_frame.setIsRequest false
  let offset := if m.isTCP then 0 else RTU_HEADER_START_POSITION
  let got := m.streamDevice.read (BUFFER_SIZE - offset) timeout_ms
  let m := { m with streamDevice := got.1 }
  let receive_frame := receive_frame.storeRead offset got.2.2
  if got.2.1 ≠ SerialError.SUCCESS then
    (m, receive_frame, some (.StreamDeviceFailure got.2.1))
  else (m, receive_frame, none)

/-- `MasterBase::sendReceiveFrame(send_frame, receive_frame)` as both call
sites use it, with the two references bound to the same frame: the master and
that frame afterwards, and the exception thrown, if any. -/
def MasterBase.sendReceiveFrame (m : MasterBase) (frame : Frame) :
    MasterBase × Frame × Option MasterError :=
  let slave_ID := frame.slaveID
  let resolved : MasterBase × Nat × Option MasterError :=
    if !m.devicesBaudratesMap.contains slave_ID then
      let detected := m.detectBaud slave_ID MasterBase.baudrates
      if detected.2 = 0 then (detected.1, detected.2, some (.StreamDeviceFailure .TIMEOUT))
      else (detected.1, detected.2, none)
    else
      let found := m.devicesBaudratesMap.subscript slave_ID
      ({ m with devicesBaudratesMap := found.1 }, found.2, none)
  let m := resolved.1
  let baud := resolved.2.1
  match resolved.2.2 with
  | some e => (m, frame, some e)
  | none =>
    let m := { m with streamDevice := m.streamDevice.setBaudrate baud }
    let sent := m.sendFrame frame (transmissionTimeout frame baud 16)
    match sent.2.2 with
    | some e => (sent.1, sent.2.1, some e)
    | none =>
      let m := sent.1
      let frame := sent.2.1
      let found := m.devicesBaudratesMap.subscript slave_ID
      let m := { m with devicesBaudratesMap := found.1 }
      let received :=
        m.receiveFrame frame
          (MasterBase.getResponseTimeout m.deviceResponseTime_ms frame found.2 % 65536)
      match received.2.2 with
      | some e => (received.1, received.2.1, some e)
      | none =>
        let validation := received.2.1.validateRTU
        if validation ≠ ValidationStatus.OK then
          (received.1, received.2.1, some (.InvalidFrame validation))
        else (received.1, received.2.1, none)

/-- `MasterBase::write(slave_ID, register_type, start_address, values)`: the
master afterwards and the exception thrown, if any.  The function code is
computed while the arguments of `Frame::build` are evaluated. -/
def MasterBase.write (m : MasterBase) (slave_ID : Nat) (register_type : RegisterType)
    (start_address : Nat) (values : List Nat) : MasterBase × Option MasterError :=
  match MasterBase.getFunctionCode false register_type with
  | .error e => (m, some e)
  | .ok function_code =>
    let frame :=
      Frame.build true slave_ID function_code start_address (values.length % 65536) values 0
    let exchanged := m.sendReceiveFrame frame
    match exchanged.2.2 with
    | some e => (exchanged.1, some e)
    | none =>
      if exchanged.2.1.isException then
        (exchanged.1, some (.ModbusException exchanged.2.1.exceptionCode))
      else (exchanged.1, none)

/-! ## Example data used in the statements about the master -/

/-- The rate set by the most recent `baudrate(baudrate)` call, if any. -/
def lastBaudrate : List DeviceCall → Option Nat
  | [] => none
  | call :: rest =>
    match lastBaudrate rest with
    | some baudrate => some baudrate
    | none =>
      match call with
      | .setBaudrate baudrate => some baudrate
      | _ => none

/-- A device that reports the rate 9600, accepts every write, and answers a
read with the valid response `01 04 02 00 07 F8 F2` when the rate set last is
`workingBaud`, with a timeout otherwise. -/
def exampleDevice (workingBaud : Nat) : StreamBehaviour where
  read := fun calls =>
    if lastBaudrate calls = some workingBaud then
      (.SUCCESS, [0x01, 0x04, 0x02, 0x00, 0x07, 0xF8, 0xF2])
    else (.TIMEOUT, [])
  write := fun _ => .SUCCESS
  baudrate := fun _ => 9600

/-- A device that reports no rate (`InvalidBaudrate`) and fails every write and
read with a timeout. -/
def exampleDeadDevice : StreamBehaviour where
  read := fun _ => (.TIMEOUT, [])
  write := fun _ => .TIMEOUT
  baudrate := fun _ => InvalidBaudrate

/-- A table with one entry. -/
def exampleTable (slave_ID baud : Nat) : BaudMap :=
  fun k => if k = slave_ID then some baud else none

/-- An RTU master on a device with the given behaviour and no calls made yet,
with the given table and the default `deviceResponseTime_ms = 30`. -/
def exampleMaster (behaviour : StreamBehaviour) (table : BaudMap) : MasterBase :=
  ⟨⟨behaviour, []⟩, false, table, 30⟩

/-! # Theorems -/

/-! ## CRC: table against bit-serial -/

theorem crcBitStep_xor (a c : Nat) :
    crcBitStep (a ^^^ c) = crcBitStep a ^^^ crcBitStep c := by
  unfold crcBitStep
  simp only [Nat.shiftRight_succ, Nat.shiftRight_zero, Nat.xor_div_two]
  have ha : a % 2 = 0 ∨ a % 2 = 1 := by omega
  have hc : c % 2 = 0 ∨ c % 2 = 1 := by omega
  have hx : (a ^^^ c) % 2 = (a + c) % 2 := Nat.xor_mod_two_eq
  rcases ha with ha | ha <;> rcases hc with hc | hc
  · have : (a ^^^ c) % 2 = 0 := by omega
    simp [ha, hc, this]
  · have : (a ^^^ c) % 2 = 1 := by omega
    simp [ha, hc, this, Nat.xor_assoc]
  · have : (a ^^^ c) % 2 = 1 := by omega
    simp only [ha, hc, this, if_true]
    simp
    ac_rfl
  · have : (a ^^^ c) % 2 = 0 := by omega
    simp only [ha, hc, this, if_true]
    simp only [Nat.zero_ne_one, if_false]
    have h : (a / 2 ^^^ 40961) ^^^ (c / 2 ^^^ 40961) = (a / 2 ^^^ c / 2) ^^^ (40961 ^^^ 40961) := by
      ac_rfl
    rw [h, Nat.xor_self, Nat.xor_zero]

theorem crcBitStep_iterate_xor (k a c : Nat) :
    crcBitStep^[k] (a ^^^ c) = crcBitStep^[k] a ^^^ crcBitStep^[k] c := by
  induction k generalizing a c with
  | zero => rfl
  | succ k ih => simp only [Function.iterate_succ, Function.comp_apply, crcBitStep_xor, ih]

theorem crcBitStep_even (a : Nat) : crcBitStep (2 * a) = a := by
  unfold crcBitStep
  have h : (2 * a) % 2 = 0 := by omega
  simp only [h, Nat.zero_ne_one, if_false, Nat.shiftRight_succ, Nat.shiftRight_zero]
  omega

theorem crcBitStep_iterate_shift (k a : Nat) : crcBitStep^[k] (2 ^ k * a) = a := by
  induction k generalizing a with
  | zero => simp
  | succ k ih =>
    have h : 2 ^ (k + 1) * a = 2 * (2 ^ k * a) := by rw [pow_succ]; ring
    rw [Function.iterate_succ, Function.comp_apply, h, crcBitStep_even, ih]

set_option maxRecDepth 100000 in
theorem crcTable_eq_bitSerial :
    ∀ x, x < 256 → crcTable.getD x 0 = crcBitStep^[8] x := by
  decide

set_option maxRecDepth 100000 in
theorem crcTable_lt : ∀ x, x < 256 → crcTable.getD x 0 < 65536 := by
  decide

theorem split_low_octet (x : Nat) : x = (2 ^ 8 * (x >>> 8)) ^^^ (x % 2 ^ 8) := by
  apply Nat.eq_of_testBit_eq
  intro i
  simp only [Nat.testBit_xor, Nat.testBit_mul_pow_two, Nat.testBit_mod_two_pow,
    Nat.testBit_shiftRight]
  by_cases h : i < 8
  · have h2 : ¬ (8 ≤ i) := by omega
    simp [h, h2]
  · have h2 : 8 ≤ i := by omega
    have h3 : 8 + (i - 8) = i := by omega
    simp [h, h2, h3]

theorem shiftRight_xor_octet (crc byte : Nat) (hb : byte < 256) :
    (crc ^^^ byte) >>> 8 = crc >>> 8 := by
  apply Nat.eq_of_testBit_eq
  intro i
  have hlt : byte < 2 ^ (8 + i) :=
    lt_of_lt_of_le hb (by
      have : 2 ^ 8 ≤ 2 ^ (8 + i) := Nat.pow_le_pow_right (by decide) (by omega)
      simpa using this)
  simp [Nat.testBit_shiftRight, Nat.testBit_xor, Nat.testBit_lt_two_pow hlt]

theorem crcStep_eq_bitSerialByte (crc byte : Nat) (hb : byte < 256) :
    crcStep crc byte = crcBitSerialByte crc byte := by
  unfold crcStep crcBitSerialByte
  have hx : (crc ^^^ byte) % 256 < 256 := Nat.mod_lt _ (by decide)
  simp only []
  rw [Nat.xor_comm byte crc, crcTable_eq_bitSerial _ hx]
  conv_rhs => rw [split_low_octet (crc ^^^ byte)]
  rw [crcBitStep_iterate_xor, crcBitStep_iterate_shift, shiftRight_xor_octet crc byte hb]
  rfl

theorem foldl_crcStep_eq (data : List Nat) (h : ∀ b ∈ data, b < 256) (crc : Nat) :
    data.foldl crcStep crc = data.foldl crcBitSerialByte crc := by
  induction data generalizing crc with
  | nil => rfl
  | cons b rest ih =>
    have hb : b < 256 := h b (List.mem_cons_self b rest)
    have hrest : ∀ c ∈ rest, c < 256 := fun c hc => h c (List.mem_cons_of_mem b hc)
    simp only [List.foldl_cons, crcStep_eq_bitSerialByte crc b hb, ih hrest]

/-- C4: the table-driven `calculateModbusCRC` equals the bit-serial
CRC-16/MODBUS (seed `0xFFFF`, each octet XORed into the low eight bits, then
eight right shifts with `0xA001` XORed in whenever a 1 was shifted out) on
every sequence of octets. -/
theorem calculateModbusCRC_eq_bitSerial (data : List Nat) (h : ∀ b ∈ data, b < 256) :
    calculateModbusCRC data = crcBitSerial data :=
  foldl_crcStep_eq data h 0xFFFF

set_option maxRecDepth 100000 in
theorem calculateModbusCRC_eq_bitSerial_witness :
    (∀ b ∈ [4, 1, 0, 10, 0, 13], b < 256)
      ∧ calculateModbusCRC [4, 1, 0, 10, 0, 13] = crcBitSerial [4, 1, 0, 10, 0, 13]
      ∧ crcBitSerial [4, 1, 0, 10, 0, 13] = 0x98DD :=
  ⟨by decide, calculateModbusCRC_eq_bitSerial [4, 1, 0, 10, 0, 13] (by decide), by decide⟩

/-! ## Buffer and byte-order lemmas -/

@[simp] theorem toByte_val (v : Nat) : (toByte v).val = v % 256 := rfl

theorem Buffer.write_apply (b : Buffer) (p v i : Nat) :
    (b.write p v) i = if i = p then toByte v else b i := rfl

theorem Buffer.write_same (b : Buffer) (p v : Nat) : (b.write p v) p = toByte v := by
  simp [Buffer.write_apply]

theorem Buffer.write_of_ne (b : Buffer) {p i : Nat} (v : Nat) (h : i ≠ p) :
    (b.write p v) i = b i := by
  simp [Buffer.write_apply, h]

theorem Buffer.subspan_length (b : Buffer) (o n : Nat) : (b.subspan o n).length = n := by
  simp [Buffer.subspan]

theorem Buffer.subspan_getD (b : Buffer) (o n i : Nat) (h : i < n) :
    (b.subspan o n).getD i 0 = (b (o + i)).val := by
  simp [Buffer.subspan, List.getD_eq_getElem?_getD, List.getElem?_map, List.getElem?_range h]

theorem Buffer.subspan_congr (b c : Buffer) (o n : Nat)
    (h : ∀ i, i < n → c (o + i) = b (o + i)) : c.subspan o n = b.subspan o n := by
  unfold Buffer.subspan
  apply List.map_congr_left
  intro i hi
  rw [h i (List.mem_range.mp hi)]

/-- Low and high octet recombine: `lo | (hi << 8)` is `lo + 256 * hi`. -/
theorem or_shiftLeft_octet (lo hi : Nat) (h : lo < 256) :
    lo ||| (hi <<< 8) = 256 * hi + lo := by
  rw [Nat.shiftLeft_eq, Nat.or_comm, Nat.mul_comm hi]
  exact (Nat.mul_add_lt_is_or (i := 8) h hi).symm

theorem shiftLeft_or_octet (lo hi : Nat) (h : lo < 256) :
    (hi <<< 8) ||| lo = 256 * hi + lo := by
  rw [Nat.or_comm]; exact or_shiftLeft_octet lo hi h

theorem and_255 (x : Nat) : x &&& 255 = x % 256 :=
  Nat.and_pow_two_sub_one_eq_mod x 8

theorem shiftRight_8 (x : Nat) : x >>> 8 = x / 256 := Nat.shiftRight_eq_div_pow x 8

theorem betole_eq (b : Buffer) (pos : Nat) :
    betole b pos = 256 * (b pos).val + (b (pos + 1)).val := by
  unfold betole
  have h0 := (b pos).isLt
  have h1 := (b (pos + 1)).isLt
  have e1 : ((b pos).val <<< 8) % 65536 = (b pos).val <<< 8 := by
    rw [Nat.shiftLeft_eq]; apply Nat.mod_eq_of_lt; omega
  have e2 : (b (pos + 1)).val &&& 255 = (b (pos + 1)).val := by
    rw [and_255]; exact Nat.mod_eq_of_lt h1
  rw [e1, e2, shiftLeft_or_octet _ _ h1]

theorem letobe_apply (v : Nat) (b : Buffer) (pos i : Nat) :
    (letobe v b pos) i =
      if i = pos + 1 then toByte (v % 256)
      else if i = pos then toByte (v / 256) else b i := by
  unfold letobe
  simp only [Buffer.write_apply, and_255, shiftRight_8]
  have : toByte (v / 256 % 256) = toByte (v / 256) := by
    apply Fin.ext; simp
  rw [this]

theorem betole_letobe (v : Nat) (b : Buffer) (pos : Nat) :
    betole (letobe v b pos) pos = v % 65536 := by
  rw [betole_eq]
  simp only [letobe_apply]
  simp
  omega

theorem calcCRC_lt_aux (data : List Nat) (crc : Nat) (h : crc < 65536) :
    data.foldl crcStep crc < 65536 := by
  induction data generalizing crc with
  | nil => exact h
  | cons b rest ih =>
    apply ih
    unfold crcStep
    have h1 : crc >>> 8 < 2 ^ 16 := by rw [shiftRight_8]; omega
    have h2 : crcTable.getD ((b ^^^ crc) % 256) 0 < 2 ^ 16 :=
      crcTable_lt _ (Nat.mod_lt _ (by decide))
    exact Nat.xor_lt_two_pow h1 h2

theorem calculateModbusCRC_lt (data : List Nat) : calculateModbusCRC data < 65536 :=
  calcCRC_lt_aux data _ (by decide)

/-! ## Values of the layout constants -/

theorem MBAP_HEADER_SIZE_eq : MBAP_HEADER_SIZE = 7 := rfl
theorem RTU_HEADER_START_POSITION_eq : RTU_HEADER_START_POSITION = 6 := rfl
theorem UNIT_ID_SIZE_eq : UNIT_ID_SIZE = 1 := rfl
theorem RTU_HEADER_SIZE_eq : RTU_HEADER_SIZE = 2 := rfl
theorem BYTE_COUNT_SIZE_eq : BYTE_COUNT_SIZE = 1 := rfl
theorem STARTING_ADDRESS_SIZE_eq : STARTING_ADDRESS_SIZE = 2 := rfl
theorem REGISTER_COUNT_SIZE_eq : REGISTER_COUNT_SIZE = 2 := rfl
theorem WRITE_DATA_SIZE_eq : WRITE_DATA_SIZE = 2 := rfl
theorem CRC_SIZE_eq : CRC_SIZE = 2 := rfl
theorem EXCEPTION_CODE_SIZE_eq : EXCEPTION_CODE_SIZE = 1 := rfl
theorem BUFFER_SIZE_eq : BUFFER_SIZE = 300 := rfl
theorem TRANSACTION_ID_eq : TRANSACTION_ID = 0 := rfl
theorem PROTOCOL_ID_eq : PROTOCOL_ID = 2 := rfl
theorem LENGTH_eq : LENGTH = 4 := rfl
theorem UNIT_ID_eq : UNIT_ID = 6 := rfl
theorem FUNCTION_CODE_eq : FUNCTION_CODE = 7 := rfl
theorem DATA_eq : DATA = 8 := rfl
theorem EXCEPTION_CODE_eq : EXCEPTION_CODE = 8 := rfl
theorem START_ADDRESS_eq : START_ADDRESS = 8 := rfl
theorem BYTE_COUNT_eq : BYTE_COUNT = 8 := rfl
theorem REGISTER_DATA_eq : REGISTER_DATA = 9 := rfl
theorem REGISTER_COUNT_eq : REGISTER_COUNT = 10 := rfl
theorem BYTE_COUNT_MULTIPLE_REGISTERS_eq : BYTE_COUNT_MULTIPLE_REGISTERS = 12 := rfl
theorem REGISTER_DATA_WRITE_SINGLE_eq : REGISTER_DATA_WRITE_SINGLE = 10 := rfl
theorem REGISTER_DATA_WRITE_MULTIPLE_eq : REGISTER_DATA_WRITE_MULTIPLE = 13 := rfl
theorem ReadCoils_eq : ReadCoils = 1 := rfl
theorem ReadDiscreteInputs_eq : ReadDiscreteInputs = 2 := rfl
theorem ReadHoldingRegisters_eq : ReadHoldingRegisters = 3 := rfl
theorem ReadInputRegisters_eq : ReadInputRegisters = 4 := rfl
theorem WriteSingleCoil_eq : WriteSingleCoil = 5 := rfl
theorem WriteSingleRegister_eq : WriteSingleRegister = 6 := rfl
theorem WriteMultipleCoils_eq : WriteMultipleCoils = 15 := rfl
theorem WriteMultipleRegisters_eq : WriteMultipleRegisters = 16 := rfl

/-! ## Length of the serialized frame -/

theorem Frame.calculateRTULength_eq (f : Frame) :
    f.calculateRTULength =
      if f.isException then 5
      else if functionGroup f.functionCode = .bulkRead then
        (if f.isRequest then 8 else 5 + (f.buf 8).val)
      else if functionGroup f.functionCode = .writeSingle then 8
      else if functionGroup f.functionCode = .writeMultiple then
        (if f.isRequest then 9 + (f.buf 12).val else 8)
      else 0 := by
  have h8 := (f.buf 8).isLt
  have h12 := (f.buf 12).isLt
  unfold Frame.calculateRTULength Frame.calculateRTULengthOf Frame.byteCount
  simp only [RTU_HEADER_SIZE_eq, EXCEPTION_CODE_SIZE_eq, CRC_SIZE_eq, STARTING_ADDRESS_SIZE_eq,
    REGISTER_COUNT_SIZE_eq, BYTE_COUNT_SIZE_eq, WRITE_DATA_SIZE_eq, BYTE_COUNT_eq,
    BYTE_COUNT_MULTIPLE_REGISTERS_eq]
  generalize (f.buf 8).val = x at h8 ⊢
  generalize (f.buf 12).val = y at h12 ⊢
  cases f.isException <;> cases functionGroup f.functionCode <;> cases f.isRequest <;>
    simp only [Bool.false_eq_true, if_true, if_false, reduceCtorEq] <;> omega

theorem Frame.calculateRTULength_le (f : Frame) : f.calculateRTULength ≤ 264 := by
  have h8 := (f.buf 8).isLt
  have h12 := (f.buf 12).isLt
  rw [Frame.calculateRTULength_eq]
  split_ifs <;> omega

theorem Frame.RTULengthWithoutCRC_eq_sub (f : Frame) :
    f.RTULengthWithoutCRC = f.calculateRTULength - 2 := by
  have h := f.calculateRTULength_le
  unfold Frame.RTULengthWithoutCRC
  simp only [CRC_SIZE_eq]
  split_ifs with hc
  · omega
  · omega

theorem Frame.RTULengthWithoutCRC_eq (f : Frame) :
    f.RTULengthWithoutCRC =
      if f.isException then 3
      else if functionGroup f.functionCode = .bulkRead then
        (if f.isRequest then 6 else 3 + (f.buf 8).val)
      else if functionGroup f.functionCode = .writeSingle then 6
      else if functionGroup f.functionCode = .writeMultiple then
        (if f.isRequest then 7 + (f.buf 12).val else 6)
      else 0 := by
  rw [Frame.RTULengthWithoutCRC_eq_sub, Frame.calculateRTULength_eq]
  split_ifs <;> omega

theorem Frame.crcPosition_eq (f : Frame) : f.crcPosition = 6 + f.RTULengthWithoutCRC := by
  have h := f.calculateRTULength_le
  have h2 := f.RTULengthWithoutCRC_eq_sub
  unfold Frame.crcPosition
  simp only [RTU_HEADER_START_POSITION_eq]
  omega

/-! ## Frames that agree on the serialized octets -/

theorem Frame.Serialized.group_cases {f : Frame} (hs : f.Serialized) :
    f.isException = true ∨ functionGroup f.functionCode = .bulkRead
      ∨ functionGroup f.functionCode = .writeSingle
      ∨ functionGroup f.functionCode = .writeMultiple := by
  rcases hs with h | h
  · exact Or.inl h
  · right
    cases hg : functionGroup f.functionCode
    · simp
    · simp
    · simp
    · exact absurd hg h

theorem Frame.Serialized.three_le {f : Frame} (hs : f.Serialized) :
    3 ≤ f.RTULengthWithoutCRC := by
  have hc := hs.group_cases
  rw [Frame.RTULengthWithoutCRC_eq]
  split_ifs <;> first | omega | simp_all

theorem Frame.isException_congr {f g : Frame} (h7 : g.buf 7 = f.buf 7) :
    g.isException = f.isException := by
  unfold Frame.isException
  rw [FUNCTION_CODE_eq, h7]

theorem Frame.functionCode_congr {f g : Frame} (h7 : g.buf 7 = f.buf 7) :
    g.functionCode = f.functionCode := by
  unfold Frame.functionCode
  rw [FUNCTION_CODE_eq, h7]

theorem Frame.AgreeRTU.buf7 {f g : Frame} (hs : f.Serialized)
    (h : f.AgreeRTU g f.RTULengthWithoutCRC) : g.buf 7 = f.buf 7 := by
  have h3 := hs.three_le
  exact h.2 7 (by omega) (by omega)

theorem Frame.AgreeRTU.byteCount {f g : Frame} (hs : f.Serialized)
    (h : f.AgreeRTU g f.RTULengthWithoutCRC) : g.byteCount = f.byteCount := by
  have h7 := h.buf7 hs
  have h3 := hs.three_le
  have hL := f.RTULengthWithoutCRC_eq
  have h8 : g.buf 8 = f.buf 8 := h.2 8 (by omega) (by omega)
  unfold Frame.byteCount
  rw [Frame.isException_congr h7, Frame.functionCode_congr h7, h.1, BYTE_COUNT_eq,
    BYTE_COUNT_MULTIPLE_REGISTERS_eq, h8]
  cases he : f.isException
  · cases hg : functionGroup f.functionCode <;> cases hr : f.isRequest <;>
      simp only [Bool.false_eq_true, if_true, if_false]
    have h12 : g.buf 12 = f.buf 12 := by
      apply h.2 12 (by omega)
      rw [hL]
      simp only [he, hg, hr, Bool.false_eq_true, if_true, if_false, reduceCtorEq]
      omega
    rw [h12]
  · simp

theorem Frame.calculateRTULength_congr {f g : Frame} (hr : g.isRequest = f.isRequest)
    (h7 : g.buf 7 = f.buf 7) (hbc : g.byteCount = f.byteCount) :
    g.calculateRTULength = f.calculateRTULength := by
  unfold Frame.calculateRTULength Frame.calculateRTULengthOf
  rw [Frame.isException_congr h7, Frame.functionCode_congr h7, hr, hbc]

theorem Frame.RTULengthWithoutCRC_congr {f g : Frame} (hr : g.isRequest = f.isRequest)
    (h7 : g.buf 7 = f.buf 7) (hbc : g.byteCount = f.byteCount) :
    g.RTULengthWithoutCRC = f.RTULengthWithoutCRC := by
  rw [Frame.RTULengthWithoutCRC_eq_sub, Frame.RTULengthWithoutCRC_eq_sub,
    Frame.calculateRTULength_congr hr h7 hbc]

theorem Frame.hasStartAddress_congr {f g : Frame} (hr : g.isRequest = f.isRequest)
    (h7 : g.buf 7 = f.buf 7) : g.hasStartAddress = f.hasStartAddress := by
  unfold Frame.hasStartAddress
  rw [Frame.isException_congr h7, Frame.functionCode_congr h7, hr]

theorem Frame.hasRegistersValues_congr {f g : Frame} (hr : g.isRequest = f.isRequest)
    (h7 : g.buf 7 = f.buf 7) : g.hasRegistersValues = f.hasRegistersValues := by
  unfold Frame.hasRegistersValues
  rw [Frame.isException_congr h7, Frame.functionCode_congr h7, hr]

theorem Frame.registersDataSpan_congr {f g : Frame} (hr : g.isRequest = f.isRequest)
    (h7 : g.buf 7 = f.buf 7) (hbc : g.byteCount = f.byteCount) :
    g.registersDataSpan = f.registersDataSpan := by
  unfold Frame.registersDataSpan
  rw [Frame.hasRegistersValues_congr hr h7, Frame.functionCode_congr h7, hbc]

theorem Frame.registersDataSpan_bounds (f : Frame) :
    f.registersDataSpan = (0, 0) ∨
      (6 ≤ f.registersDataSpan.1 ∧
        f.registersDataSpan.1 + f.registersDataSpan.2 ≤ 6 + f.RTULengthWithoutCRC) := by
  have hL := f.RTULengthWithoutCRC_eq
  unfold Frame.registersDataSpan Frame.hasRegistersValues Frame.byteCount
  rw [hL]
  simp only [REGISTER_DATA_eq, REGISTER_DATA_WRITE_SINGLE_eq, REGISTER_DATA_WRITE_MULTIPLE_eq,
    BYTE_COUNT_eq, BYTE_COUNT_MULTIPLE_REGISTERS_eq]
  clear hL
  cases f.isException <;> cases functionGroup f.functionCode <;> cases f.isRequest <;>
    simp <;> omega

theorem Frame.hasStartAddress_six_le {f : Frame} (h : f.hasStartAddress = true) :
    6 ≤ f.RTULengthWithoutCRC := by
  rw [Frame.RTULengthWithoutCRC_eq]
  unfold Frame.hasStartAddress at h
  revert h
  cases f.isException <;> cases functionGroup f.functionCode <;> cases f.isRequest <;>
    simp
  omega

theorem Frame.AgreeRTU.slaveID {f g : Frame} (hs : f.Serialized)
    (h : f.AgreeRTU g f.RTULengthWithoutCRC) : g.slaveID = f.slaveID := by
  have h3 := hs.three_le
  unfold Frame.slaveID
  rw [UNIT_ID_eq, h.2 6 (by omega) (by omega)]

theorem betole_congr {b c : Buffer} {pos : Nat} (h0 : c pos = b pos)
    (h1 : c (pos + 1) = b (pos + 1)) : betole c pos = betole b pos := by
  unfold betole
  rw [h0, h1]

theorem Frame.AgreeRTU.startAddress {f g : Frame} (hs : f.Serialized)
    (h : f.AgreeRTU g f.RTULengthWithoutCRC) : g.startAddress = f.startAddress := by
  have h7 := h.buf7 hs
  unfold Frame.startAddress
  rw [Frame.hasStartAddress_congr h.1 h7, START_ADDRESS_eq]
  cases hh : f.hasStartAddress
  · rfl
  · have h6 := Frame.hasStartAddress_six_le hh
    simp only [Bool.not_true, Bool.false_eq_true, if_false]
    exact betole_congr (h.2 8 (by omega) (by omega)) (h.2 9 (by omega) (by omega))

theorem functionGroup_bulkRead {fc : Nat}
    (h : fc = ReadCoils ∨ fc = ReadDiscreteInputs ∨ fc = ReadHoldingRegisters
      ∨ fc = ReadInputRegisters) : functionGroup fc = .bulkRead := by
  unfold functionGroup
  rw [if_pos h]

theorem functionGroup_writeMultiple {fc : Nat}
    (h : fc = WriteMultipleCoils ∨ fc = WriteMultipleRegisters) :
    functionGroup fc = .writeMultiple := by
  rcases h with rfl | rfl <;> decide

theorem Frame.six_le_of {f : Frame} (he : f.isException = false)
    (hc : functionGroup f.functionCode = .bulkRead ∧ f.isRequest = true
      ∨ functionGroup f.functionCode = .writeSingle
      ∨ functionGroup f.functionCode = .writeMultiple) :
    6 ≤ f.RTULengthWithoutCRC := by
  rw [Frame.RTULengthWithoutCRC_eq]
  rcases hc with ⟨hg, hr⟩ | hg | hg
  · simp [he, hg, hr]
  · simp [he, hg]
  · cases hr : f.isRequest <;> simp [he, hg, hr]
    omega

theorem Frame.AgreeRTU.registerCount {f g : Frame} (hs : f.Serialized)
    (h : f.AgreeRTU g f.RTULengthWithoutCRC) : g.registerCount = f.registerCount := by
  have h7 := h.buf7 hs
  have hbc := h.byteCount hs
  unfold Frame.registerCount
  rw [Frame.isException_congr h7, Frame.functionCode_congr h7, h.1, hbc, REGISTER_COUNT_eq]
  have key : 6 ≤ f.RTULengthWithoutCRC → betole g.buf 10 = betole f.buf 10 := fun h6 =>
    betole_congr (h.2 10 (by omega) (by omega)) (h.2 11 (by omega) (by omega))
  split_ifs with he c1 hr c2 hr2 c3 c4
  · rfl
  · exact key (Frame.six_le_of (by simpa using he)
      (Or.inl ⟨functionGroup_bulkRead (by tauto), hr⟩))
  · rfl
  · exact key (Frame.six_le_of (by simpa using he)
      (Or.inl ⟨functionGroup_bulkRead (by tauto), hr2⟩))
  · rfl
  · rfl
  · exact key (Frame.six_le_of (by simpa using he)
      (Or.inr (Or.inr (functionGroup_writeMultiple c4))))
  · rfl

theorem Frame.AgreeRTU.registersData {f g : Frame} (hs : f.Serialized)
    (h : f.AgreeRTU g f.RTULengthWithoutCRC) : g.registersData = f.registersData := by
  have h7 := h.buf7 hs
  have hbc := h.byteCount hs
  unfold Frame.registersData
  rw [Frame.registersDataSpan_congr h.1 h7 hbc]
  apply Buffer.subspan_congr
  intro i hi
  rcases f.registersDataSpan_bounds with h0 | ⟨h1, h2⟩
  · rw [h0] at hi
    exact absurd hi (Nat.not_lt_zero i)
  · exact h.2 _ (by omega) (by omega)

theorem Frame.AgreeRTU.registersValues {f g : Frame} (hs : f.Serialized)
    (h : f.AgreeRTU g f.RTULengthWithoutCRC) : g.registersValues = f.registersValues := by
  unfold Frame.registersValues
  rw [h.registersData hs, Frame.functionCode_congr (h.buf7 hs)]

theorem Frame.AgreeRTU.RTULengthWithoutCRC {f g : Frame} (hs : f.Serialized)
    (h : f.AgreeRTU g f.RTULengthWithoutCRC) :
    g.RTULengthWithoutCRC = f.RTULengthWithoutCRC :=
  Frame.RTULengthWithoutCRC_congr h.1 (h.buf7 hs) (h.byteCount hs)

theorem Frame.AgreeRTU.calculateRTULength {f g : Frame} (hs : f.Serialized)
    (h : f.AgreeRTU g f.RTULengthWithoutCRC) :
    g.calculateRTULength = f.calculateRTULength :=
  Frame.calculateRTULength_congr h.1 (h.buf7 hs) (h.byteCount hs)

theorem Frame.AgreeRTU.calculateModbusCRC {f g : Frame} (hs : f.Serialized)
    (h : f.AgreeRTU g f.RTULengthWithoutCRC) :
    g.calculateModbusCRC = f.calculateModbusCRC := by
  unfold Frame.calculateModbusCRC
  rw [h.RTULengthWithoutCRC hs, RTU_HEADER_START_POSITION_eq]
  congr 1
  apply Buffer.subspan_congr
  intro i hi
  exact h.2 _ (by omega) (by omega)

theorem Frame.AgreeRTU.mono {f g : Frame} {m n : Nat} (hmn : m ≤ n) (h : f.AgreeRTU g n) :
    f.AgreeRTU g m :=
  ⟨h.1, fun p h6 hp => h.2 p h6 (by omega)⟩

theorem Frame.AgreeRTU.crc {f g : Frame} (hs : f.Serialized)
    (h : f.AgreeRTU g (f.RTULengthWithoutCRC + 2)) : g.crc = f.crc := by
  have h' : f.AgreeRTU g f.RTULengthWithoutCRC := h.mono (by omega)
  unfold Frame.crc
  rw [Frame.crcPosition_eq, Frame.crcPosition_eq, h'.RTULengthWithoutCRC hs]
  simp only []
  rw [h.2 (6 + f.RTULengthWithoutCRC) (by omega) (by omega),
    h.2 (6 + f.RTULengthWithoutCRC + 1) (by omega) (by omega)]

theorem Frame.AgreeRTU.validateRTU {f g : Frame} (hs : f.Serialized)
    (h : f.AgreeRTU g (f.RTULengthWithoutCRC + 2)) : g.validateRTU = f.validateRTU := by
  have h' : f.AgreeRTU g f.RTULengthWithoutCRC := h.mono (by omega)
  unfold Frame.validateRTU Frame.validateCommon
  rw [h.crc hs, h'.calculateModbusCRC hs, Frame.functionCode_congr (h'.buf7 hs)]

/-! ## Appending the CRC -/

theorem Frame.appendCRC_buf (f : Frame) (p : Nat) :
    f.appendCRC.buf p =
      if p = 6 + f.RTULengthWithoutCRC + 1 then toByte (f.calculateModbusCRC / 256)
      else if p = 6 + f.RTULengthWithoutCRC then toByte f.calculateModbusCRC
      else f.buf p := by
  have hlt : f.calculateModbusCRC < 65536 := calculateModbusCRC_lt _
  unfold Frame.appendCRC Frame.setCrc
  simp only [Frame.crcPosition_eq, Buffer.write_apply, and_255, shiftRight_8]
  have e1 : toByte (f.calculateModbusCRC / 256 % 256) = toByte (f.calculateModbusCRC / 256) := by
    apply Fin.ext; simp
  have e2 : toByte (f.calculateModbusCRC % 256) = toByte f.calculateModbusCRC := by
    apply Fin.ext; simp
  rw [e1, e2]

theorem Frame.appendCRC_agree (f : Frame) : f.AgreeRTU f.appendCRC f.RTULengthWithoutCRC := by
  refine ⟨rfl, fun p _ hp => ?_⟩
  rw [Frame.appendCRC_buf, if_neg (by omega), if_neg (by omega)]

theorem Frame.appendCRC_crc (f : Frame) (hs : f.Serialized) :
    f.appendCRC.crc = f.calculateModbusCRC := by
  have hlt : f.calculateModbusCRC < 65536 := calculateModbusCRC_lt _
  have ha := f.appendCRC_agree
  unfold Frame.crc
  simp only [Frame.crcPosition_eq, ha.RTULengthWithoutCRC hs, Frame.appendCRC_buf]
  simp only [if_true, if_neg (show ¬ (6 + f.RTULengthWithoutCRC = 6 + f.RTULengthWithoutCRC + 1)
    by omega), toByte_val]
  rw [or_shiftLeft_octet _ _ (Nat.mod_lt _ (by decide))]
  omega

theorem Frame.Serialized.appendCRC {f : Frame} (hs : f.Serialized) :
    f.appendCRC.Serialized := by
  have h7 := f.appendCRC_agree.buf7 hs
  unfold Frame.Serialized
  rw [Frame.isException_congr h7, Frame.functionCode_congr h7]
  exact hs

/-- After `appendCRC()` a serialized frame with a non-zero function code
passes `validateRTU()`. -/
theorem Frame.appendCRC_validateRTU (f : Frame) (hs : f.Serialized)
    (hfc : f.functionCode ≠ 0) : f.appendCRC.validateRTU = .OK := by
  have ha := f.appendCRC_agree
  have hlt : f.functionCode < 128 := by
    unfold Frame.functionCode
    exact Nat.lt_of_le_of_lt Nat.and_le_right (by decide)
  unfold Frame.validateRTU Frame.validateCommon
  rw [Frame.appendCRC_crc f hs, ha.calculateModbusCRC hs,
    Frame.functionCode_congr (ha.buf7 hs)]
  have : f.functionCode % 256 ≠ 0 := by omega
  simp [this]

theorem Frame.ext_iff' {f g : Frame} (hb : ∀ p, g.buf p = f.buf p)
    (hr : g.isRequest = f.isRequest) : g = f := by
  cases f; cases g
  simp only [Frame.mk.injEq]
  exact ⟨funext hb, hr⟩

theorem Frame.appendCRC_idem (f : Frame) (hs : f.Serialized) :
    f.appendCRC.appendCRC = f.appendCRC := by
  have ha := f.appendCRC_agree
  apply Frame.ext_iff'
  · intro p
    rw [Frame.appendCRC_buf f.appendCRC p, ha.RTULengthWithoutCRC hs,
      ha.calculateModbusCRC hs, Frame.appendCRC_buf f p]
    split_ifs <;> rfl
  · rfl

/-! ## Setters leave the earlier fields alone -/

theorem registersValuesLoop_succ (values : List Nat) (dataPos size fuel i : Nat)
    (b : Buffer) :
    registersValuesLoop values dataPos size (fuel + 1) i b =
      if i < size then
        if i / 2 ≥ values.length then b
        else registersValuesLoop values dataPos size fuel (i + 2)
          ((b.write (dataPos + i) (values.getD (i / 2) 0 >>> 8)).write (dataPos + (i + 1))
            (values.getD (i / 2) 0 &&& 0xFF))
      else b := rfl

theorem registersValuesLoop_of_lt (values : List Nat) (dataPos size : Nat) (p : Nat)
    (hp : p < dataPos) (fuel i : Nat) (b : Buffer) :
    registersValuesLoop values dataPos size fuel i b p = b p := by
  induction fuel generalizing i b with
  | zero => rfl
  | succ fuel ih =>
    rw [registersValuesLoop_succ]
    split_ifs
    · rfl
    · rw [ih, Buffer.write_of_ne _ _ (by omega), Buffer.write_of_ne _ _ (by omega)]
    · rfl

theorem Frame.setStartAddress_isRequest (f : Frame) (v : Nat) :
    (f.setStartAddress v).isRequest = f.isRequest := by
  unfold Frame.setStartAddress; split_ifs <;> rfl

theorem Frame.setStartAddress_buf_lt (f : Frame) (v p : Nat) (hp : p < 8) :
    (f.setStartAddress v).buf p = f.buf p := by
  unfold Frame.setStartAddress
  split_ifs
  · simp only [letobe_apply, START_ADDRESS_eq]
    rw [if_neg (by omega), if_neg (by omega)]
  · rfl

theorem Frame.setRegisterCount_isRequest (f : Frame) (v : Nat) :
    (f.setRegisterCount v).isRequest = f.isRequest := by
  unfold Frame.setRegisterCount
  cases f.isException <;> cases functionGroup f.functionCode <;> cases hr : f.isRequest <;>
    simp [hr]

theorem Frame.setRegisterCount_buf_lt (f : Frame) (v p : Nat) (hp : p < 10) :
    (f.setRegisterCount v).buf p = f.buf p := by
  have e : (letobe v f.buf 10) p = f.buf p := by
    rw [letobe_apply, if_neg (by omega), if_neg (by omega)]
  unfold Frame.setRegisterCount
  cases f.isException <;> cases functionGroup f.functionCode <;> cases hr : f.isRequest <;>
    simp [hr, REGISTER_COUNT_eq, e]

theorem Frame.setByteCount_isRequest (f : Frame) (v : Nat) :
    (f.setByteCount v).isRequest = f.isRequest := by
  unfold Frame.setByteCount
  cases f.isException <;> cases functionGroup f.functionCode <;> cases hr : f.isRequest <;>
    simp [hr]

theorem Frame.setByteCount_buf_lt (f : Frame) (v p : Nat) (hp : p < 8) :
    (f.setByteCount v).buf p = f.buf p := by
  have e8 : (f.buf.write 8 v) p = f.buf p := Buffer.write_of_ne _ _ (by omega)
  have e12 : (f.buf.write 12 v) p = f.buf p := Buffer.write_of_ne _ _ (by omega)
  unfold Frame.setByteCount
  cases f.isException <;> cases functionGroup f.functionCode <;> cases hr : f.isRequest <;>
    simp [hr, BYTE_COUNT_eq, BYTE_COUNT_MULTIPLE_REGISTERS_eq, e8, e12]

theorem Frame.setRegistersValues_isRequest (f : Frame) (v : List Nat) :
    (f.setRegistersValues v).isRequest = f.isRequest := by
  unfold Frame.setRegistersValues; split_ifs <;> rfl

theorem Frame.registersDataSpan_fst (f : Frame) (h : f.hasRegistersValues = true) :
    9 ≤ f.registersDataSpan.1 := by
  unfold Frame.registersDataSpan
  unfold Frame.hasRegistersValues at h
  rw [Frame.hasRegistersValues]
  revert h
  simp only [REGISTER_DATA_eq, REGISTER_DATA_WRITE_SINGLE_eq, REGISTER_DATA_WRITE_MULTIPLE_eq]
  cases f.isException <;> cases functionGroup f.functionCode <;> cases f.isRequest <;> simp

theorem Frame.setRegistersValues_buf_lt (f : Frame) (v : List Nat) (p : Nat) (hp : p < 9) :
    (f.setRegistersValues v).buf p = f.buf p := by
  unfold Frame.setRegistersValues
  split_ifs with h
  · have h9 := f.registersDataSpan_fst h
    simp only []
    exact registersValuesLoop_of_lt _ _ _ _ (by omega) _ _ _
  · rfl

theorem Frame.setMBAPLength_buf_ge (f : Frame) (v p : Nat) (hp : 6 ≤ p) :
    (f.setMBAPLength v).buf p = f.buf p := by
  unfold Frame.setMBAPLength
  simp only [letobe_apply, LENGTH_eq]
  rw [if_neg (by omega), if_neg (by omega)]

theorem Frame.setMBAPLength_agree (f : Frame) (v n : Nat) :
    f.AgreeRTU (f.setMBAPLength v) n :=
  ⟨rfl, fun p h6 _ => f.setMBAPLength_buf_ge v p h6⟩

/-! ## The frame assembled by `rebuild` before the CRC is appended -/

theorem Frame.rebuild_header (f0 : Frame) (r : Bool) (s fc a n : Nat) (v : List Nat) (t : Nat) :
    ∃ pre : Frame, f0.rebuild r s fc a n v t = pre.appendCRC ∧ pre.isRequest = r
      ∧ pre.buf 6 = toByte s ∧ pre.buf 7 = toByte fc
      ∧ pre.MBAPLength = pre.RTULengthWithoutCRC := by
  refine ⟨_, rfl, ?_, ?_, ?_, ?_⟩
  · show (Frame.setMBAPLength _ _).isRequest = r
    simp only [Frame.setMBAPLength, Frame.setRegistersValues_isRequest,
      Frame.setByteCount_isRequest, Frame.setRegisterCount_isRequest,
      Frame.setStartAddress_isRequest]
    rfl
  · rw [Frame.setMBAPLength_buf_ge _ _ _ (by omega),
      Frame.setRegistersValues_buf_lt _ _ _ (by omega),
      Frame.setByteCount_buf_lt _ _ _ (by omega),
      Frame.setRegisterCount_buf_lt _ _ _ (by omega),
      Frame.setStartAddress_buf_lt _ _ _ (by omega)]
    simp [Frame.setFunctionCode, Frame.setSlaveID, Buffer.write_apply, FUNCTION_CODE_eq,
      UNIT_ID_eq]
  · rw [Frame.setMBAPLength_buf_ge _ _ _ (by omega),
      Frame.setRegistersValues_buf_lt _ _ _ (by omega),
      Frame.setByteCount_buf_lt _ _ _ (by omega),
      Frame.setRegisterCount_buf_lt _ _ _ (by omega),
      Frame.setStartAddress_buf_lt _ _ _ (by omega)]
    simp [Frame.setFunctionCode, Buffer.write_apply, FUNCTION_CODE_eq]
  · generalize hq : (Frame.setRegistersValues _ v) = q
    have hag := q.setMBAPLength_agree q.RTULengthWithoutCRC q.RTULengthWithoutCRC
    have h7 : (q.setMBAPLength q.RTULengthWithoutCRC).buf 7 = q.buf 7 :=
      q.setMBAPLength_buf_ge _ 7 (by omega)
    have h8 : (q.setMBAPLength q.RTULengthWithoutCRC).buf 8 = q.buf 8 :=
      q.setMBAPLength_buf_ge _ 8 (by omega)
    have h12 : (q.setMBAPLength q.RTULengthWithoutCRC).buf 12 = q.buf 12 :=
      q.setMBAPLength_buf_ge _ 12 (by omega)
    have hbc : (q.setMBAPLength q.RTULengthWithoutCRC).byteCount = q.byteCount := by
      unfold Frame.byteCount
      rw [Frame.isException_congr h7, Frame.functionCode_congr h7, BYTE_COUNT_eq,
        BYTE_COUNT_MULTIPLE_REGISTERS_eq, h8, h12]
      rfl
    have hL := Frame.RTULengthWithoutCRC_congr hag.1 h7 hbc
    have hle := q.calculateRTULength_le
    have hsub := q.RTULengthWithoutCRC_eq_sub
    show (q.setMBAPLength q.RTULengthWithoutCRC).MBAPLength = _
    rw [hL]
    unfold Frame.MBAPLength Frame.setMBAPLength
    simp only []
    rw [betole_letobe]
    omega

theorem toByte_val_of_lt {v : Nat} (h : v < 256) : (toByte v).val = v := by
  simp [Nat.mod_eq_of_lt h]

theorem Frame.functionCode_of_buf7 {f : Frame} {fc : Nat} (h : f.buf 7 = toByte fc)
    (hfc : fc < 128) : f.functionCode = fc ∧ f.isException = false := by
  unfold Frame.functionCode Frame.isException
  rw [FUNCTION_CODE_eq, h, toByte_val_of_lt (by omega)]
  have e : (127 : Nat) = 2 ^ 7 - 1 := by norm_num
  have e1 : fc &&& 127 = fc := by
    rw [e, Nat.and_pow_two_sub_one_eq_mod]; exact Nat.mod_eq_of_lt (by omega)
  have e2 : fc &&& 128 = 0 := by
    apply Nat.eq_of_testBit_eq
    intro i
    simp only [Nat.testBit_and, Nat.zero_testBit]
    by_cases hi : i = 7
    · subst hi
      have : fc.testBit 7 = false := Nat.testBit_lt_two_pow (by omega)
      simp [this]
    · have : (128 : Nat).testBit i = false := by
        have e7 : (128 : Nat) = 2 ^ 7 := by norm_num
        rw [e7, Nat.testBit_two_pow]
        simp; omega
      simp [this]
  exact ⟨e1, by simp [e2]⟩

theorem IsSupported.group {fc : Nat} (h : IsSupported fc) :
    functionGroup fc ≠ .other ∧ fc < 128 ∧ fc ≠ 0 := by
  rcases h with rfl | rfl | rfl | rfl | rfl | rfl | rfl | rfl <;> decide

theorem Frame.rebuild_supported (f0 : Frame) (r : Bool) (s fc a n : Nat) (v : List Nat)
    (t : Nat) (hfc : IsSupported fc) :
    ∃ pre : Frame, f0.rebuild r s fc a n v t = pre.appendCRC ∧ pre.Serialized
      ∧ pre.functionCode = fc ∧ pre.isException = false ∧ pre.isRequest = r
      ∧ pre.buf 6 = toByte s ∧ pre.MBAPLength = pre.RTULengthWithoutCRC := by
  obtain ⟨pre, h1, h2, h3, h4, h5⟩ := f0.rebuild_header r s fc a n v t
  obtain ⟨hg, hlt, _⟩ := hfc.group
  obtain ⟨e1, e2⟩ := Frame.functionCode_of_buf7 h4 hlt
  exact ⟨pre, h1, Or.inr (by rw [e1]; exact hg), e1, e2, h2, h3, h5⟩

/-! ## `build` and the CRC -/

theorem Frame.rtuFrame_fst (f : Frame) : f.rtuFrame.1 = f.appendCRC := rfl

theorem Frame.rtuFrame_snd (f : Frame) :
    f.rtuFrame.2 = f.appendCRC.buf.subspan 6 f.calculateRTULength := rfl

theorem Frame.build_validateRTU (r : Bool) (s fc a n : Nat) (v : List Nat) (t : Nat)
    (hfc : IsSupported fc) : (Frame.build r s fc a n v t).validateRTU = .OK := by
  obtain ⟨pre, h1, hs, hfn, _, _, _, _⟩ := Frame.empty.rebuild_supported r s fc a n v t hfc
  have hne : pre.functionCode ≠ 0 := by rw [hfn]; exact hfc.group.2.2
  unfold Frame.build
  rw [h1]
  exact pre.appendCRC_validateRTU hs hne

/-- C1: for each of the eight supported function codes, both directions and
all arguments, the frame returned by `build` passes `validateRTU()`, and it
still does after `rtuFrame()` has been taken. -/
theorem build_validateRTU_ok (is_request : Bool)
    (slave_ID fc start_address register_count : Nat) (registers_values : List Nat)
    (transaction_ID : Nat) (hfc : IsSupported fc) :
    (Frame.build is_request slave_ID fc start_address register_count registers_values
        transaction_ID).validateRTU = .OK
      ∧ (Frame.build is_request slave_ID fc start_address register_count registers_values
        transaction_ID).rtuFrame.1.validateRTU = .OK := by
  obtain ⟨pre, h1, hs, hfn, _, _, _, _⟩ :=
    Frame.empty.rebuild_supported is_request slave_ID fc start_address register_count
      registers_values transaction_ID hfc
  have hne : pre.functionCode ≠ 0 := by rw [hfn]; exact hfc.group.2.2
  unfold Frame.build
  rw [h1, Frame.rtuFrame_fst, Frame.appendCRC_idem pre hs]
  exact ⟨pre.appendCRC_validateRTU hs hne, pre.appendCRC_validateRTU hs hne⟩

set_option maxRecDepth 100000 in
theorem build_validateRTU_ok_witness :
    IsSupported WriteMultipleRegisters
      ∧ (Frame.build true 1 WriteMultipleRegisters 10 2 [0x1234, 0xABCD] 7).validateRTU = .OK
      ∧ (Frame.build true 1 WriteMultipleRegisters 10 2 [0x1234, 0xABCD] 7).rtuFrame.1.validateRTU
          = .OK
      ∧ (Frame.build true 1 WriteMultipleRegisters 10 2 [0x1234, 0xABCD] 7).rtuFrame.2
          = [1, 16, 0, 10, 0, 2, 4, 0x12, 0x34, 0xAB, 0xCD, 137, 195] :=
  ⟨by unfold IsSupported; decide,
    (build_validateRTU_ok true 1 WriteMultipleRegisters 10 2 [0x1234, 0xABCD] 7
      (by unfold IsSupported; decide)).1,
    (build_validateRTU_ok true 1 WriteMultipleRegisters 10 2 [0x1234, 0xABCD] 7
      (by unfold IsSupported; decide)).2,
    by decide⟩

/-! ## Parsing raw RTU data -/

theorem Frame.fromRawRtuData_isRequest (data : List Nat) (r : Bool) :
    (Frame.fromRawRtuData data r).isRequest = r := rfl

theorem Frame.fromRawRtuData_buf (data : List Nat) (r : Bool) (p : Nat) (hp : 6 ≤ p) :
    (Frame.fromRawRtuData data r).buf p =
      if p < 6 + min data.length 294 then toByte (data.getD (p - 6) 0) else toByte 0 := by
  unfold Frame.fromRawRtuData Frame.setRawRtuData
  simp only []
  rw [Frame.setMBAPLength_buf_ge _ _ _ hp]
  simp only [Buffer.memcpy, Frame.setIsRequest, Frame.empty, RTU_HEADER_START_POSITION_eq,
    BUFFER_SIZE_eq, hp, true_and]

theorem Frame.fromRawRtuData_MBAPLength (data : List Nat) (r : Bool) :
    (Frame.fromRawRtuData data r).MBAPLength
      = (Frame.fromRawRtuData data r).RTULengthWithoutCRC := by
  unfold Frame.fromRawRtuData Frame.setRawRtuData
  simp only []
  generalize ({ buf := _, isRequest := _ } : Frame) = q
  have hag := q.setMBAPLength_agree q.RTULengthWithoutCRC q.RTULengthWithoutCRC
  have h7 : (q.setMBAPLength q.RTULengthWithoutCRC).buf 7 = q.buf 7 :=
    q.setMBAPLength_buf_ge _ 7 (by omega)
  have h8 : (q.setMBAPLength q.RTULengthWithoutCRC).buf 8 = q.buf 8 :=
    q.setMBAPLength_buf_ge _ 8 (by omega)
  have h12 : (q.setMBAPLength q.RTULengthWithoutCRC).buf 12 = q.buf 12 :=
    q.setMBAPLength_buf_ge _ 12 (by omega)
  have hbc : (q.setMBAPLength q.RTULengthWithoutCRC).byteCount = q.byteCount := by
    unfold Frame.byteCount
    rw [Frame.isException_congr h7, Frame.functionCode_congr h7, BYTE_COUNT_eq,
      BYTE_COUNT_MULTIPLE_REGISTERS_eq, h8, h12]
    rfl
  have hL := Frame.RTULengthWithoutCRC_congr hag.1 h7 hbc
  have hle := q.calculateRTULength_le
  have hsub := q.RTULengthWithoutCRC_eq_sub
  rw [hL]
  unfold Frame.MBAPLength Frame.setMBAPLength
  simp only []
  rw [betole_letobe]
  omega

theorem Frame.RTULength_of_MBAPLength {f : Frame} (h : f.MBAPLength = f.RTULengthWithoutCRC) :
    f.RTULength = f.RTULengthWithoutCRC + 2 := by
  have hle := f.calculateRTULength_le
  have hsub := f.RTULengthWithoutCRC_eq_sub
  unfold Frame.RTULength
  rw [h, CRC_SIZE_eq]
  omega

/-- Parsing the octets that a serialized frame puts on the wire gives a frame
that agrees with it on those octets. -/
theorem Frame.fromRawRtuData_agree (f : Frame) (hs : f.Serialized) :
    f.AgreeRTU (Frame.fromRawRtuData (f.buf.subspan 6 f.calculateRTULength) f.isRequest)
      (f.RTULengthWithoutCRC + 2) := by
  have h3 := hs.three_le
  have hle := f.calculateRTULength_le
  have hsub := f.RTULengthWithoutCRC_eq_sub
  refine ⟨rfl, fun p h6 hp => ?_⟩
  rw [Frame.fromRawRtuData_buf _ _ _ h6, Buffer.subspan_length,
    if_pos (by rw [Nat.min_def]; split_ifs <;> omega),
    Buffer.subspan_getD _ _ _ _ (by omega)]
  apply Fin.ext
  have e : 6 + (p - 6) = p := by omega
  rw [e, toByte_val]
  exact Nat.mod_eq_of_lt (f.buf p).isLt

theorem Frame.appendCRC_MBAPLength (f : Frame) : f.appendCRC.MBAPLength = f.MBAPLength := by
  unfold Frame.MBAPLength
  rw [LENGTH_eq]
  apply betole_congr
  · rw [Frame.appendCRC_buf, if_neg (by omega), if_neg (by omega)]
  · rw [Frame.appendCRC_buf, if_neg (by omega), if_neg (by omega)]

/-- What `build` returns for a supported function code: a serialized frame
with the CRC in place, its other fields as given. -/
theorem Frame.build_facts (r : Bool) (s fc a n : Nat) (v : List Nat) (t : Nat)
    (hfc : IsSupported fc) :
    (Frame.build r s fc a n v t).Serialized
      ∧ (Frame.build r s fc a n v t).appendCRC = Frame.build r s fc a n v t
      ∧ (Frame.build r s fc a n v t).functionCode = fc
      ∧ (Frame.build r s fc a n v t).isException = false
      ∧ (Frame.build r s fc a n v t).isRequest = r
      ∧ (Frame.build r s fc a n v t).buf 6 = toByte s
      ∧ (Frame.build r s fc a n v t).MBAPLength
          = (Frame.build r s fc a n v t).RTULengthWithoutCRC := by
  obtain ⟨pre, h1, hs, hfn, he, hr, h6, hm⟩ := Frame.empty.rebuild_supported r s fc a n v t hfc
  have ha := pre.appendCRC_agree
  have h3 := hs.three_le
  unfold Frame.build
  rw [h1]
  refine ⟨hs.appendCRC, pre.appendCRC_idem hs, ?_, ?_, hr, ?_, ?_⟩
  · rw [Frame.functionCode_congr (ha.buf7 hs), hfn]
  · rw [Frame.isException_congr (ha.buf7 hs), he]
  · rw [ha.2 6 (by omega) (by omega), h6]
  · rw [pre.appendCRC_MBAPLength, hm, ha.RTULengthWithoutCRC hs]

/-- C2: decoding undoes encoding.  Let `f` be a frame produced by `build` with
a supported function code and `g = fromRawRtuData(f.rtuFrame(), f.isRequest())`.
Taking `rtuFrame()` leaves `f` as it was, and `g` has the slave id, function
code, start address, register count, byte count, register values and RTU
length of `f` and passes `validateRTU()`. -/
theorem fromRawRtuData_build (is_request : Bool)
    (slave_ID fc start_address register_count : Nat) (registers_values : List Nat)
    (transaction_ID : Nat) (hfc : IsSupported fc) (f g : Frame)
    (hf : f = Frame.build is_request slave_ID fc start_address register_count
      registers_values transaction_ID)
    (hg : g = Frame.fromRawRtuData f.rtuFrame.2 f.isRequest) :
    f.rtuFrame.1 = f
      ∧ g.slaveID = f.slaveID
      ∧ g.functionCode = f.functionCode
      ∧ g.startAddress = f.startAddress
      ∧ g.registerCount = f.registerCount
      ∧ g.byteCount = f.byteCount
      ∧ g.registersValues = f.registersValues
      ∧ g.RTULength = f.RTULength
      ∧ g.validateRTU = .OK := by
  obtain ⟨hs, hidem, _, _, _, _, hm⟩ :=
    Frame.build_facts is_request slave_ID fc start_address register_count registers_values
      transaction_ID hfc
  have hv := Frame.build_validateRTU is_request slave_ID fc start_address register_count
    registers_values transaction_ID hfc
  rw [← hf] at hs hidem hm hv
  subst hg
  rw [Frame.rtuFrame_snd, Frame.rtuFrame_fst, hidem]
  have h2 := f.fromRawRtuData_agree hs
  have h : f.AgreeRTU _ f.RTULengthWithoutCRC := h2.mono (Nat.le_add_right _ 2)
  refine ⟨rfl, h.slaveID hs, Frame.functionCode_congr (h.buf7 hs), h.startAddress hs,
    h.registerCount hs, h.byteCount hs, h.registersValues hs, ?_, ?_⟩
  · rw [Frame.RTULength_of_MBAPLength (Frame.fromRawRtuData_MBAPLength _ _),
      Frame.RTULength_of_MBAPLength hm, h.RTULengthWithoutCRC hs]
  · rw [h2.validateRTU hs, hv]

set_option maxRecDepth 100000 in
theorem fromRawRtuData_build_witness :
    IsSupported WriteMultipleRegisters
      ∧ (Frame.fromRawRtuData
          (Frame.build true 1 WriteMultipleRegisters 10 2 [0x1234, 0xABCD] 7).rtuFrame.2
          (Frame.build true 1 WriteMultipleRegisters 10 2 [0x1234, 0xABCD] 7).isRequest
          ).registersValues
          = (Frame.build true 1 WriteMultipleRegisters 10 2 [0x1234, 0xABCD] 7).registersValues
      ∧ (Frame.fromRawRtuData
          (Frame.build true 1 WriteMultipleRegisters 10 2 [0x1234, 0xABCD] 7).rtuFrame.2
          (Frame.build true 1 WriteMultipleRegisters 10 2 [0x1234, 0xABCD] 7).isRequest
          ).validateRTU = .OK
      ∧ (Frame.fromRawRtuData
          (Frame.build true 1 WriteMultipleRegisters 10 2 [0x1234, 0xABCD] 7).rtuFrame.2
          (Frame.build true 1 WriteMultipleRegisters 10 2 [0x1234, 0xABCD] 7).isRequest
          ).registersValues = [0x1234, 0xABCD] :=
  ⟨by unfold IsSupported; decide,
    (fromRawRtuData_build true 1 WriteMultipleRegisters 10 2 [0x1234, 0xABCD] 7
      (by unfold IsSupported; decide) _ _ rfl rfl).2.2.2.2.2.2.1,
    (fromRawRtuData_build true 1 WriteMultipleRegisters 10 2 [0x1234, 0xABCD] 7
      (by unfold IsSupported; decide) _ _ rfl rfl).2.2.2.2.2.2.2.2,
    by decide⟩

/-! ## The setters on a frame whose function-code octet is known -/

theorem Frame.mk_header {b : Buffer} {fc : Nat} (r : Bool) (h7 : b 7 = toByte fc)
    (hlt : fc < 128) :
    (Frame.mk b r).functionCode = fc ∧ (Frame.mk b r).isException = false :=
  Frame.functionCode_of_buf7 (f := Frame.mk b r) h7 hlt

theorem Frame.setStartAddress_mk {b : Buffer} {fc : Nat} (r : Bool) (v : Nat)
    (h7 : b 7 = toByte fc) (hlt : fc < 128) :
    (Frame.mk b r).setStartAddress v =
      if (functionGroup fc = .bulkRead ∧ r = true) ∨ functionGroup fc = .writeSingle
          ∨ functionGroup fc = .writeMultiple
      then Frame.mk (letobe v b 8) r else Frame.mk b r := by
  obtain ⟨e1, e2⟩ := Frame.mk_header r h7 hlt
  unfold Frame.setStartAddress Frame.hasStartAddress
  rw [e1, e2, START_ADDRESS_eq]
  cases functionGroup fc <;> cases r <;> simp

theorem Frame.setRegisterCount_mk {b : Buffer} {fc : Nat} (r : Bool) (v : Nat)
    (h7 : b 7 = toByte fc) (hlt : fc < 128) :
    (Frame.mk b r).setRegisterCount v =
      if (functionGroup fc = .bulkRead ∧ r = true) ∨ functionGroup fc = .writeMultiple
      then Frame.mk (letobe v b 10) r else Frame.mk b r := by
  obtain ⟨e1, e2⟩ := Frame.mk_header r h7 hlt
  unfold Frame.setRegisterCount
  rw [e1, e2, REGISTER_COUNT_eq]
  cases functionGroup fc <;> cases r <;> simp

theorem Frame.setByteCount_mk {b : Buffer} {fc : Nat} (r : Bool) (v : Nat)
    (h7 : b 7 = toByte fc) (hlt : fc < 128) :
    (Frame.mk b r).setByteCount v =
      if functionGroup fc = .bulkRead ∧ r = false then Frame.mk (b.write 8 v) r
      else if functionGroup fc = .writeMultiple ∧ r = true then Frame.mk (b.write 12 v) r
      else Frame.mk b r := by
  obtain ⟨e1, e2⟩ := Frame.mk_header r h7 hlt
  unfold Frame.setByteCount
  rw [e1, e2, BYTE_COUNT_eq, BYTE_COUNT_MULTIPLE_REGISTERS_eq]
  cases functionGroup fc <;> cases r <;> simp

theorem Frame.registersDataSpan_mk {b : Buffer} {fc : Nat} (r : Bool)
    (h7 : b 7 = toByte fc) (hlt : fc < 128) :
    (Frame.mk b r).registersDataSpan =
      if functionGroup fc = .bulkRead ∧ r = false then (9, (b 8).val)
      else if functionGroup fc = .writeSingle then (10, 2)
      else if functionGroup fc = .writeMultiple ∧ r = true then (13, (b 12).val)
      else (0, 0) := by
  obtain ⟨e1, e2⟩ := Frame.mk_header r h7 hlt
  unfold Frame.registersDataSpan Frame.hasRegistersValues Frame.byteCount
  rw [e1, e2, BYTE_COUNT_eq, BYTE_COUNT_MULTIPLE_REGISTERS_eq, REGISTER_DATA_eq,
    REGISTER_DATA_WRITE_SINGLE_eq, REGISTER_DATA_WRITE_MULTIPLE_eq]
  cases functionGroup fc <;> cases r <;> simp

theorem Frame.setRegistersValues_mk {b : Buffer} {fc : Nat} (r : Bool) (vals : List Nat)
    (h7 : b 7 = toByte fc) (hlt : fc < 128) :
    (Frame.mk b r).setRegistersValues vals =
      if functionGroup fc = .bulkRead ∧ r = false then
        Frame.mk (registersValuesLoop vals 9 (b 8).val (b 8).val 0 b) r
      else if functionGroup fc = .writeSingle then
        Frame.mk (registersValuesLoop vals 10 2 2 0 b) r
      else if functionGroup fc = .writeMultiple ∧ r = true then
        Frame.mk (registersValuesLoop vals 13 (b 12).val (b 12).val 0 b) r
      else Frame.mk b r := by
  obtain ⟨e1, e2⟩ := Frame.mk_header r h7 hlt
  have hsp := Frame.registersDataSpan_mk r h7 hlt
  unfold Frame.setRegistersValues
  rw [hsp]
  unfold Frame.hasRegistersValues
  rw [e1, e2]
  cases functionGroup fc <;> cases r <;> simp

theorem Frame.RTULengthWithoutCRC_mk {b : Buffer} {fc : Nat} (r : Bool)
    (h7 : b 7 = toByte fc) (hlt : fc < 128) :
    (Frame.mk b r).RTULengthWithoutCRC =
      if functionGroup fc = .bulkRead then (if r then 6 else 3 + (b 8).val)
      else if functionGroup fc = .writeSingle then 6
      else if functionGroup fc = .writeMultiple then (if r then 7 + (b 12).val else 6)
      else 0 := by
  obtain ⟨e1, e2⟩ := Frame.mk_header r h7 hlt
  rw [Frame.RTULengthWithoutCRC_eq, e1, e2]
  simp

/-! ## The register-value loop in closed form -/

/-- With enough fuel the setter loop started at an even index `i` stores the
two octets of `values[q / 2]` at offset `q` of the span for every offset
`q ≥ i` whose word lies inside both the span and the value list, and leaves
everything else alone. -/
theorem registersValuesLoop_apply (values : List Nat) (dataPos size p : Nat) :
    ∀ (fuel i : Nat) (b : Buffer), i % 2 = 0 → size ≤ i + 2 * fuel →
      registersValuesLoop values dataPos size fuel i b p =
        if dataPos + i ≤ p ∧ (p - dataPos) / 2 * 2 < size
            ∧ (p - dataPos) / 2 < values.length then
          (if (p - dataPos) % 2 = 0 then toByte (values.getD ((p - dataPos) / 2) 0 >>> 8)
           else toByte (values.getD ((p - dataPos) / 2) 0 &&& 0xFF))
        else b p := by
  intro fuel
  induction fuel with
  | zero =>
    intro i b hi hsz
    rw [if_neg (by omega)]
    rfl
  | succ fuel ih =>
    intro i b hi hsz
    rw [registersValuesLoop_succ]
    by_cases h1 : i < size
    · rw [if_pos h1]
      by_cases h2 : i / 2 ≥ values.length
      · rw [if_pos h2, if_neg (by omega)]
      · rw [if_neg h2, ih (i + 2) _ (by omega) (by omega)]
        by_cases hp0 : p = dataPos + i
        · subst hp0
          have e1 : dataPos + i - dataPos = i := by omega
          rw [if_neg (by omega), if_pos (by rw [e1]; omega), e1, if_pos hi,
            Buffer.write_of_ne _ _ (by omega), Buffer.write_same]
        · by_cases hp1 : p = dataPos + (i + 1)
          · subst hp1
            have e1 : dataPos + (i + 1) - dataPos = i + 1 := by omega
            have e2 : (i + 1) / 2 = i / 2 := by omega
            rw [if_neg (by omega), if_pos (by rw [e1]; omega), e1, if_neg (by omega), e2,
              Buffer.write_same]
          · rw [Buffer.write_of_ne _ _ hp1, Buffer.write_of_ne _ _ hp0]
            by_cases hc : dataPos + (i + 2) ≤ p
            · have hc' : dataPos + i ≤ p := by omega
              simp only [hc, hc', true_and]
            · have hc' : ¬ dataPos + i ≤ p := by omega
              simp only [hc, hc', false_and, if_false]
    · rw [if_neg h1, if_neg (by omega)]

/-- The setter loop as the source runs it (index 0, `size` iterations of
fuel), on a span of even size that the value list fills. -/
theorem registersValuesLoop_full (values : List Nat) (dataPos k p : Nat) (b : Buffer)
    (hk : k ≤ values.length) :
    registersValuesLoop values dataPos (2 * k) (2 * k) 0 b p =
      if dataPos ≤ p ∧ p < dataPos + 2 * k then
        (if (p - dataPos) % 2 = 0 then toByte (values.getD ((p - dataPos) / 2) 0 / 256)
         else toByte (values.getD ((p - dataPos) / 2) 0))
      else b p := by
  rw [registersValuesLoop_apply values dataPos (2 * k) p (2 * k) 0 b (by omega) (by omega)]
  by_cases h : dataPos ≤ p ∧ p < dataPos + 2 * k
  · rw [if_pos h, if_pos (by omega), shiftRight_8, and_255]
    have e : toByte (values.getD ((p - dataPos) / 2) 0 % 256)
        = toByte (values.getD ((p - dataPos) / 2) 0) := by
      apply Fin.ext; simp
    rw [e]
  · rw [if_neg h, if_neg (by omega)]

/-! ## `build` case by case -/

theorem letobe_of_ne (v : Nat) (b : Buffer) {pos p : Nat} (h0 : p ≠ pos) (h1 : p ≠ pos + 1) :
    letobe v b pos p = b p := by
  rw [letobe_apply, if_neg h1, if_neg h0]

theorem Frame.build_unfold (r : Bool) (s fc a n : Nat) (v : List Nat) (t : Nat) :
    Frame.build r s fc a n v t =
      ((((((Frame.mk (((letobe t (fun _ => toByte 0) 0).write 6 s).write 7 fc)
        r).setStartAddress a).setRegisterCount n).setByteCount (n * 2)).setRegistersValues
        v).setMBAPLength
        (((((Frame.mk (((letobe t (fun _ => toByte 0) 0).write 6 s).write 7 fc)
        r).setStartAddress a).setRegisterCount n).setByteCount
        (n * 2)).setRegistersValues v).RTULengthWithoutCRC).appendCRC := rfl

/-- A bulk-read request as `build` assembles it, before the CRC. -/
theorem Frame.build_readRequest (s fc a n : Nat) (v : List Nat) (t : Nat)
    (hg : functionGroup fc = .bulkRead) (hlt : fc < 128) :
    Frame.build true s fc a n v t =
      Frame.appendCRC ⟨letobe 6 (letobe n (letobe a
        (((letobe t (fun _ => toByte 0) 0).write 6 s).write 7 fc) 8) 10) 4, true⟩ := by
  rw [Frame.build_unfold]
  generalize hb : (((letobe t (fun _ => toByte 0) 0).write 6 s).write 7 fc) = base
  have h0 : base 7 = toByte fc := by rw [← hb]; exact Buffer.write_same _ _ _
  have h1 : (letobe a base 8) 7 = toByte fc := by
    rw [letobe_of_ne _ _ (by omega) (by omega), h0]
  have h2 : (letobe n (letobe a base 8) 10) 7 = toByte fc := by
    rw [letobe_of_ne _ _ (by omega) (by omega), h1]
  rw [Frame.setStartAddress_mk true a h0 hlt, if_pos (Or.inl ⟨hg, rfl⟩),
    Frame.setRegisterCount_mk true n h1 hlt, if_pos (Or.inl ⟨hg, rfl⟩),
    Frame.setByteCount_mk true _ h2 hlt, if_neg (by simp), if_neg (by simp [hg]),
    Frame.setRegistersValues_mk true v h2 hlt, if_neg (by simp), if_neg (by simp [hg]),
    if_neg (by simp [hg]), Frame.RTULengthWithoutCRC_mk true h2 hlt, if_pos hg]
  rfl

/-- A write-multiple request as `build` assembles it, before the CRC. -/
theorem Frame.build_writeMultipleRequest (s fc a n : Nat) (v : List Nat) (t : Nat)
    (hg : functionGroup fc = .writeMultiple) (hlt : fc < 128) :
    Frame.build true s fc a n v t =
      Frame.appendCRC ⟨letobe (7 + n * 2 % 256)
        (registersValuesLoop v 13 (n * 2 % 256) (n * 2 % 256) 0
          ((letobe n (letobe a
            (((letobe t (fun _ => toByte 0) 0).write 6 s).write 7 fc) 8) 10).write 12 (n * 2)))
        4, true⟩ := by
  rw [Frame.build_unfold]
  generalize hb : (((letobe t (fun _ => toByte 0) 0).write 6 s).write 7 fc) = base
  have h0 : base 7 = toByte fc := by rw [← hb]; exact Buffer.write_same _ _ _
  have h1 : (letobe a base 8) 7 = toByte fc := by
    rw [letobe_of_ne _ _ (by omega) (by omega), h0]
  have h2 : (letobe n (letobe a base 8) 10) 7 = toByte fc := by
    rw [letobe_of_ne _ _ (by omega) (by omega), h1]
  have h3 : ((letobe n (letobe a base 8) 10).write 12 (n * 2)) 7 = toByte fc := by
    rw [Buffer.write_of_ne _ _ (by omega), h2]
  have e12 : (((letobe n (letobe a base 8) 10).write 12 (n * 2)) 12).val = n * 2 % 256 := by
    rw [Buffer.write_same, toByte_val]
  have h4 : (registersValuesLoop v 13 (n * 2 % 256) (n * 2 % 256) 0
      ((letobe n (letobe a base 8) 10).write 12 (n * 2))) 7 = toByte fc := by
    rw [registersValuesLoop_of_lt _ _ _ _ (by omega), h3]
  have e12' : ((registersValuesLoop v 13 (n * 2 % 256) (n * 2 % 256) 0
      ((letobe n (letobe a base 8) 10).write 12 (n * 2))) 12).val = n * 2 % 256 := by
    rw [registersValuesLoop_of_lt _ _ _ _ (by omega), e12]
  rw [Frame.setStartAddress_mk true a h0 hlt, if_pos (Or.inr (Or.inr hg)),
    Frame.setRegisterCount_mk true n h1 hlt, if_pos (Or.inr hg),
    Frame.setByteCount_mk true _ h2 hlt, if_neg (by simp), if_pos ⟨hg, rfl⟩,
    Frame.setRegistersValues_mk true v h3 hlt, if_neg (by simp), if_neg (by simp [hg]),
    if_pos ⟨hg, rfl⟩, e12, Frame.RTULengthWithoutCRC_mk true h4 hlt, if_neg (by simp [hg]),
    if_neg (by simp [hg]), if_pos hg, e12']
  rfl

/-- A bulk-read response as `build` assembles it, before the CRC. -/
theorem Frame.build_readResponse (s fc a n : Nat) (v : List Nat) (t : Nat)
    (hg : functionGroup fc = .bulkRead) (hlt : fc < 128) :
    Frame.build false s fc a n v t =
      Frame.appendCRC ⟨letobe (3 + n * 2 % 256)
        (registersValuesLoop v 9 (n * 2 % 256) (n * 2 % 256) 0
          ((((letobe t (fun _ => toByte 0) 0).write 6 s).write 7 fc).write 8 (n * 2)))
        4, false⟩ := by
  rw [Frame.build_unfold]
  generalize hb : (((letobe t (fun _ => toByte 0) 0).write 6 s).write 7 fc) = base
  have h0 : base 7 = toByte fc := by rw [← hb]; exact Buffer.write_same _ _ _
  have h3 : (base.write 8 (n * 2)) 7 = toByte fc := by
    rw [Buffer.write_of_ne _ _ (by omega), h0]
  have e8 : ((base.write 8 (n * 2)) 8).val = n * 2 % 256 := by
    rw [Buffer.write_same, toByte_val]
  have h4 : (registersValuesLoop v 9 (n * 2 % 256) (n * 2 % 256) 0
      (base.write 8 (n * 2))) 7 = toByte fc := by
    rw [registersValuesLoop_of_lt _ _ _ _ (by omega), h3]
  have e8' : ((registersValuesLoop v 9 (n * 2 % 256) (n * 2 % 256) 0
      (base.write 8 (n * 2))) 8).val = n * 2 % 256 := by
    rw [registersValuesLoop_of_lt _ _ _ _ (by omega), e8]
  rw [Frame.setStartAddress_mk false a h0 hlt, if_neg (by simp [hg]),
    Frame.setRegisterCount_mk false n h0 hlt, if_neg (by simp [hg]),
    Frame.setByteCount_mk false _ h0 hlt, if_pos ⟨hg, rfl⟩,
    Frame.setRegistersValues_mk false v h3 hlt, if_pos ⟨hg, rfl⟩, e8,
    Frame.RTULengthWithoutCRC_mk false h4 hlt, if_pos hg, e8']
  rfl

/-! ## Wire layout -/

theorem Buffer.subspan_add (b : Buffer) (o m k : Nat) :
    b.subspan o (m + k) = b.subspan o m ++ b.subspan (o + m) k := by
  unfold Buffer.subspan
  rw [List.range_add, List.map_append, List.map_map]
  congr 1
  apply List.map_congr_left
  intro i _
  simp [Nat.add_assoc]

theorem Buffer.subspan_two (b : Buffer) (o : Nat) :
    b.subspan o 2 = [(b o).val, (b (o + 1)).val] := by
  simp [Buffer.subspan, List.range_succ]

theorem Buffer.subspan_words (b : Buffer) (v : List Nat) (hv : ∀ x ∈ v, x < 65536) :
    ∀ o : Nat,
      (∀ j, j < v.length → b (o + 2 * j) = toByte (v.getD j 0 / 256)
        ∧ b (o + 2 * j + 1) = toByte (v.getD j 0)) →
      b.subspan o (2 * v.length) = v.flatMap wordOctets := by
  induction v with
  | nil => intro o _; rfl
  | cons x xs ih =>
    intro o h
    have hx : x < 65536 := hv x (List.mem_cons_self x xs)
    have h0 := h 0 (by simp)
    have e : 2 * (x :: xs).length = 2 + 2 * xs.length := by simp; omega
    rw [e, Buffer.subspan_add, Buffer.subspan_two, List.flatMap_cons,
      ih (fun y hy => hv y (List.mem_cons_of_mem x hy)) (o + 2)]
    · simp only [Nat.mul_zero, Nat.add_zero, List.getD_cons_zero] at h0
      rw [h0.1, h0.2, toByte_val, toByte_val, Nat.mod_eq_of_lt (by omega : x / 256 < 256)]
      rfl
    · intro j hj
      have hj' := h (j + 1) (by simp; omega)
      have e1 : o + 2 * (j + 1) = o + 2 + 2 * j := by omega
      rw [e1] at hj'
      simpa using hj'

theorem Frame.appendCRC_calculateRTULength (f : Frame) (hs : f.Serialized) :
    f.appendCRC.calculateRTULength = f.RTULengthWithoutCRC + 2 := by
  have h3 := hs.three_le
  have hsub := f.RTULengthWithoutCRC_eq_sub
  rw [f.appendCRC_agree.calculateRTULength hs]
  omega

/-- The wire octets of a serialized frame with the CRC appended: the
`RTULengthWithoutCRC()` octets of the body, then the CRC of exactly those. -/
theorem Frame.appendCRC_wire (f : Frame) (hs : f.Serialized) :
    f.appendCRC.buf.subspan 6 f.appendCRC.calculateRTULength
      = withCRC (f.buf.subspan 6 f.RTULengthWithoutCRC) := by
  have hlt : f.calculateModbusCRC < 65536 := calculateModbusCRC_lt _
  rw [Frame.appendCRC_calculateRTULength f hs, Buffer.subspan_add, Buffer.subspan_two]
  unfold withCRC
  congr 1
  · apply Buffer.subspan_congr
    intro i hi
    rw [Frame.appendCRC_buf, if_neg (by omega), if_neg (by omega)]
  · rw [Frame.appendCRC_buf, if_neg (by omega), if_pos rfl, Frame.appendCRC_buf, if_pos rfl,
      toByte_val, toByte_val, Nat.mod_eq_of_lt (by omega : f.calculateModbusCRC / 256 < 256)]
    rfl

theorem Frame.mk_serialized {b : Buffer} {fc : Nat} (r : Bool) (h7 : b 7 = toByte fc)
    (hlt : fc < 128) (hg : functionGroup fc ≠ .other) : (Frame.mk b r).Serialized := by
  obtain ⟨e1, _⟩ := Frame.mk_header r h7 hlt
  exact Or.inr (by rw [e1]; exact hg)

theorem Frame.rtuFrame_appendCRC (f : Frame) (hs : f.Serialized) :
    f.appendCRC.rtuFrame.2 = withCRC (f.buf.subspan 6 f.RTULengthWithoutCRC) := by
  rw [Frame.rtuFrame_snd, Frame.appendCRC_idem f hs, Frame.appendCRC_wire f hs]

theorem Frame.rtuFrame_readRequest (s fc a n : Nat) (v : List Nat) (t : Nat)
    (hg : functionGroup fc = .bulkRead) (hlt : fc < 128)
    (hs : s < 256) (ha : a < 65536) (hn : n < 65536) :
    (Frame.build true s fc a n v t).rtuFrame.2
      = withCRC [s, fc, a / 256, a % 256, n / 256, n % 256] := by
  rw [Frame.build_readRequest s fc a n v t hg hlt]
  generalize hb : letobe 6 (letobe n (letobe a
        (((letobe t (fun _ => toByte 0) 0).write 6 s).write 7 fc) 8) 10) 4 = b
  have h7 : b 7 = toByte fc := by
    rw [← hb]; simp [letobe_apply, Buffer.write_apply]
  rw [Frame.rtuFrame_appendCRC _ (Frame.mk_serialized true h7 hlt (by rw [hg]; decide)),
    Frame.RTULengthWithoutCRC_mk true h7 hlt, if_pos hg]
  congr 1
  subst hb
  simp only [Buffer.subspan, List.range, List.range.loop, List.map, letobe_apply,
    Buffer.write_apply]
  simp [Nat.mod_eq_of_lt hs, Nat.mod_eq_of_lt (by omega : fc < 256),
    Nat.mod_eq_of_lt (by omega : a / 256 < 256), Nat.mod_eq_of_lt (by omega : n / 256 < 256)]

theorem Frame.rtuFrame_writeMultipleRequest (s fc a : Nat) (v : List Nat) (t : Nat)
    (hg : functionGroup fc = .writeMultiple) (hlt : fc < 128)
    (hs : s < 256) (ha : a < 65536) (hn : v.length ≤ 127) (hv : ∀ x ∈ v, x < 65536) :
    (Frame.build true s fc a v.length v t).rtuFrame.2
      = withCRC ([s, fc, a / 256, a % 256, v.length / 256, v.length % 256, 2 * v.length]
          ++ v.flatMap wordOctets) := by
  rw [Frame.build_writeMultipleRequest s fc a v.length v t hg hlt]
  have ebc : v.length * 2 % 256 = 2 * v.length := by omega
  rw [ebc]
  generalize hb0 : (letobe v.length (letobe a
      (((letobe t (fun _ => toByte 0) 0).write 6 s).write 7 fc) 8) 10).write 12
      (v.length * 2) = b0
  generalize hb : letobe (7 + 2 * v.length)
      (registersValuesLoop v 13 (2 * v.length) (2 * v.length) 0 b0) 4 = b
  have hb_apply : ∀ p, 6 ≤ p → b p =
      if 13 ≤ p ∧ p < 13 + 2 * v.length then
        (if (p - 13) % 2 = 0 then toByte (v.getD ((p - 13) / 2) 0 / 256)
         else toByte (v.getD ((p - 13) / 2) 0))
      else b0 p := by
    intro p hp
    rw [← hb, letobe_of_ne _ _ (by omega) (by omega),
      registersValuesLoop_full v 13 v.length p b0 (Nat.le_refl _)]
  have h7 : b 7 = toByte fc := by
    rw [hb_apply 7 (by omega), if_neg (by omega), ← hb0]
    simp [letobe_apply, Buffer.write_apply]
  have h12 : (b 12).val = 2 * v.length := by
    rw [hb_apply 12 (by omega), if_neg (by omega), ← hb0, Buffer.write_same, toByte_val]
    omega
  rw [Frame.rtuFrame_appendCRC _ (Frame.mk_serialized true h7 hlt (by rw [hg]; decide)),
    Frame.RTULengthWithoutCRC_mk true h7 hlt, if_neg (by rw [hg]; decide),
    if_neg (by rw [hg]; decide), if_pos hg, if_pos rfl, h12]
  congr 1
  show b.subspan 6 (7 + 2 * v.length) = _
  rw [Buffer.subspan_add]
  congr 1
  · simp only [Buffer.subspan, List.range, List.range.loop, List.map]
    rw [hb_apply 6 (by omega), hb_apply 7 (by omega), hb_apply 8 (by omega),
      hb_apply 9 (by omega), hb_apply 10 (by omega), hb_apply 11 (by omega),
      hb_apply 12 (by omega)]
    subst hb0
    simp [letobe_apply, Buffer.write_apply, Nat.mod_eq_of_lt hs,
      Nat.mod_eq_of_lt (by omega : fc < 256), Nat.mod_eq_of_lt (by omega : a / 256 < 256),
      Nat.mod_eq_of_lt (by omega : v.length / 256 < 256)]
    omega
  · apply Buffer.subspan_words b v hv
    intro j hj
    constructor
    · rw [hb_apply _ (by omega), if_pos (by omega), if_pos (by omega)]
      congr 3
      omega
    · rw [hb_apply _ (by omega), if_pos (by omega), if_neg (by omega)]
      congr 2
      omega

/-! ## Decoding register values -/

theorem swap_bytes_pair (x y : Nat) (hx : x < 256) (hy : y < 256) :
    swap_bytes (x ||| (y <<< 8)) = 256 * x + y := by
  unfold swap_bytes
  rw [or_shiftLeft_octet x y hx, shiftRight_8]
  have e : (256 * y + x) / 256 = y := by omega
  rw [e, shiftLeft_or_octet y _ hy]
  omega

theorem Buffer.subspan_getD_lt (b : Buffer) (o n i : Nat) : (b.subspan o n).getD i 0 < 256 := by
  by_cases h : i < n
  · rw [Buffer.subspan_getD b o n i h]
    exact (b (o + i)).isLt
  · rw [List.getD_eq_default _ _ (by rw [Buffer.subspan_length]; omega)]
    decide

theorem Frame.registersData_getD_lt (f : Frame) (i : Nat) : f.registersData.getD i 0 < 256 :=
  Buffer.subspan_getD_lt _ _ _ _

/-- The word branch of the getter `registersValues()`: each octet pair,
read low-then-high and byte-swapped, is the big-endian word. -/
theorem Frame.registersValues_words (f : Frame)
    (hfc : ¬ (f.functionCode = ReadCoils ∨ f.functionCode = ReadDiscreteInputs)) :
    f.registersValues =
      (List.range (f.registersData.length / 2)).map fun i =>
        256 * f.registersData.getD (2 * i) 0 + f.registersData.getD (2 * i + 1) 0 := by
  unfold Frame.registersValues
  simp only []
  rw [if_neg hfc]
  apply List.map_congr_left
  intro i _
  rw [swap_bytes_pair _ _ (f.registersData_getD_lt _) (f.registersData_getD_lt _),
    Nat.mul_comm i 2]

/-- The bit branch of the getter `registersValues()`. -/
theorem Frame.registersValues_bits (f : Frame)
    (hfc : f.functionCode = ReadCoils ∨ f.functionCode = ReadDiscreteInputs) :
    f.registersValues =
      (List.range (f.registersData.length * 8)).map fun i =>
        if (f.registersData.getD (i / 8) 0).testBit (i % 8) then 0xFF00 else 0 := by
  unfold Frame.registersValues
  simp only []
  rw [if_pos hfc]
  apply List.map_congr_left
  intro i _
  have e : decide ((f.registersData.getD (i / 8) 0 >>> (i % 8)) &&& 1 ≠ 0)
      = (f.registersData.getD (i / 8) 0).testBit (i % 8) := by
    rw [Nat.testBit_to_div_mod, Nat.and_one_is_mod, Nat.shiftRight_eq_div_pow]
    have h2 : f.registersData.getD (i / 8) 0 / 2 ^ (i % 8) % 2 = 0
        ∨ f.registersData.getD (i / 8) 0 / 2 ^ (i % 8) % 2 = 1 := by omega
    rcases h2 with h2 | h2 <;> simp [h2]
  rw [e]

theorem List.map_range_getD (v : List Nat) :
    (List.range v.length).map (fun i => v.getD i 0) = v := by
  apply List.ext_getElem
  · simp
  · intro i h1 h2
    simp [List.getD_eq_getElem?_getD, List.getElem?_eq_getElem h2]

/-- C3: the RTU wire layout of built requests.  For the four bulk-read codes
`build(true, s, fc, a, n).rtuFrame()` is the eight octets
`[s, fc, a_hi, a_lo, n_hi, n_lo, crc_lo, crc_hi]`; for a value list `v` of
`n ≤ 127` registers `build(true, s, WriteMultipleRegisters, a, n, v).rtuFrame()`
is `[s, 0x10, a_hi, a_lo, n_hi, n_lo, 2n, v0_hi, v0_lo, ..., crc_lo, crc_hi]`;
the CRC is that of all preceding octets, low octet first. -/
theorem build_request_wire_layout (s a n t : Nat)
    (hs : s < 256) (ha : a < 65536) (hn : n < 65536) :
    (∀ fc, (fc = ReadCoils ∨ fc = ReadDiscreteInputs ∨ fc = ReadHoldingRegisters
        ∨ fc = ReadInputRegisters) →
      (Frame.build true s fc a n [] t).rtuFrame.2
        = withCRC [s, fc, a / 256, a % 256, n / 256, n % 256])
    ∧ (∀ v : List Nat, v.length = n → n ≤ 127 → (∀ x ∈ v, x < 65536) →
      (Frame.build true s WriteMultipleRegisters a n v t).rtuFrame.2
        = withCRC ([s, 0x10, a / 256, a % 256, n / 256, n % 256, 2 * n]
            ++ v.flatMap wordOctets)) := by
  constructor
  · intro fc hfc
    have hlt : fc < 128 := by
      rcases hfc with rfl | rfl | rfl | rfl <;> decide
    exact Frame.rtuFrame_readRequest s fc a n [] t (functionGroup_bulkRead hfc) hlt hs ha hn
  · intro v hlen h127 hv
    subst hlen
    exact Frame.rtuFrame_writeMultipleRequest s WriteMultipleRegisters a v t (by decide)
      (by decide) hs ha h127 hv

set_option maxRecDepth 100000 in
theorem build_request_wire_layout_witness :
    (4 < 256 ∧ 10 < 65536 ∧ 13 < 65536)
      ∧ (Frame.build true 4 ReadCoils 10 13 [] 0).rtuFrame.2
          = [0x04, 0x01, 0x00, 0x0A, 0x00, 0x0D, 0xDD, 0x98] :=
  ⟨by decide,
    ((build_request_wire_layout 4 10 13 0 (by decide) (by decide) (by decide)).1 ReadCoils
      (Or.inl rfl)).trans (by decide)⟩

theorem Frame.registersDataSpan_readResponse (f : Frame) (he : f.isException = false)
    (hr : f.isRequest = false)
    (hfc : f.functionCode = ReadCoils ∨ f.functionCode = ReadDiscreteInputs
      ∨ f.functionCode = ReadHoldingRegisters ∨ f.functionCode = ReadInputRegisters) :
    f.registersDataSpan = (9, f.byteCount) := by
  have hg := functionGroup_bulkRead hfc
  unfold Frame.registersDataSpan Frame.hasRegistersValues
  rw [he, hg, hr]
  rfl

theorem Frame.registersData_length_readResponse (f : Frame) (he : f.isException = false)
    (hr : f.isRequest = false)
    (hfc : f.functionCode = ReadCoils ∨ f.functionCode = ReadDiscreteInputs
      ∨ f.functionCode = ReadHoldingRegisters ∨ f.functionCode = ReadInputRegisters) :
    f.registersData.length = f.byteCount := by
  unfold Frame.registersData
  rw [Buffer.subspan_length, f.registersDataSpan_readResponse he hr hfc]

theorem Frame.byteCount_lt (f : Frame) : f.byteCount < 256 := by
  have h8 := (f.buf 8).isLt
  have h12 := (f.buf 12).isLt
  unfold Frame.byteCount
  rw [BYTE_COUNT_eq, BYTE_COUNT_MULTIPLE_REGISTERS_eq]
  cases f.isException <;> cases functionGroup f.functionCode <;> cases f.isRequest <;>
    simp

theorem List.getD_map_range (g : Nat → Nat) (n i : Nat) (h : i < n) :
    ((List.range n).map g).getD i 0 = g i := by
  simp [List.getD_eq_getElem?_getD, List.getElem?_map, List.getElem?_range h]

/-- C8: word decode is big-endian.  On a non-exception response frame with
function code `ReadHoldingRegisters` or `ReadInputRegisters` and byte count
`n`, `registersData()` has `n` octets, `registersValues()` has `n / 2`
elements, and element `i` is `256 * data[2i] + data[2i+1]`. -/
theorem registersValues_word_decode (f : Frame) (he : f.isException = false)
    (hr : f.isRequest = false)
    (hfc : f.functionCode = ReadHoldingRegisters ∨ f.functionCode = ReadInputRegisters) :
    f.registersData.length = f.byteCount
      ∧ f.registersValues.length = f.byteCount / 2
      ∧ ∀ i, i < f.byteCount / 2 →
          f.registersValues.getD i 0
            = 256 * f.registersData.getD (2 * i) 0 + f.registersData.getD (2 * i + 1) 0 := by
  have hlen := f.registersData_length_readResponse he hr (Or.inr (Or.inr hfc))
  have hnc : ¬ (f.functionCode = ReadCoils ∨ f.functionCode = ReadDiscreteInputs) := by
    rcases hfc with h | h <;> rw [h] <;> decide
  rw [f.registersValues_words hnc, hlen]
  refine ⟨rfl, by simp, fun i hi => ?_⟩
  rw [List.getD_map_range _ _ _ hi]

set_option maxRecDepth 100000 in
theorem registersValues_word_decode_witness :
    ((Frame.fromRawRtuData [0x01, 0x03, 0x04, 0x00, 0x06, 0x00, 0x05, 0xDA, 0x31]
          false).isException = false
        ∧ (Frame.fromRawRtuData [0x01, 0x03, 0x04, 0x00, 0x06, 0x00, 0x05, 0xDA, 0x31]
          false).isRequest = false
        ∧ (Frame.fromRawRtuData [0x01, 0x03, 0x04, 0x00, 0x06, 0x00, 0x05, 0xDA, 0x31]
          false).functionCode = ReadHoldingRegisters)
      ∧ (Frame.fromRawRtuData [0x01, 0x03, 0x04, 0x00, 0x06, 0x00, 0x05, 0xDA, 0x31]
        false).registersValues.length
          = (Frame.fromRawRtuData [0x01, 0x03, 0x04, 0x00, 0x06, 0x00, 0x05, 0xDA, 0x31]
            false).byteCount / 2
      ∧ (Frame.fromRawRtuData [0x01, 0x03, 0x04, 0x00, 0x06, 0x00, 0x05, 0xDA, 0x31]
        false).registersData = [0, 6, 0, 5]
      ∧ (Frame.fromRawRtuData [0x01, 0x03, 0x04, 0x00, 0x06, 0x00, 0x05, 0xDA, 0x31]
        false).registersValues = [6, 5] :=
  ⟨by decide,
    (registersValues_word_decode
      (Frame.fromRawRtuData [0x01, 0x03, 0x04, 0x00, 0x06, 0x00, 0x05, 0xDA, 0x31] false)
      (by decide) (by decide) (by decide)).2.1,
    by decide, by decide⟩

/-- C9: bit decode.  On a non-exception response frame with function code
`ReadCoils` or `ReadDiscreteInputs` and byte count `n`, `registersValues()`
has exactly `8n` elements, which is `registerCount()`, and element `8j + k`
(`k < 8`) is `0xFF00` when bit `k` of data octet `j` is set and `0x0000`
otherwise, bit 0 being the least significant. -/
theorem registersValues_bit_decode (f : Frame) (he : f.isException = false)
    (hr : f.isRequest = false)
    (hfc : f.functionCode = ReadCoils ∨ f.functionCode = ReadDiscreteInputs) :
    f.registersValues.length = 8 * f.byteCount
      ∧ f.registersValues.length = f.registerCount
      ∧ ∀ j k, j < f.byteCount → k < 8 →
          f.registersValues.getD (8 * j + k) 0
            = if (f.registersData.getD j 0).testBit k then 0xFF00 else 0x0000 := by
  have hlen := f.registersData_length_readResponse he hr
    (hfc.elim Or.inl (fun h => Or.inr (Or.inl h)))
  have hbc := f.byteCount_lt
  have hrc : f.registerCount = 8 * f.byteCount := by
    unfold Frame.registerCount
    rw [he, if_neg (by simp), if_pos hfc, hr, if_neg (by simp)]
    omega
  rw [f.registersValues_bits hfc, hlen, hrc]
  refine ⟨by simp [Nat.mul_comm], by simp [Nat.mul_comm], fun j k hj hk => ?_⟩
  rw [List.getD_map_range _ _ _ (by omega)]
  have e1 : (8 * j + k) / 8 = j := by omega
  have e2 : (8 * j + k) % 8 = k := by omega
  rw [e1, e2]

set_option maxRecDepth 100000 in
theorem registersValues_bit_decode_witness :
    ((Frame.fromRawRtuData [0x04, 0x01, 0x02, 0x0A, 0x11, 0xB3, 0x50] false).isException
          = false
        ∧ (Frame.fromRawRtuData [0x04, 0x01, 0x02, 0x0A, 0x11, 0xB3, 0x50] false).isRequest
          = false
        ∧ (Frame.fromRawRtuData [0x04, 0x01, 0x02, 0x0A, 0x11, 0xB3, 0x50] false).functionCode
          = ReadCoils)
      ∧ (Frame.fromRawRtuData [0x04, 0x01, 0x02, 0x0A, 0x11, 0xB3, 0x50]
          false).registersValues.length
        = (Frame.fromRawRtuData [0x04, 0x01, 0x02, 0x0A, 0x11, 0xB3, 0x50]
          false).registerCount
      ∧ (Frame.fromRawRtuData [0x04, 0x01, 0x02, 0x0A, 0x11, 0xB3, 0x50] false).registersData
        = [0x0A, 0x11]
      ∧ (Frame.fromRawRtuData [0x04, 0x01, 0x02, 0x0A, 0x11, 0xB3, 0x50] false).registersValues
        = [0, 0xFF00, 0, 0xFF00, 0, 0, 0, 0, 0xFF00, 0, 0, 0, 0xFF00, 0, 0, 0] :=
  ⟨by decide,
    (registersValues_bit_decode
      (Frame.fromRawRtuData [0x04, 0x01, 0x02, 0x0A, 0x11, 0xB3, 0x50] false)
      (by decide) (by decide) (by decide)).2.1,
    by decide, by decide⟩

theorem flatMap_wordOctets_length (v : List Nat) :
    (v.flatMap wordOctets).length = 2 * v.length := by
  induction v with
  | nil => rfl
  | cons x xs ih =>
    rw [List.flatMap_cons, List.length_append, ih]
    simp [wordOctets]; omega

theorem flatMap_wordOctets_getD (v : List Nat) :
    ∀ i, i < v.length →
      (v.flatMap wordOctets).getD (2 * i) 0 = v.getD i 0 / 256
        ∧ (v.flatMap wordOctets).getD (2 * i + 1) 0 = v.getD i 0 % 256 := by
  induction v with
  | nil => intro i hi; exact absurd hi (Nat.not_lt_zero i)
  | cons x xs ih =>
    intro i hi
    cases i with
    | zero => exact ⟨rfl, rfl⟩
    | succ j =>
      have hj : j < xs.length := by simpa using hi
      have e1 : 2 * (j + 1) = 2 * j + 1 + 1 := by omega
      rw [e1, List.flatMap_cons]
      exact ih j hj

/-- Decoding the big-endian octet pairs of a word list gives the list back. -/
theorem decode_wordOctets (v : List Nat) :
    ((List.range ((v.flatMap wordOctets).length / 2)).map fun i =>
      256 * (v.flatMap wordOctets).getD (2 * i) 0 + (v.flatMap wordOctets).getD (2 * i + 1) 0)
      = v := by
  have e : (v.flatMap wordOctets).length / 2 = v.length := by
    rw [flatMap_wordOctets_length]; omega
  rw [e]
  conv_rhs => rw [← List.map_range_getD v]
  apply List.map_congr_left
  intro i hi
  obtain ⟨h1, h2⟩ := flatMap_wordOctets_getD v i (List.mem_range.mp hi)
  rw [h1, h2]
  omega

theorem Frame.build_writeMultipleRequest_buf (s fc a : Nat) (v : List Nat) (t : Nat)
    (hg : functionGroup fc = .writeMultiple) (hlt : fc < 128)
    (hn : v.length ≤ 127) (hv : ∀ x ∈ v, x < 65536) :
    ∃ b : Buffer, Frame.build true s fc a v.length v t = Frame.appendCRC ⟨b, true⟩
      ∧ b 7 = toByte fc ∧ (b 12).val = 2 * v.length ∧ betole b 10 = v.length
      ∧ b.subspan 13 (2 * v.length) = v.flatMap wordOctets := by
  rw [Frame.build_writeMultipleRequest s fc a v.length v t hg hlt]
  have ebc : v.length * 2 % 256 = 2 * v.length := by omega
  rw [ebc]
  generalize hb0 : (letobe v.length (letobe a
      (((letobe t (fun _ => toByte 0) 0).write 6 s).write 7 fc) 8) 10).write 12
      (v.length * 2) = b0
  generalize hb : letobe (7 + 2 * v.length)
      (registersValuesLoop v 13 (2 * v.length) (2 * v.length) 0 b0) 4 = b
  have hb_apply : ∀ p, 6 ≤ p → b p =
      if 13 ≤ p ∧ p < 13 + 2 * v.length then
        (if (p - 13) % 2 = 0 then toByte (v.getD ((p - 13) / 2) 0 / 256)
         else toByte (v.getD ((p - 13) / 2) 0))
      else b0 p := by
    intro p hp
    rw [← hb, letobe_of_ne _ _ (by omega) (by omega),
      registersValuesLoop_full v 13 v.length p b0 (Nat.le_refl _)]
  refine ⟨b, rfl, ?_, ?_, ?_, ?_⟩
  · rw [hb_apply 7 (by omega), if_neg (by omega), ← hb0]
    simp [letobe_apply, Buffer.write_apply]
  · rw [hb_apply 12 (by omega), if_neg (by omega), ← hb0, Buffer.write_same, toByte_val]
    omega
  · rw [betole_eq, hb_apply 10 (by omega), hb_apply 11 (by omega), if_neg (by omega),
      if_neg (by omega), ← hb0]
    simp [letobe_apply, Buffer.write_apply]
    omega
  · apply Buffer.subspan_words b v hv
    intro j hj
    constructor
    · rw [hb_apply _ (by omega), if_pos (by omega), if_pos (by omega)]
      congr 3
      omega
    · rw [hb_apply _ (by omega), if_pos (by omega), if_neg (by omega)]
      congr 2
      omega

theorem Frame.build_readResponse_buf (s fc a : Nat) (v : List Nat) (t : Nat)
    (hg : functionGroup fc = .bulkRead) (hlt : fc < 128)
    (hn : v.length ≤ 127) (hv : ∀ x ∈ v, x < 65536) :
    ∃ b : Buffer, Frame.build false s fc a v.length v t = Frame.appendCRC ⟨b, false⟩
      ∧ b 7 = toByte fc ∧ (b 8).val = 2 * v.length
      ∧ b.subspan 9 (2 * v.length) = v.flatMap wordOctets := by
  rw [Frame.build_readResponse s fc a v.length v t hg hlt]
  have ebc : v.length * 2 % 256 = 2 * v.length := by omega
  rw [ebc]
  generalize hb0 : (((letobe t (fun _ => toByte 0) 0).write 6 s).write 7 fc).write 8
      (v.length * 2) = b0
  generalize hb : letobe (3 + 2 * v.length)
      (registersValuesLoop v 9 (2 * v.length) (2 * v.length) 0 b0) 4 = b
  have hb_apply : ∀ p, 6 ≤ p → b p =
      if 9 ≤ p ∧ p < 9 + 2 * v.length then
        (if (p - 9) % 2 = 0 then toByte (v.getD ((p - 9) / 2) 0 / 256)
         else toByte (v.getD ((p - 9) / 2) 0))
      else b0 p := by
    intro p hp
    rw [← hb, letobe_of_ne _ _ (by omega) (by omega),
      registersValuesLoop_full v 9 v.length p b0 (Nat.le_refl _)]
  refine ⟨b, rfl, ?_, ?_, ?_⟩
  · rw [hb_apply 7 (by omega), if_neg (by omega), ← hb0]
    simp [letobe_apply, Buffer.write_apply]
  · rw [hb_apply 8 (by omega), if_neg (by omega), ← hb0, Buffer.write_same, toByte_val]
    omega
  · apply Buffer.subspan_words b v hv
    intro j hj
    constructor
    · rw [hb_apply _ (by omega), if_pos (by omega), if_pos (by omega)]
      congr 3
      omega
    · rw [hb_apply _ (by omega), if_pos (by omega), if_neg (by omega)]
      congr 2
      omega

/-- C10: register values survive `build` for the word functions.  For a value
list `v` of `n ≤ 127` words, the `WriteMultipleRegisters` request built from it
has `registersValues() == v` and `registerCount() == n`, and the
`ReadHoldingRegisters` / `ReadInputRegisters` response built from it has
`registersValues() == v`. -/
theorem build_registersValues (s a t : Nat) (v : List Nat)
    (hn : v.length ≤ 127) (hv : ∀ x ∈ v, x < 65536) :
    (Frame.build true s WriteMultipleRegisters a v.length v t).registersValues = v
      ∧ (Frame.build true s WriteMultipleRegisters a v.length v t).registerCount = v.length
      ∧ ∀ fc, (fc = ReadHoldingRegisters ∨ fc = ReadInputRegisters) →
          (Frame.build false s fc a v.length v t).registersValues = v := by
  refine ⟨?_, ?_, ?_⟩
  · obtain ⟨b, hb, h7, h12, _, hdata⟩ :=
      Frame.build_writeMultipleRequest_buf s WriteMultipleRegisters a v t (by decide)
        (by decide) hn hv
    have hs : (Frame.mk b true).Serialized := Frame.mk_serialized true h7 (by decide) (by decide)
    obtain ⟨e1, _⟩ := Frame.mk_header true h7 (by decide : WriteMultipleRegisters < 128)
    rw [hb, (Frame.appendCRC_agree _).registersValues hs,
      Frame.registersValues_words _ (by rw [e1]; decide)]
    have hd : (Frame.mk b true).registersData = v.flatMap wordOctets := by
      unfold Frame.registersData
      rw [Frame.registersDataSpan_mk true h7 (by decide : WriteMultipleRegisters < 128)]
      simp only [show functionGroup WriteMultipleRegisters = .writeMultiple by decide, h12]
      simpa using hdata
    rw [hd]
    exact decode_wordOctets v
  · obtain ⟨b, hb, h7, _, h10, _⟩ :=
      Frame.build_writeMultipleRequest_buf s WriteMultipleRegisters a v t (by decide)
        (by decide) hn hv
    have hs : (Frame.mk b true).Serialized := Frame.mk_serialized true h7 (by decide) (by decide)
    obtain ⟨e1, e2⟩ := Frame.mk_header true h7 (by decide : WriteMultipleRegisters < 128)
    rw [hb, (Frame.appendCRC_agree _).registerCount hs]
    unfold Frame.registerCount
    rw [e1, e2, REGISTER_COUNT_eq]
    simpa [WriteMultipleRegisters_eq, ReadCoils_eq, ReadDiscreteInputs_eq,
      ReadHoldingRegisters_eq, ReadInputRegisters_eq, WriteSingleCoil_eq,
      WriteSingleRegister_eq, WriteMultipleCoils_eq] using h10
  · intro fc hfc
    have hg : functionGroup fc = .bulkRead := functionGroup_bulkRead (Or.inr (Or.inr hfc))
    have hlt : fc < 128 := by rcases hfc with rfl | rfl <;> decide
    obtain ⟨b, hb, h7, h8, hdata⟩ := Frame.build_readResponse_buf s fc a v t hg hlt hn hv
    have hs : (Frame.mk b false).Serialized :=
      Frame.mk_serialized false h7 hlt (by rw [hg]; decide)
    obtain ⟨e1, _⟩ := Frame.mk_header false h7 hlt
    rw [hb, (Frame.appendCRC_agree _).registersValues hs,
      Frame.registersValues_words _ (by rw [e1]; rcases hfc with rfl | rfl <;> decide)]
    have hd : (Frame.mk b false).registersData = v.flatMap wordOctets := by
      unfold Frame.registersData
      rw [Frame.registersDataSpan_mk false h7 hlt]
      simp only [hg, h8]
      simpa using hdata
    rw [hd]
    exact decode_wordOctets v

set_option maxRecDepth 100000 in
theorem build_registersValues_witness :
    ([0x1234, 0xABCD, 7].length ≤ 127 ∧ ∀ x ∈ [0x1234, 0xABCD, 7], x < 65536)
      ∧ (Frame.build true 1 WriteMultipleRegisters 10 3 [0x1234, 0xABCD, 7] 0).registersValues
          = [0x1234, 0xABCD, 7]
      ∧ (Frame.build true 1 WriteMultipleRegisters 10 3 [0x1234, 0xABCD, 7] 0).registerCount = 3
      ∧ (Frame.build false 1 ReadHoldingRegisters 10 3 [0x1234, 0xABCD, 7] 0).registersValues
          = [0x1234, 0xABCD, 7] :=
  ⟨by decide,
    (build_registersValues 1 10 0 [0x1234, 0xABCD, 7] (by decide) (by decide)).1,
    (build_registersValues 1 10 0 [0x1234, 0xABCD, 7] (by decide) (by decide)).2.1,
    (build_registersValues 1 10 0 [0x1234, 0xABCD, 7] (by decide) (by decide)).2.2
      ReadHoldingRegisters (Or.inl rfl)⟩

/-! ## Parsed frames -/

theorem Frame.fromRawRtuData_buf_val (data : List Nat) (r : Bool) (i : Nat)
    (hlen : data.length ≤ 294) (hb : ∀ x ∈ data, x < 256) (hi : i < data.length) :
    ((Frame.fromRawRtuData data r).buf (6 + i)).val = data.getD i 0 := by
  rw [Frame.fromRawRtuData_buf _ _ _ (by omega),
    if_pos (by rw [Nat.min_def]; split_ifs; omega), toByte_val]
  have e : 6 + i - 6 = i := by omega
  rw [e]
  apply Nat.mod_eq_of_lt
  rw [List.getD_eq_getElem _ _ hi]
  exact hb _ (List.getElem_mem hi)

theorem Frame.fromRawRtuData_subspan (data : List Nat) (r : Bool) (j k : Nat)
    (hlen : data.length ≤ 294) (hb : ∀ x ∈ data, x < 256) (hjk : j + k ≤ data.length) :
    (Frame.fromRawRtuData data r).buf.subspan (6 + j) k = (data.drop j).take k := by
  apply List.ext_getElem
  · rw [Buffer.subspan_length, List.length_take, List.length_drop]
    omega
  · intro i h1 h2
    rw [Buffer.subspan_length] at h1
    have e : ((Frame.fromRawRtuData data r).buf.subspan (6 + j) k)[i]
        = ((Frame.fromRawRtuData data r).buf (6 + j + i)).val := by
      simp [Buffer.subspan]
    rw [e, Nat.add_assoc, Frame.fromRawRtuData_buf_val data r (j + i) hlen hb (by omega),
      List.getElem_take, List.getElem_drop, List.getD_eq_getElem _ _ (by omega)]

theorem Frame.fromRawRtuData_buf7 (data : List Nat) (r : Bool)
    (hlen : data.length ≤ 294) (hb : ∀ x ∈ data, x < 256) (h2 : 2 ≤ data.length) :
    (Frame.fromRawRtuData data r).buf 7 = toByte (data.getD 1 0) := by
  apply Fin.ext
  rw [show (7 : Nat) = 6 + 1 from rfl, Frame.fromRawRtuData_buf_val data r 1 hlen hb (by omega),
    toByte_val]
  symm
  apply Nat.mod_eq_of_lt
  rw [List.getD_eq_getElem _ _ (by omega)]
  exact hb _ (List.getElem_mem _)

theorem Frame.crc_eq (f : Frame) :
    f.crc = (f.buf (6 + f.RTULengthWithoutCRC)).val
      + 256 * (f.buf (6 + f.RTULengthWithoutCRC + 1)).val := by
  have h1 := (f.buf (6 + f.RTULengthWithoutCRC)).isLt
  have h2 := (f.buf (6 + f.RTULengthWithoutCRC + 1)).isLt
  unfold Frame.crc
  simp only [Frame.crcPosition_eq]
  rw [or_shiftLeft_octet _ _ h1]
  omega

/-- C5: parsing a bulk-read request.  An eight-octet sequence
`[s, fc, a_hi, a_lo, n_hi, n_lo, c_lo, c_hi]` with `fc` one of the four
bulk-read codes and `c_lo | c_hi << 8` the CRC of the first six octets parses,
as a request, to RTU length 8, slave id `s`, function code `fc`, start address
`256 * a_hi + a_lo`, register count `256 * n_hi + n_lo`, byte count 0, and it
passes `validateRTU()`. -/
theorem fromRawRtuData_readRequest (s fc a_hi a_lo n_hi n_lo c_lo c_hi : Nat)
    (hb : ∀ x ∈ [s, fc, a_hi, a_lo, n_hi, n_lo, c_lo, c_hi], x < 256)
    (hfc : fc = ReadCoils ∨ fc = ReadDiscreteInputs ∨ fc = ReadHoldingRegisters
      ∨ fc = ReadInputRegisters)
    (hcrc : c_lo ||| (c_hi <<< 8) = calculateModbusCRC [s, fc, a_hi, a_lo, n_hi, n_lo]) :
    (Frame.fromRawRtuData [s, fc, a_hi, a_lo, n_hi, n_lo, c_lo, c_hi] true).RTULength = 8
      ∧ (Frame.fromRawRtuData [s, fc, a_hi, a_lo, n_hi, n_lo, c_lo, c_hi] true).slaveID = s
      ∧ (Frame.fromRawRtuData [s, fc, a_hi, a_lo, n_hi, n_lo, c_lo, c_hi] true).functionCode
          = fc
      ∧ (Frame.fromRawRtuData [s, fc, a_hi, a_lo, n_hi, n_lo, c_lo, c_hi] true).startAddress
          = 256 * a_hi + a_lo
      ∧ (Frame.fromRawRtuData [s, fc, a_hi, a_lo, n_hi, n_lo, c_lo, c_hi] true).registerCount
          = 256 * n_hi + n_lo
      ∧ (Frame.fromRawRtuData [s, fc, a_hi, a_lo, n_hi, n_lo, c_lo, c_hi] true).byteCount = 0
      ∧ (Frame.fromRawRtuData [s, fc, a_hi, a_lo, n_hi, n_lo, c_lo, c_hi] true).validateRTU
          = .OK := by
  have hlt : fc < 128 := by rcases hfc with rfl | rfl | rfl | rfl <;> decide
  have hg := functionGroup_bulkRead hfc
  have hval : ∀ i, i < 8 →
      ((Frame.fromRawRtuData [s, fc, a_hi, a_lo, n_hi, n_lo, c_lo, c_hi] true).buf (6 + i)).val
        = [s, fc, a_hi, a_lo, n_hi, n_lo, c_lo, c_hi].getD i 0 :=
    fun i hi => Frame.fromRawRtuData_buf_val _ true i (by simp) hb (by simpa using hi)
  have h7 := Frame.fromRawRtuData_buf7 [s, fc, a_hi, a_lo, n_hi, n_lo, c_lo, c_hi] true
    (by simp) hb (by simp)
  have hsub := Frame.fromRawRtuData_subspan [s, fc, a_hi, a_lo, n_hi, n_lo, c_lo, c_hi] true
    0 6 (by simp) hb (by simp)
  have hm := Frame.fromRawRtuData_MBAPLength [s, fc, a_hi, a_lo, n_hi, n_lo, c_lo, c_hi] true
  have hclo : c_lo < 256 := hb c_lo (by simp)
  have hr := Frame.fromRawRtuData_isRequest [s, fc, a_hi, a_lo, n_hi, n_lo, c_lo, c_hi] true
  generalize Frame.fromRawRtuData [s, fc, a_hi, a_lo, n_hi, n_lo, c_lo, c_hi] true = g
    at hval h7 hsub hm hr ⊢
  simp only [List.getD_cons_succ, List.getD_cons_zero] at h7
  obtain ⟨e1, e2⟩ := Frame.functionCode_of_buf7 h7 hlt
  have hL : g.RTULengthWithoutCRC = 6 := by
    rw [Frame.RTULengthWithoutCRC_eq, e1, e2, hg, hr]
    simp
  have v0 := hval 0 (by omega)
  have v2 := hval 2 (by omega)
  have v3 := hval 3 (by omega)
  have v4 := hval 4 (by omega)
  have v5 := hval 5 (by omega)
  have v6 := hval 6 (by omega)
  have v7 := hval 7 (by omega)
  simp only [List.getD_cons_succ, List.getD_cons_zero, Nat.reduceAdd] at v0 v2 v3 v4 v5 v6 v7
  have hbc : g.byteCount = 0 := by
    unfold Frame.byteCount
    rw [e1, e2, hg, hr]
    simp
  have hsa : g.hasStartAddress = true := by
    unfold Frame.hasStartAddress
    rw [e1, e2, hg, hr]
    simp
  refine ⟨?_, ?_, e1, ?_, ?_, hbc, ?_⟩
  · rw [Frame.RTULength_of_MBAPLength hm, hL]
  · unfold Frame.slaveID
    rw [UNIT_ID_eq, v0]
  · unfold Frame.startAddress
    rw [hsa, START_ADDRESS_eq, betole_eq, v2, v3]
    simp
  · have hrc : g.registerCount = betole g.buf 10 := by
      unfold Frame.registerCount
      rw [e1, e2, hr, REGISTER_COUNT_eq]
      rcases hfc with rfl | rfl | rfl | rfl <;> simp [ReadCoils_eq, ReadDiscreteInputs_eq,
        ReadHoldingRegisters_eq, ReadInputRegisters_eq]
    rw [hrc, betole_eq, v4, v5]
  · have hne : fc % 256 ≠ 0 := by
      rcases hfc with rfl | rfl | rfl | rfl <;> decide
    have hc : g.crc = g.calculateModbusCRC := by
      rw [Frame.crc_eq, hL, v6, v7]
      unfold Frame.calculateModbusCRC
      rw [hL, RTU_HEADER_START_POSITION_eq, show (6 : Nat) = 6 + 0 from rfl, hsub]
      rw [or_shiftLeft_octet _ _ hclo] at hcrc
      simp only [List.drop_zero, List.take_succ_cons, List.take_zero]
      omega
    unfold Frame.validateRTU Frame.validateCommon
    rw [e1, hc]
    simp [hne]

set_option maxRecDepth 100000 in
theorem fromRawRtuData_readRequest_witness :
    ((∀ x ∈ [0x04, 0x01, 0x00, 0x0A, 0x00, 0x0D, 0xDD, 0x98], x < 256)
        ∧ 0xDD ||| (0x98 <<< 8) = calculateModbusCRC [0x04, 0x01, 0x00, 0x0A, 0x00, 0x0D])
      ∧ (Frame.fromRawRtuData [0x04, 0x01, 0x00, 0x0A, 0x00, 0x0D, 0xDD, 0x98] true).RTULength
          = 8
      ∧ (Frame.fromRawRtuData [0x04, 0x01, 0x00, 0x0A, 0x00, 0x0D, 0xDD, 0x98] true).slaveID = 4
      ∧ (Frame.fromRawRtuData [0x04, 0x01, 0x00, 0x0A, 0x00, 0x0D, 0xDD, 0x98]
          true).functionCode = ReadCoils
      ∧ (Frame.fromRawRtuData [0x04, 0x01, 0x00, 0x0A, 0x00, 0x0D, 0xDD, 0x98]
          true).startAddress = 256 * 0 + 10
      ∧ (Frame.fromRawRtuData [0x04, 0x01, 0x00, 0x0A, 0x00, 0x0D, 0xDD, 0x98]
          true).registerCount = 256 * 0 + 13
      ∧ (Frame.fromRawRtuData [0x04, 0x01, 0x00, 0x0A, 0x00, 0x0D, 0xDD, 0x98]
          true).byteCount = 0
      ∧ (Frame.fromRawRtuData [0x04, 0x01, 0x00, 0x0A, 0x00, 0x0D, 0xDD, 0x98]
          true).validateRTU = .OK :=
  ⟨⟨by decide, by decide⟩,
    fromRawRtuData_readRequest 0x04 0x01 0x00 0x0A 0x00 0x0D 0xDD 0x98 (by decide)
      (Or.inl rfl) (by decide)⟩

/-- C6: parsing a bulk-read response.  A sequence
`[s, fc, n, d_1, ..., d_n, c_lo, c_hi]` with `fc` one of the four bulk-read
codes, `n ≤ 255` data octets and `(c_lo, c_hi)` the little-endian CRC of the
preceding `n + 3` octets parses, as a response, to RTU length `n + 5`, slave id
`s`, function code `fc`, byte count `n`, `registersData() == [d_1..d_n]`, and
it passes `validateRTU()`. -/
theorem fromRawRtuData_readResponse (s fc c_lo c_hi : Nat) (d : List Nat)
    (hs : s < 256) (hn : d.length ≤ 255) (hd : ∀ x ∈ d, x < 256)
    (hclo : c_lo < 256) (hchi : c_hi < 256)
    (hfc : fc = ReadCoils ∨ fc = ReadDiscreteInputs ∨ fc = ReadHoldingRegisters
      ∨ fc = ReadInputRegisters)
    (hcrc : c_lo ||| (c_hi <<< 8) = calculateModbusCRC ([s, fc, d.length] ++ d)) :
    (Frame.fromRawRtuData ([s, fc, d.length] ++ d ++ [c_lo, c_hi]) false).RTULength
        = d.length + 5
      ∧ (Frame.fromRawRtuData ([s, fc, d.length] ++ d ++ [c_lo, c_hi]) false).slaveID = s
      ∧ (Frame.fromRawRtuData ([s, fc, d.length] ++ d ++ [c_lo, c_hi]) false).functionCode = fc
      ∧ (Frame.fromRawRtuData ([s, fc, d.length] ++ d ++ [c_lo, c_hi]) false).byteCount
          = d.length
      ∧ (Frame.fromRawRtuData ([s, fc, d.length] ++ d ++ [c_lo, c_hi]) false).registersData = d
      ∧ (Frame.fromRawRtuData ([s, fc, d.length] ++ d ++ [c_lo, c_hi]) false).validateRTU
          = .OK := by
  have hlt : fc < 128 := by rcases hfc with rfl | rfl | rfl | rfl <;> decide
  have hg := functionGroup_bulkRead hfc
  have hlen : ([s, fc, d.length] ++ d ++ [c_lo, c_hi]).length = d.length + 5 := by
    simp
  have hb : ∀ x ∈ [s, fc, d.length] ++ d ++ [c_lo, c_hi], x < 256 := by
    intro x hx
    simp only [List.mem_append, List.mem_cons, List.mem_singleton, List.not_mem_nil,
      or_false] at hx
    rcases hx with ((rfl | rfl | rfl) | hx) | (rfl | rfl)
    · exact hs
    · omega
    · omega
    · exact hd x hx
    · exact hclo
    · exact hchi
  have hval : ∀ i, i < d.length + 5 →
      ((Frame.fromRawRtuData ([s, fc, d.length] ++ d ++ [c_lo, c_hi]) false).buf (6 + i)).val
        = ([s, fc, d.length] ++ d ++ [c_lo, c_hi]).getD i 0 :=
    fun i hi => Frame.fromRawRtuData_buf_val _ false i (by omega) hb (by omega)
  have h7 := Frame.fromRawRtuData_buf7 ([s, fc, d.length] ++ d ++ [c_lo, c_hi]) false
    (by omega) hb (by omega)
  have hsub0 := Frame.fromRawRtuData_subspan ([s, fc, d.length] ++ d ++ [c_lo, c_hi]) false
    0 (3 + d.length) (by omega) hb (by omega)
  have hsub3 := Frame.fromRawRtuData_subspan ([s, fc, d.length] ++ d ++ [c_lo, c_hi]) false
    3 d.length (by omega) hb (by omega)
  have hm := Frame.fromRawRtuData_MBAPLength ([s, fc, d.length] ++ d ++ [c_lo, c_hi]) false
  have hr := Frame.fromRawRtuData_isRequest ([s, fc, d.length] ++ d ++ [c_lo, c_hi]) false
  have v0 := hval 0 (by omega)
  have v2 := hval 2 (by omega)
  have vlo := hval (3 + d.length) (by omega)
  have vhi := hval (3 + d.length + 1) (by omega)
  have g3 : ∀ k, ([s, fc, d.length] ++ d ++ [c_lo, c_hi]).getD (3 + d.length + k) 0
      = [c_lo, c_hi].getD k 0 := by
    intro k
    rw [List.getD_eq_getElem?_getD, List.getD_eq_getElem?_getD,
      List.getElem?_append_right (by simp; omega)]
    congr 2
    simp; omega
  have e0 := g3 0
  have e1' := g3 1
  simp only [Nat.add_zero, List.getD_cons_zero, List.getD_cons_succ] at e0 e1'
  rw [e0] at vlo
  rw [e1'] at vhi
  have t0 : (([s, fc, d.length] ++ d ++ [c_lo, c_hi]).drop 0).take (3 + d.length)
      = [s, fc, d.length] ++ d := by
    rw [List.drop_zero, List.take_append_of_le_length (by simp; omega)]
    apply List.take_of_length_le
    simp; omega
  have t3 : (([s, fc, d.length] ++ d ++ [c_lo, c_hi]).drop 3).take d.length = d := by
    have : ([s, fc, d.length] ++ d ++ [c_lo, c_hi]).drop 3 = d ++ [c_lo, c_hi] := by simp
    rw [this, List.take_left']
    rfl
  rw [t0] at hsub0
  rw [t3] at hsub3
  have q0 : ([s, fc, d.length] ++ d ++ [c_lo, c_hi]).getD 0 0 = s := rfl
  have q1 : ([s, fc, d.length] ++ d ++ [c_lo, c_hi]).getD 1 0 = fc := rfl
  have q2 : ([s, fc, d.length] ++ d ++ [c_lo, c_hi]).getD 2 0 = d.length := rfl
  rw [q0] at v0
  rw [q2] at v2
  rw [q1] at h7
  generalize Frame.fromRawRtuData ([s, fc, d.length] ++ d ++ [c_lo, c_hi]) false = g
    at hval h7 hsub0 hsub3 hm hr v0 v2 vlo vhi ⊢
  obtain ⟨e1, e2⟩ := Frame.functionCode_of_buf7 h7 hlt
  have hbc : g.byteCount = d.length := by
    unfold Frame.byteCount
    rw [e1, e2, hg, hr, BYTE_COUNT_eq]
    simpa using v2
  have hL : g.RTULengthWithoutCRC = 3 + d.length := by
    rw [Frame.RTULengthWithoutCRC_eq, e1, e2, hg, hr]
    simpa using v2
  refine ⟨?_, ?_, e1, hbc, ?_, ?_⟩
  · rw [Frame.RTULength_of_MBAPLength hm, hL]; omega
  · unfold Frame.slaveID
    rw [UNIT_ID_eq, v0]
  · unfold Frame.registersData
    rw [Frame.registersDataSpan_readResponse g e2 hr (by rw [e1]; exact hfc), hbc]
    exact hsub3
  · have hne : fc % 256 ≠ 0 := by
      rcases hfc with rfl | rfl | rfl | rfl <;> decide
    have hc : g.crc = g.calculateModbusCRC := by
      have vhi' : (g.buf (6 + (3 + d.length) + 1)).val = c_hi := by
        rw [← vhi, Nat.add_assoc]
      rw [Frame.crc_eq, hL, vlo, vhi']
      unfold Frame.calculateModbusCRC
      rw [hL, RTU_HEADER_START_POSITION_eq, show (6 : Nat) = 6 + 0 from rfl, hsub0]
      rw [or_shiftLeft_octet _ _ hclo] at hcrc
      omega
    unfold Frame.validateRTU Frame.validateCommon
    rw [e1, hc]
    simp [hne]

set_option maxRecDepth 100000 in
theorem fromRawRtuData_readResponse_witness :
    ((0x01 < 256 ∧ [0x00, 0x06, 0x00, 0x05].length ≤ 255
          ∧ (∀ x ∈ [0x00, 0x06, 0x00, 0x05], x < 256) ∧ 0xDB < 256 ∧ 0x86 < 256)
        ∧ 0xDB ||| (0x86 <<< 8)
          = calculateModbusCRC ([0x01, 0x04, [0x00, 0x06, 0x00, 0x05].length]
              ++ [0x00, 0x06, 0x00, 0x05]))
      ∧ (Frame.fromRawRtuData [0x01, 0x04, 0x04, 0x00, 0x06, 0x00, 0x05, 0xDB, 0x86]
          false).byteCount = 4
      ∧ (Frame.fromRawRtuData [0x01, 0x04, 0x04, 0x00, 0x06, 0x00, 0x05, 0xDB, 0x86]
          false).registersData = [0, 6, 0, 5]
      ∧ (Frame.fromRawRtuData [0x01, 0x04, 0x04, 0x00, 0x06, 0x00, 0x05, 0xDB, 0x86]
          false).validateRTU = .OK :=
  ⟨⟨by decide, by decide⟩,
    (fromRawRtuData_readResponse 0x01 0x04 0xDB 0x86 [0x00, 0x06, 0x00, 0x05] (by decide)
      (by decide) (by decide) (by decide) (by decide) (Or.inr (Or.inr (Or.inr rfl)))
      (by decide)).2.2.2.1,
    (fromRawRtuData_readResponse 0x01 0x04 0xDB 0x86 [0x00, 0x06, 0x00, 0x05] (by decide)
      (by decide) (by decide) (by decide) (by decide) (Or.inr (Or.inr (Or.inr rfl)))
      (by decide)).2.2.2.2.1,
    (fromRawRtuData_readResponse 0x01 0x04 0xDB 0x86 [0x00, 0x06, 0x00, 0x05] (by decide)
      (by decide) (by decide) (by decide) (by decide) (Or.inr (Or.inr (Or.inr rfl)))
      (by decide)).2.2.2.2.2⟩

/-! ## Exception responses -/

theorem IsFunctionCode.bounds {fc : Nat} (h : IsFunctionCode fc) : fc < 128 ∧ fc ≠ 0 := by
  rcases h with h | rfl | rfl | rfl | rfl
  · exact ⟨h.group.2.1, h.group.2.2⟩
  all_goals decide

set_option maxRecDepth 100000 in
theorem exception_bit_facts :
    ∀ fc, fc < 128 →
      (fc ||| 128) % 256 = fc ||| 128 ∧ (fc ||| 128) &&& 128 ≠ 0 ∧ (fc ||| 128) &&& 127 = fc := by
  decide

theorem Frame.buildExceptionResponse_unfold (s fc ec t : Nat) :
    Frame.buildExceptionResponse s fc ec t =
      Frame.appendCRC (Frame.setMBAPLength
        ⟨(((((letobe t (fun _ => toByte 0) 0).write 6 s).write 7 fc).write 7
          ((toByte fc).val ||| 0x80)).write 8 ec), false⟩
        (Frame.RTULengthWithoutCRC
          ⟨(((((letobe t (fun _ => toByte 0) 0).write 6 s).write 7 fc).write 7
            ((toByte fc).val ||| 0x80)).write 8 ec), false⟩)) := by
  unfold Frame.buildExceptionResponse Frame.rebuildExceptionResponse
  simp only [Frame.setIsException, Frame.setExceptionCode, Frame.setFunctionCode,
    Frame.setSlaveID, Frame.setTransactionID, Frame.empty, if_true, FUNCTION_CODE_eq,
    UNIT_ID_eq, TRANSACTION_ID_eq, EXCEPTION_CODE_eq, Buffer.write_same]

/-- C7: exception round-trip.  For every slave id, every function code of
the enumeration other than `Invalid`, every exception code 1..8 and every
transaction id, `buildExceptionResponse(s, fc, ec)` is an exception frame with
function code `fc`, exception code `ec`, slave id `s`, it passes
`validateRTU()`, and its RTU frame is the five octets
`[s, fc | 0x80, ec, crc_lo, crc_hi]`. -/
theorem buildExceptionResponse_roundtrip (s fc ec t : Nat) (hs : s < 256)
    (hfc : IsFunctionCode fc) (hec : 1 ≤ ec ∧ ec ≤ 8) :
    (Frame.buildExceptionResponse s fc ec t).isException = true
      ∧ (Frame.buildExceptionResponse s fc ec t).functionCode = fc
      ∧ (Frame.buildExceptionResponse s fc ec t).exceptionCode = ec
      ∧ (Frame.buildExceptionResponse s fc ec t).slaveID = s
      ∧ (Frame.buildExceptionResponse s fc ec t).validateRTU = .OK
      ∧ (Frame.buildExceptionResponse s fc ec t).rtuFrame.2 = withCRC [s, fc ||| 0x80, ec] := by
  obtain ⟨hlt, hne⟩ := hfc.bounds
  obtain ⟨b1, b2, b3⟩ := exception_bit_facts fc hlt
  rw [Frame.buildExceptionResponse_unfold, toByte_val_of_lt (by omega : fc < 256)]
  generalize hq : (Frame.mk (((((letobe t (fun _ => toByte 0) 0).write 6 s).write 7 fc).write 7
      (fc ||| 0x80)).write 8 ec) false) = q
  have q6 : (q.buf 6).val = s := by
    rw [← hq]; simp [Buffer.write_apply, Nat.mod_eq_of_lt hs]
  have q7 : (q.buf 7).val = fc ||| 128 := by
    rw [← hq]; simp [Buffer.write_apply, b1]
  have q8 : (q.buf 8).val = ec := by
    rw [← hq]; simp [Buffer.write_apply]; omega
  generalize hp : q.setMBAPLength q.RTULengthWithoutCRC = pre
  have p6 : (pre.buf 6).val = s := by rw [← hp, Frame.setMBAPLength_buf_ge _ _ _ (by omega), q6]
  have p7 : (pre.buf 7).val = fc ||| 128 := by
    rw [← hp, Frame.setMBAPLength_buf_ge _ _ _ (by omega), q7]
  have p8 : (pre.buf 8).val = ec := by rw [← hp, Frame.setMBAPLength_buf_ge _ _ _ (by omega), q8]
  have he : pre.isException = true := by
    unfold Frame.isException
    rw [FUNCTION_CODE_eq, p7]
    simpa using b2
  have hf : pre.functionCode = fc := by
    unfold Frame.functionCode
    rw [FUNCTION_CODE_eq, p7]
    exact b3
  have hs' : pre.Serialized := Or.inl he
  have hL : pre.RTULengthWithoutCRC = 3 := by
    rw [Frame.RTULengthWithoutCRC_eq, he]; rfl
  have ha := pre.appendCRC_agree
  have h7 := ha.buf7 hs'
  have he' : pre.appendCRC.isException = true := by rw [Frame.isException_congr h7, he]
  refine ⟨he', ?_, ?_, ?_, ?_, ?_⟩
  · rw [Frame.functionCode_congr h7, hf]
  · unfold Frame.exceptionCode
    rw [he', if_pos rfl, EXCEPTION_CODE_eq, ha.2 8 (by omega) (by omega), p8]
  · rw [ha.slaveID hs']
    unfold Frame.slaveID
    rw [UNIT_ID_eq, p6]
  · exact pre.appendCRC_validateRTU hs' (by rw [hf]; exact hne)
  · rw [Frame.rtuFrame_appendCRC pre hs', hL]
    congr 1
    simp only [Buffer.subspan, List.range, List.range.loop, List.map]
    rw [show (6 : Nat) + 0 = 6 from rfl, show (6 : Nat) + 1 = 7 from rfl,
      show (6 : Nat) + 2 = 8 from rfl, p6, p7, p8]

set_option maxRecDepth 100000 in
theorem buildExceptionResponse_roundtrip_witness :
    (9 < 256 ∧ IsFunctionCode ReadHoldingRegisters ∧ (1 ≤ 2 ∧ 2 ≤ 8))
      ∧ (Frame.buildExceptionResponse 9 ReadHoldingRegisters 2 7).isException = true
      ∧ (Frame.buildExceptionResponse 9 ReadHoldingRegisters 2 7).functionCode
          = ReadHoldingRegisters
      ∧ (Frame.buildExceptionResponse 9 ReadHoldingRegisters 2 7).exceptionCode = 2
      ∧ (Frame.buildExceptionResponse 9 ReadHoldingRegisters 2 7).slaveID = 9
      ∧ (Frame.buildExceptionResponse 9 ReadHoldingRegisters 2 7).validateRTU = .OK
      ∧ (Frame.buildExceptionResponse 9 ReadHoldingRegisters 2 7).rtuFrame.2
          = withCRC [9, ReadHoldingRegisters ||| 0x80, 2] :=
  ⟨⟨by decide, by unfold IsFunctionCode IsSupported; decide, by decide⟩,
    buildExceptionResponse_roundtrip 9 ReadHoldingRegisters 2 7 (by decide)
      (by unfold IsFunctionCode IsSupported; decide) (by decide)⟩

/-! ## Writing register values into a bit-function response -/

theorem Frame.byteCount_readResponse (f : Frame) (he : f.isException = false)
    (hr : f.isRequest = false)
    (hfc : f.functionCode = ReadCoils ∨ f.functionCode = ReadDiscreteInputs
      ∨ f.functionCode = ReadHoldingRegisters ∨ f.functionCode = ReadInputRegisters) :
    f.byteCount = (f.buf 8).val := by
  unfold Frame.byteCount
  rw [he, functionGroup_bulkRead hfc, hr]
  rfl

/-- The setter on a bulk-read response: the header is kept and the payload
octet `j` receives the high octet of `v[j / 2]` for even `j`, its low octet for
odd `j`. -/
theorem Frame.setRegistersValues_readResponse (f : Frame) (v : List Nat)
    (he : f.isException = false) (hr : f.isRequest = false)
    (hfc : f.functionCode = ReadCoils ∨ f.functionCode = ReadDiscreteInputs
      ∨ f.functionCode = ReadHoldingRegisters ∨ f.functionCode = ReadInputRegisters) :
    (f.setRegistersValues v).isException = false
      ∧ (f.setRegistersValues v).isRequest = false
      ∧ (f.setRegistersValues v).functionCode = f.functionCode
      ∧ (f.setRegistersValues v).byteCount = f.byteCount
      ∧ ∀ j, j < f.byteCount → j / 2 < v.length →
          (f.setRegistersValues v).buf (9 + j) =
            if j % 2 = 0 then toByte (v.getD (j / 2) 0 >>> 8)
            else toByte (v.getD (j / 2) 0 &&& 0xFF) := by
  have h7 : (f.setRegistersValues v).buf 7 = f.buf 7 :=
    f.setRegistersValues_buf_lt v 7 (by omega)
  have h8 : (f.setRegistersValues v).buf 8 = f.buf 8 :=
    f.setRegistersValues_buf_lt v 8 (by omega)
  have he2 : (f.setRegistersValues v).isException = false := by
    rw [Frame.isException_congr h7]; exact he
  have hr2 : (f.setRegistersValues v).isRequest = false := by
    rw [Frame.setRegistersValues_isRequest]; exact hr
  have hf2 : (f.setRegistersValues v).functionCode = f.functionCode :=
    Frame.functionCode_congr h7
  refine ⟨he2, hr2, hf2, ?_, ?_⟩
  · rw [Frame.byteCount_readResponse _ he2 hr2 (by rw [hf2]; exact hfc),
      Frame.byteCount_readResponse f he hr hfc, h8]
  · intro j hj hjv
    have hhas : f.hasRegistersValues = true := by
      unfold Frame.hasRegistersValues
      rw [he, functionGroup_bulkRead hfc, hr]
      rfl
    have hspan := f.registersDataSpan_readResponse he hr hfc
    have hbuf : (f.setRegistersValues v).buf
        = registersValuesLoop v 9 f.byteCount f.byteCount 0 f.buf := by
      unfold Frame.setRegistersValues
      rw [if_pos hhas]
      simp only [hspan]
    rw [hbuf, registersValuesLoop_apply v 9 f.byteCount (9 + j) f.byteCount 0 f.buf
      (by omega) (by omega)]
    have e : 9 + j - 9 = j := by omega
    rw [e, if_pos ⟨by omega, by omega, hjv⟩]

set_option maxRecDepth 100000 in
/-- C11 at the failing input: on the `ReadCoils` response
`04 01 02 0A 11 B3 50` (byte count 2), after the setter `registersValues(v)`
with sixteen words of which only the second is `0xFF00`, the getter returns
sixteen zero words, not the list written: the setter stores one word per octet
pair for every function code and packs no bits, while the getter expands each
payload octet of a coil response into eight words. -/
theorem setRegistersValues_bits_not_inverse :
    (Frame.fromRawRtuData [0x04, 0x01, 0x02, 0x0A, 0x11, 0xB3, 0x50] false).isException = false
      ∧ (Frame.fromRawRtuData [0x04, 0x01, 0x02, 0x0A, 0x11, 0xB3, 0x50] false).isRequest
          = false
      ∧ (Frame.fromRawRtuData [0x04, 0x01, 0x02, 0x0A, 0x11, 0xB3, 0x50] false).functionCode
          = ReadCoils
      ∧ (Frame.fromRawRtuData [0x04, 0x01, 0x02, 0x0A, 0x11, 0xB3, 0x50] false).byteCount = 2
      ∧ ((Frame.fromRawRtuData [0x04, 0x01, 0x02, 0x0A, 0x11, 0xB3, 0x50] false).setRegistersValues
          [0, 0xFF00, 0, 0, 0, 0, 0, 0, 0, 0, 0, 0, 0, 0, 0, 0]).registersValues
        = [0, 0, 0, 0, 0, 0, 0, 0, 0, 0, 0, 0, 0, 0, 0, 0]
      ∧ ((Frame.fromRawRtuData [0x04, 0x01, 0x02, 0x0A, 0x11, 0xB3, 0x50] false).setRegistersValues
          [0, 0xFF00, 0, 0, 0, 0, 0, 0, 0, 0, 0, 0, 0, 0, 0, 0]).registersValues
        ≠ [0, 0xFF00, 0, 0, 0, 0, 0, 0, 0, 0, 0, 0, 0, 0, 0, 0] := by
  decide

/-! ## `validateRTU` on an arbitrary frame -/

/-- C12: the result of `validateRTU()` on every frame state.  It is
`InvalidFunctionCode` when the low seven bits of the function-code octet are 0,
whatever the CRC octets are; otherwise it is `OK` when the two octets stored at
offset 6 + (computed RTU length without CRC), read low octet first, equal
`calculateModbusCRC` over the octets from the unit id up to that offset, and
`InvalidCRC` when they differ. -/
theorem validateRTU_result (f : Frame) :
    f.validateRTU =
      if (f.buf 7).val % 128 = 0 then ValidationStatus.InvalidFunctionCode
      else if (f.buf (6 + f.RTULengthWithoutCRC)).val
          + 256 * (f.buf (6 + f.RTULengthWithoutCRC + 1)).val
          = calculateModbusCRC (f.buf.subspan 6 f.RTULengthWithoutCRC)
        then ValidationStatus.OK
      else ValidationStatus.InvalidCRC := by
  have h7 : f.functionCode = (f.buf 7).val % 128 := by
    unfold Frame.functionCode
    rw [FUNCTION_CODE_eq]
    exact Nat.and_pow_two_sub_one_eq_mod _ 7
  have hlt : f.functionCode < 128 := by
    unfold Frame.functionCode
    exact Nat.lt_of_le_of_lt Nat.and_le_right (by decide)
  have hmod : f.functionCode % 256 = f.functionCode := Nat.mod_eq_of_lt (by omega)
  unfold Frame.validateRTU Frame.validateCommon
  simp only [hmod]
  rw [Frame.crc_eq, h7]
  by_cases h0 : (f.buf 7).val % 128 = 0
  · simp [h0]
  · simp only [h0, if_false]
    have e : f.calculateModbusCRC = calculateModbusCRC (f.buf.subspan 6 f.RTULengthWithoutCRC) :=
      rfl
    rw [e]
    by_cases hc : (f.buf (6 + f.RTULengthWithoutCRC)).val
          + 256 * (f.buf (6 + f.RTULengthWithoutCRC + 1)).val
          = calculateModbusCRC (f.buf.subspan 6 f.RTULengthWithoutCRC)
    · simp [hc]
    · simp [hc]

/-! ## Lengths of a built frame -/

theorem Frame.pduLength_of_MBAPLength {f : Frame} (h : f.MBAPLength = f.RTULengthWithoutCRC)
    (h3 : 3 ≤ f.RTULengthWithoutCRC) : f.pduLength = f.RTULengthWithoutCRC - 1 := by
  have hle := f.calculateRTULength_le
  have hsub := f.RTULengthWithoutCRC_eq_sub
  unfold Frame.pduLength
  simp only []
  rw [h, UNIT_ID_SIZE_eq, if_neg (by omega)]
  have e : ((f.RTULengthWithoutCRC : Int) - ((1 : Nat) : Int)) % 65536
      = ((f.RTULengthWithoutCRC - 1 : Nat) : Int) := by omega
  rw [e, Int.toNat_ofNat]

/-- C13: length identity.  After `build` with a supported function code,
either direction and any arguments, `RTULength() == MBAPLength() + 2`,
`pduLength() == MBAPLength() - 1`, `MBAPLength()` is the computed RTU length
without CRC, `calculateRTULength() - 2`, and `RTULength()`,
`calculateRTULength()` and the number of octets of `rtuFrame()` coincide. -/
theorem build_length_identity (is_request : Bool)
    (slave_ID fc start_address register_count : Nat) (registers_values : List Nat)
    (transaction_ID : Nat) (hfc : IsSupported fc) (f : Frame)
    (hf : f = Frame.build is_request slave_ID fc start_address register_count
      registers_values transaction_ID) :
    f.RTULength = f.MBAPLength + 2
      ∧ f.pduLength + 1 = f.MBAPLength
      ∧ f.MBAPLength = f.RTULengthWithoutCRC
      ∧ f.MBAPLength + 2 = f.calculateRTULength
      ∧ f.RTULength = f.calculateRTULength
      ∧ f.rtuFrame.2.length = f.calculateRTULength := by
  obtain ⟨hs, hidem, _, _, _, _, hm⟩ :=
    Frame.build_facts is_request slave_ID fc start_address register_count registers_values
      transaction_ID hfc
  rw [← hf] at hs hidem hm
  have h3 := hs.three_le
  have hsub := f.RTULengthWithoutCRC_eq_sub
  have hr := Frame.RTULength_of_MBAPLength hm
  have hp := Frame.pduLength_of_MBAPLength hm h3
  refine ⟨by omega, by omega, hm, by omega, by omega, ?_⟩
  rw [Frame.rtuFrame_snd, Buffer.subspan_length]

set_option maxRecDepth 100000 in
theorem build_length_identity_witness :
    IsSupported WriteMultipleRegisters
      ∧ (Frame.build true 1 WriteMultipleRegisters 10 2 [0x1234, 0xABCD] 7).RTULength = 13
      ∧ (Frame.build true 1 WriteMultipleRegisters 10 2 [0x1234, 0xABCD] 7).RTULength
          = (Frame.build true 1 WriteMultipleRegisters 10 2 [0x1234, 0xABCD] 7).MBAPLength + 2
      ∧ (Frame.build true 1 WriteMultipleRegisters 10 2 [0x1234, 0xABCD] 7).pduLength + 1
          = (Frame.build true 1 WriteMultipleRegisters 10 2 [0x1234, 0xABCD] 7).MBAPLength
      ∧ (Frame.build true 1 WriteMultipleRegisters 10 2 [0x1234, 0xABCD] 7).rtuFrame.2.length
          = (Frame.build true 1 WriteMultipleRegisters 10 2 [0x1234, 0xABCD]
              7).calculateRTULength :=
  ⟨by unfold IsSupported; decide, by decide,
    (build_length_identity true 1 WriteMultipleRegisters 10 2 [0x1234, 0xABCD] 7
      (by unfold IsSupported; decide) _ rfl).1,
    (build_length_identity true 1 WriteMultipleRegisters 10 2 [0x1234, 0xABCD] 7
      (by unfold IsSupported; decide) _ rfl).2.1,
    (build_length_identity true 1 WriteMultipleRegisters 10 2 [0x1234, 0xABCD] 7
      (by unfold IsSupported; decide) _ rfl).2.2.2.2.2⟩

/-! ## Transmission time -/

theorem toInt32_of_range {x : Int} (h0 : 0 ≤ x) (h1 : x < 2147483648) : toInt32 x = x := by
  unfold toInt32
  omega

theorem calculateTransmissionTimeMs_eq (length bps : Nat)
    (hrange : 100000 * length < 2147483648) :
    calculateTransmissionTimeMs length (bps : Int)
      = (((100000 * length / bps + 5) / 10 : Nat) : Int) := by
  unfold calculateTransmissionTimeMs
  simp only []
  have e1 : (10 : Int) * 1000 * (length : Int) * 10 = ((100000 * length : Nat) : Int) := by
    push_cast; ring
  rw [e1, ← Int.ofNat_tdiv]
  have e2 : ((100000 * length / bps : Nat) : Int) + 5 = ((100000 * length / bps + 5 : Nat) : Int) := by
    push_cast; rfl
  have e3 : (10 : Int) = ((10 : Nat) : Int) := rfl
  rw [e2, e3, ← Int.ofNat_tdiv]
  have hle : 100000 * length / bps ≤ 100000 * length := Nat.div_le_self _ _
  have hlt : (100000 * length / bps + 5) / 10 < 2147483648 := by omega
  generalize (100000 * length / bps + 5) / 10 = q at hlt ⊢
  rw [toInt32_of_range (by omega) (by omega)]
  rw [if_neg (by omega)]

/-- C14 (amended): the transmission time is the line time rounded to the
nearest millisecond, not its ceiling.  For every length and every rate
`bps > 0` with `100000 * length` in the `int` range,
`calculateTransmissionTimeMs(length, bps)` is
`(100000 * length / bps + 5) / 10` in integer arithmetic, a value `r` with
`r - 1/2 ≤ 10 * 1000 * length / bps < r + 1/2`. -/
theorem calculateTransmissionTimeMs_rounds (length bps : Nat) (hbps : 0 < bps)
    (hrange : 100000 * length < 2147483648) :
    ∃ r : Nat, calculateTransmissionTimeMs length (bps : Int) = (r : Int)
      ∧ r = (100000 * length / bps + 5) / 10
      ∧ 10 * bps * r ≤ 100000 * length + 5 * bps
      ∧ 100000 * length < 10 * bps * r + 5 * bps := by
  refine ⟨(100000 * length / bps + 5) / 10,
    calculateTransmissionTimeMs_eq length bps hrange, rfl, ?_, ?_⟩
  · have h1 : bps * (100000 * length / bps) ≤ 100000 * length := Nat.mul_div_le _ _
    have h2 : 10 * ((100000 * length / bps + 5) / 10) ≤ 100000 * length / bps + 5 :=
      Nat.mul_div_le _ _
    calc 10 * bps * ((100000 * length / bps + 5) / 10)
        = bps * (10 * ((100000 * length / bps + 5) / 10)) := by ring
      _ ≤ bps * (100000 * length / bps + 5) := Nat.mul_le_mul_left _ h2
      _ = bps * (100000 * length / bps) + 5 * bps := by ring
      _ ≤ 100000 * length + 5 * bps := Nat.add_le_add_right h1 _
  · have h1 : 100000 * length < bps * (100000 * length / bps + 1) := by
      have := Nat.lt_mul_div_succ (100000 * length) hbps
      simpa [Nat.mul_comm] using this
    have h2 : 100000 * length / bps + 5 < 10 * ((100000 * length / bps + 5) / 10) + 10 := by
      omega
    have h3 : 100000 * length / bps + 1 ≤ 10 * ((100000 * length / bps + 5) / 10) + 5 := by
      omega
    calc 100000 * length < bps * (100000 * length / bps + 1) := h1
      _ ≤ bps * (10 * ((100000 * length / bps + 5) / 10) + 5) := Nat.mul_le_mul_left _ h3
      _ = 10 * bps * ((100000 * length / bps + 5) / 10) + 5 * bps := by ring

theorem calculateTransmissionTimeMs_rounds_witness :
    (0 < 9600 ∧ 100000 * 8 < 2147483648)
      ∧ ∃ r : Nat, calculateTransmissionTimeMs 8 ((9600 : Nat) : Int) = (r : Int)
        ∧ r = (100000 * 8 / 9600 + 5) / 10
        ∧ 10 * 9600 * r ≤ 100000 * 8 + 5 * 9600
        ∧ 100000 * 8 < 10 * 9600 * r + 5 * 9600 :=
  ⟨by decide, calculateTransmissionTimeMs_rounds 8 9600 (by decide) (by decide)⟩

/-- C14 as stated fails: `calculateTransmissionTimeMs(8, 9600)` is 8, while the
ceiling of `10 * 1000 * 8 / 9600 = 8.33…` is 9. -/
theorem calculateTransmissionTimeMs_not_ceiling :
    calculateTransmissionTimeMs 8 9600 = 8
      ∧ (10 * 1000 * 8 + 9600 - 1) / 9600 = 9
      ∧ calculateTransmissionTimeMs 8 9600 ≠ 9 := by
  decide

/-! ## Expected response length -/

theorem Frame.calculateExpectedResponseRTULength_readRequest (s fc a n : Nat) (v : List Nat)
    (t : Nat)
    (hfc : fc = ReadCoils ∨ fc = ReadDiscreteInputs ∨ fc = ReadHoldingRegisters
      ∨ fc = ReadInputRegisters) :
    (Frame.build true s fc a n v t).calculateExpectedResponseRTULength = 8 := by
  have hsup : IsSupported fc := by
    unfold IsSupported
    rcases hfc with h | h | h | h <;> simp [h]
  obtain ⟨_, _, hfn, _, hr, _, _⟩ := Frame.build_facts true s fc a n v t hsup
  unfold Frame.calculateExpectedResponseRTULength Frame.calculateRTULengthOf
  rw [hr, hfn, functionGroup_bulkRead hfc]
  rfl

/-- C15 at the failing input: the expected response length of the request
`build(true, 1, ReadHoldingRegisters, 0, 2)` is 8, the length of the request
itself, not `2 * 2 + 5 = 9`; the response timeout at 9600 bit/s with
`deviceResponseTime_ms = 30` is the time for 8 octets plus 30.  The same holds
for every bulk-read request, whatever its register count. -/
theorem calculateExpectedResponseRTULength_is_request_length :
    (Frame.build true 1 ReadHoldingRegisters 0 2 [] 0).calculateExpectedResponseRTULength = 8
      ∧ MasterBase.getResponseTimeout 30 (Frame.build true 1 ReadHoldingRegisters 0 2 [] 0) 9600
          = (calculateTransmissionTimeMs 8 9600 + 30).toNat
      ∧ (∀ s a n v t,
          (Frame.build true s ReadCoils a n v t).calculateExpectedResponseRTULength = 8)
      ∧ (∀ s a n v t,
          (Frame.build true s ReadDiscreteInputs a n v t).calculateExpectedResponseRTULength
            = 8)
      ∧ (∀ s a n v t,
          (Frame.build true s ReadHoldingRegisters a n v t).calculateExpectedResponseRTULength
            = 8)
      ∧ (∀ s a n v t,
          (Frame.build true s ReadInputRegisters a n v t).calculateExpectedResponseRTULength
            = 8) := by
  have h8 := Frame.calculateExpectedResponseRTULength_readRequest 1 ReadHoldingRegisters 0 2 []
    0 (Or.inr (Or.inr (Or.inl rfl)))
  refine ⟨h8, ?_, ?_, ?_, ?_, ?_⟩
  · unfold MasterBase.getResponseTimeout Frame.calculateResponseTransmissionTimeMs
    simp only []
    rw [h8]
    decide
  · intro s a n v t
    exact Frame.calculateExpectedResponseRTULength_readRequest s _ a n v t (Or.inl rfl)
  · intro s a n v t
    exact Frame.calculateExpectedResponseRTULength_readRequest s _ a n v t (Or.inr (Or.inl rfl))
  · intro s a n v t
    exact Frame.calculateExpectedResponseRTULength_readRequest s _ a n v t
      (Or.inr (Or.inr (Or.inl rfl)))
  · intro s a n v t
    exact Frame.calculateExpectedResponseRTULength_readRequest s _ a n v t
      (Or.inr (Or.inr (Or.inr rfl)))

/-! ## TCP framing -/

theorem Frame.setMBAPLength_buf_lt (f : Frame) (v p : Nat) (hp : p < 4) :
    (f.setMBAPLength v).buf p = f.buf p := by
  unfold Frame.setMBAPLength
  simp only [letobe_apply, LENGTH_eq]
  rw [if_neg (by omega), if_neg (by omega)]

/-- Storing the length that the MBAP length field already holds changes
nothing. -/
theorem Frame.setMBAPLength_self (f : Frame) : f.setMBAPLength f.MBAPLength = f := by
  have h := betole_eq f.buf 4
  have h4 := (f.buf 4).isLt
  have h5 := (f.buf 5).isLt
  have hb : letobe f.MBAPLength f.buf 4 = f.buf := by
    funext p
    rw [letobe_apply]
    unfold Frame.MBAPLength
    rw [LENGTH_eq, h]
    split_ifs with h1 h2
    · subst h1
      apply Fin.ext
      rw [toByte_val]
      omega
    · subst h2
      apply Fin.ext
      rw [toByte_val]
      omega
    · rfl
  cases f with
  | mk b r =>
    unfold Frame.setMBAPLength
    rw [LENGTH_eq]
    exact congrArg (fun x => Frame.mk x r) hb

theorem Frame.build_buf_lt (r : Bool) (s fc a n : Nat) (v : List Nat) (t p : Nat)
    (hp : p < 4) :
    (Frame.build r s fc a n v t).buf p = letobe t (fun _ => toByte 0) 0 p := by
  rw [Frame.build_unfold, Frame.appendCRC_buf, if_neg (by omega), if_neg (by omega),
    Frame.setMBAPLength_buf_lt _ _ _ hp, Frame.setRegistersValues_buf_lt _ _ _ (by omega),
    Frame.setByteCount_buf_lt _ _ _ (by omega), Frame.setRegisterCount_buf_lt _ _ _ (by omega),
    Frame.setStartAddress_buf_lt _ _ _ (by omega)]
  show (((letobe t (fun _ => toByte 0) 0).write 6 s).write 7 fc) p = _
  rw [Buffer.write_of_ne _ _ (by omega), Buffer.write_of_ne _ _ (by omega)]

theorem Buffer.subspan_six (b : Buffer) :
    b.subspan 0 6 = [(b 0).val, (b 1).val, (b 2).val, (b 3).val, (b 4).val, (b 5).val] := by
  simp [Buffer.subspan, List.range_succ]

/-- C16: the TCP-framed encoding of a frame that `build` returns for a
supported function code and transaction id `t`.  With `L` the number of octets
of `rtuFrame()` before its two CRC octets (unit id through the end of the PDU;
it is also the stored MBAP length), `tcpFrame()` is the six MBAP octets
`t_hi, t_lo, 0, 0, L_hi, L_lo` followed by the first `L` octets of
`rtuFrame()`, it has `6 + L` octets, and `validateTCP()` is `OK` before and
after the call. -/
theorem build_tcpFrame_layout (is_request : Bool) (s fc a n : Nat) (v : List Nat) (t : Nat)
    (hfc : IsSupported fc) (f : Frame) (hf : f = Frame.build is_request s fc a n v t) :
    ∃ L : Nat, L + 2 = f.rtuFrame.2.length ∧ L = f.MBAPLength
      ∧ f.tcpFrame.2
          = [t / 256 % 256, t % 256, 0x00, 0x00, L / 256, L % 256] ++ f.rtuFrame.2.take L
      ∧ f.tcpFrame.2.length = 6 + L
      ∧ f.validateTCP = .OK
      ∧ f.tcpFrame.1.validateTCP = .OK := by
  obtain ⟨hs, hcrc, hfn, _, _, _, hm⟩ := Frame.build_facts is_request s fc a n v t hfc
  have hb : ∀ p, p < 4 → f.buf p = letobe t (fun _ => toByte 0) 0 p := by
    intro p hp; rw [hf]; exact Frame.build_buf_lt is_request s fc a n v t p hp
  rw [← hf] at hs hcrc hfn hm
  have h3 := hs.three_le
  have hsub := f.RTULengthWithoutCRC_eq_sub
  have hle := f.calculateRTULength_le
  have hcalc : f.calculateRTULength = f.RTULengthWithoutCRC + 2 := by omega
  have hself : f.setMBAPLength f.RTULengthWithoutCRC = f := by
    rw [← hm]; exact f.setMBAPLength_self
  have hsize : f.tcpFrameSize = 6 + f.RTULengthWithoutCRC := by
    unfold Frame.tcpFrameSize
    rw [Frame.pduLength_of_MBAPLength hm h3, MBAP_HEADER_SIZE_eq]
    omega
  have htcp : f.tcpFrame = (f, f.buf.subspan 0 (6 + f.RTULengthWithoutCRC)) := by
    unfold Frame.tcpFrame
    simp only []
    rw [hself, hsize]
  have hrtu : f.rtuFrame.2 = f.buf.subspan 6 f.RTULengthWithoutCRC
      ++ f.buf.subspan (6 + f.RTULengthWithoutCRC) 2 := by
    rw [Frame.rtuFrame_snd, hcrc, hcalc, Buffer.subspan_add]
  have h0 : (f.buf 0).val = t / 256 % 256 := by
    rw [hb 0 (by omega), letobe_apply, if_neg (by omega), if_pos rfl, toByte_val]
  have h1 : (f.buf 1).val = t % 256 := by
    rw [hb 1 (by omega), letobe_apply, if_pos rfl, toByte_val, Nat.mod_mod]
  have h2 : (f.buf 2).val = 0 := by
    rw [hb 2 (by omega), letobe_apply, if_neg (by omega), if_neg (by omega)]; rfl
  have h3b : (f.buf 3).val = 0 := by
    rw [hb 3 (by omega), letobe_apply, if_neg (by omega), if_neg (by omega)]; rfl
  have hl := betole_eq f.buf 4
  have hml : f.MBAPLength = 256 * (f.buf 4).val + (f.buf 5).val := by
    unfold Frame.MBAPLength; rw [LENGTH_eq]; exact hl
  have h4 := (f.buf 4).isLt
  have h5 := (f.buf 5).isLt
  have hv : f.validateTCP = .OK := by
    have hp : f.protocolID = 0 := by
      unfold Frame.protocolID
      rw [PROTOCOL_ID_eq, betole_eq, h2, h3b]
    have hne : fc % 256 ≠ 0 := by
      have := hfc.group
      omega
    unfold Frame.validateTCP Frame.validateCommon
    simp only []
    rw [hp, hm, hfn, if_neg (by simp), if_neg (by omega), if_neg hne]
  refine ⟨f.RTULengthWithoutCRC, ?_, hm.symm, ?_, ?_, hv, ?_⟩
  · rw [hrtu, List.length_append, Buffer.subspan_length, Buffer.subspan_length]
  · rw [htcp, hrtu, List.take_left' (Buffer.subspan_length _ _ _), Buffer.subspan_add,
      Buffer.subspan_six, h0, h1, h2, h3b, Nat.zero_add]
    have e4 : (f.buf 4).val = f.RTULengthWithoutCRC / 256 := by omega
    have e5 : (f.buf 5).val = f.RTULengthWithoutCRC % 256 := by omega
    rw [e4, e5]
  · rw [htcp, Buffer.subspan_length]
  · rw [htcp]; exact hv

theorem build_tcpFrame_layout_witness :
    IsSupported ReadHoldingRegisters ∧ ∃ L : Nat,
      L + 2 = (Frame.build true 1 ReadHoldingRegisters 0 2 [] 0x1234).rtuFrame.2.length
      ∧ L = (Frame.build true 1 ReadHoldingRegisters 0 2 [] 0x1234).MBAPLength
      ∧ (Frame.build true 1 ReadHoldingRegisters 0 2 [] 0x1234).tcpFrame.2
          = [0x1234 / 256 % 256, 0x1234 % 256, 0x00, 0x00, L / 256, L % 256]
            ++ (Frame.build true 1 ReadHoldingRegisters 0 2 [] 0x1234).rtuFrame.2.take L
      ∧ (Frame.build true 1 ReadHoldingRegisters 0 2 [] 0x1234).tcpFrame.2.length = 6 + L
      ∧ (Frame.build true 1 ReadHoldingRegisters 0 2 [] 0x1234).validateTCP = .OK
      ∧ (Frame.build true 1 ReadHoldingRegisters 0 2 [] 0x1234).tcpFrame.1.validateTCP = .OK :=
  ⟨Or.inr (Or.inr (Or.inl rfl)),
    build_tcpFrame_layout true 1 ReadHoldingRegisters 0 2 [] 0x1234
      (Or.inr (Or.inr (Or.inl rfl))) _ rfl⟩

/-! ## Byte/register codec -/

/-- C17 at the failing input: on a span of exactly two registers
`convertToRegisters<uint32_t>` and `convertFromRegisters<uint32_t>` throw
`out_of_range` (their guard is `size() < 4`), while the helpers they call,
guarded by `size() < 2`, write `{0x1234, 0x5678}` for `0x12345678` and read it
back. -/
theorem convertU32_two_registers_throws :
    convertToRegistersU32 [0, 0] 0x12345678 = .error .out_of_range
      ∧ convertFromRegistersU32 [0x1234, 0x5678] = .error .out_of_range
      ∧ u32ToRegisters 0x12345678 [0, 0] = .ok [0x1234, 0x5678]
      ∧ registersToU32 [0x1234, 0x5678] = .ok 0x12345678
      ∧ (∀ r0 r1 v, convertToRegistersU32 [r0, r1] v = .error .out_of_range)
      ∧ (∀ r0 r1, convertFromRegistersU32 [r0, r1] = .error .out_of_range) := by
  refine ⟨rfl, rfl, rfl, rfl, ?_, ?_⟩
  · intro r0 r1 v; rfl
  · intro r0 r1; rfl

/-- C19 at the failing input: writing the octets `[0x12, 0x34]` into one
register that held `0x0000` leaves `0x0034`, not `0x1234`, and reading it gives
`[0x00, 0x34]`: `setU8LSB` clears the high octet that `setU8MSB` has just
written. -/
theorem convertToRegistersBytes_drops_high_octet :
    convertToRegistersBytes [0x0000] [0x12, 0x34] = .ok [0x0034]
      ∧ convertFromRegistersBytes [0x0034] = [0x00, 0x34]
      ∧ setU8MSB 0x0000 0x12 = 0x1200
      ∧ setU8LSB 0x1200 0x34 = 0x0034 :=
  ⟨rfl, rfl, rfl, rfl⟩

theorem and_65280 (x : Nat) (h : x < 65536) : x &&& 0xFF00 = 256 * (x / 256) := by
  have hx : x = 256 * (x / 256) + x % 256 := by omega
  have hl : x % 256 < 2 ^ 8 := by have := Nat.mod_lt x (show 0 < 256 by decide); omega
  have hh : x / 256 < 2 ^ 8 := by omega
  have e : x = 2 ^ 8 * (x / 256) ||| x % 256 := by
    rw [← Nat.mul_add_lt_is_or hl]; exact hx
  apply Nat.eq_of_testBit_eq
  intro i
  rw [Nat.testBit_and]
  conv_lhs => rw [e]
  rw [Nat.testBit_or, show (256 : Nat) = 2 ^ 8 from rfl, Nat.testBit_mul_pow_two,
    show (0xFF00 : Nat) = 2 ^ 8 * (2 ^ 8 - 1) from rfl, Nat.testBit_mul_pow_two,
    Nat.testBit_two_pow_sub_one]
  by_cases h8 : 8 ≤ i
  · have hf : (x % 256).testBit i = false :=
      Nat.testBit_eq_false_of_lt (Nat.lt_of_lt_of_le hl (Nat.pow_le_pow_right (by decide) h8))
    by_cases h16 : i - 8 < 8
    · simp [h8, h16, hf]
    · have hf2 : (x / 256).testBit (i - 8) = false :=
        Nat.testBit_eq_false_of_lt
          (Nat.lt_of_lt_of_le hh (Nat.pow_le_pow_right (by decide) (by omega)))
      simp [h8, hf, hf2]
  · simp [h8]

theorem getU8MSB_eq (x : Nat) (h : x < 65536) : getU8MSB x = x / 256 := by
  unfold getU8MSB
  rw [shiftRight_8]
  exact Nat.mod_eq_of_lt (by omega)

theorem getU8LSB_eq (x : Nat) : getU8LSB x = x % 256 := by
  unfold getU8LSB
  rw [and_255, Nat.mod_mod]

/-- C20: the `uint8_t` codec touches one octet of `reg[0]`.  For a register
value `r` (16 bits) and an octet `v`, the MSB write leaves
`(v << 8) | (r & 0x00FF)` in `reg[0]` and the LSB write `(r & 0xFF00) | v`,
the other registers unchanged; the MSB read returns the high octet and the LSB
read the low octet; reading after writing `v` with the same order returns `v`,
and a write with one order leaves the value read with the other order
unchanged. -/
theorem convertU8_one_octet (r v : Nat) (rest : List Nat) (hr : r < 65536) (hv : v < 256) :
    convertToRegistersU8MSB (r :: rest) v = .ok (((v <<< 8) ||| (r &&& 0x00FF)) :: rest)
      ∧ convertToRegistersU8LSB (r :: rest) v = .ok (((r &&& 0xFF00) ||| v) :: rest)
      ∧ convertFromRegistersU8MSB (r :: rest) = .ok (r / 256)
      ∧ convertFromRegistersU8LSB (r :: rest) = .ok (r % 256)
      ∧ convertFromRegistersU8MSB (((v <<< 8) ||| (r &&& 0x00FF)) :: rest) = .ok v
      ∧ convertFromRegistersU8LSB (((r &&& 0xFF00) ||| v) :: rest) = .ok v
      ∧ convertFromRegistersU8LSB (((v <<< 8) ||| (r &&& 0x00FF)) :: rest)
          = convertFromRegistersU8LSB (r :: rest)
      ∧ convertFromRegistersU8MSB (((r &&& 0xFF00) ||| v) :: rest)
          = convertFromRegistersU8MSB (r :: rest) := by
  have hlo : r % 256 < 256 := Nat.mod_lt r (by decide)
  have em : (v <<< 8) ||| (r &&& 0x00FF) = 256 * v + r % 256 := by
    rw [and_255, shiftLeft_or_octet _ _ hlo]
  have el : (r &&& 0xFF00) ||| v = 256 * (r / 256) + v := by
    rw [and_65280 r hr, show (256 : Nat) = 2 ^ 8 from rfl, ← Nat.mul_add_lt_is_or (by omega)]
  have hlen : ¬ (r :: rest).length < 1 := by simp
  have hmlen : ∀ x : Nat, ¬ (x :: rest).length < 1 := by intro x; simp
  refine ⟨?_, ?_, ?_, ?_, ?_, ?_, ?_, ?_⟩
  · unfold convertToRegistersU8MSB
    rw [if_neg hlen]
    simp only [List.getD_cons_zero, List.set_cons_zero, Nat.mod_eq_of_lt hv]
    rw [Nat.or_comm, em, Nat.mod_eq_of_lt (by omega)]
  · unfold convertToRegistersU8LSB
    rw [if_neg hlen]
    simp only [List.getD_cons_zero, List.set_cons_zero, Nat.mod_eq_of_lt hv]
    rw [el, Nat.mod_eq_of_lt (by omega)]
  · unfold convertFromRegistersU8MSB
    rw [if_neg hlen, List.getD_cons_zero, getU8MSB_eq r hr]
  · unfold convertFromRegistersU8LSB
    rw [if_neg hlen, List.getD_cons_zero, getU8LSB_eq]
  · unfold convertFromRegistersU8MSB
    rw [if_neg (hmlen _), List.getD_cons_zero, em, getU8MSB_eq _ (by omega)]
    congr 1; omega
  · unfold convertFromRegistersU8LSB
    rw [if_neg (hmlen _), List.getD_cons_zero, el, getU8LSB_eq]
    congr 1; omega
  · unfold convertFromRegistersU8LSB
    rw [if_neg (hmlen _), if_neg hlen, List.getD_cons_zero, List.getD_cons_zero, em,
      getU8LSB_eq, getU8LSB_eq]
    congr 1; omega
  · unfold convertFromRegistersU8MSB
    rw [if_neg (hmlen _), if_neg hlen, List.getD_cons_zero, List.getD_cons_zero, el,
      getU8MSB_eq _ (by omega), getU8MSB_eq r hr]
    congr 1; omega

theorem convertU8_one_octet_witness :
    convertToRegistersU8MSB [0x1234, 7] 0xAB = .ok [0xAB34, 7]
      ∧ convertToRegistersU8LSB [0x1234, 7] 0xAB = .ok [0x12AB, 7]
      ∧ convertFromRegistersU8MSB [0x1234, 7] = .ok 0x12
      ∧ convertFromRegistersU8LSB [0x1234, 7] = .ok 0x34
      ∧ convertFromRegistersU8MSB [0xAB34, 7] = .ok 0xAB
      ∧ convertFromRegistersU8LSB [0x12AB, 7] = .ok 0xAB
      ∧ convertFromRegistersU8LSB [0xAB34, 7] = convertFromRegistersU8LSB [0x1234, 7]
      ∧ convertFromRegistersU8MSB [0x12AB, 7] = convertFromRegistersU8MSB [0x1234, 7] :=
  convertU8_one_octet 0x1234 0xAB [7] (by decide) (by decide)

/-! ## String codec -/

theorem List.getD_lt_of_forall {s : List Nat} {B : Nat} (hB : 0 < B) (hs : ∀ c ∈ s, c < B)
    (i : Nat) : s.getD i 0 < B := by
  by_cases hi : i < s.length
  · rw [List.getD_eq_getElem _ _ hi]
    exact hs _ (List.getElem_mem hi)
  · rw [List.getD_eq_default _ _ (by omega)]
    exact hB

theorem map_range_zero_of_le (s : List Nat) (m ci : Nat) (h : s.length ≤ ci) :
    (List.range m).map (fun i => 256 * s.getD (ci + 2 * i) 0 + s.getD (ci + 2 * i + 1) 0)
      = List.replicate m 0 := by
  apply List.ext_getElem
  · simp
  · intro i h1 h2
    simp only [List.getElem_map, List.getElem_range, List.getElem_replicate]
    rw [List.getD_eq_default _ _ (by omega), List.getD_eq_default _ _ (by omega)]

theorem map_range_succ_shift (s : List Nat) (m ci : Nat) :
    (List.range (m + 1)).map
        (fun i => 256 * s.getD (ci + 2 * i) 0 + s.getD (ci + 2 * i + 1) 0)
      = (256 * s.getD ci 0 + s.getD (ci + 1) 0)
        :: (List.range m).map
          (fun i => 256 * s.getD (ci + 2 + 2 * i) 0 + s.getD (ci + 2 + 2 * i + 1) 0) := by
  rw [List.range_succ_eq_map, List.map_cons, List.map_map]
  congr 1
  apply List.map_congr_left
  intro i _
  simp only [Function.comp, Nat.succ_eq_add_one]
  have e : ci + 2 * (i + 1) = ci + 2 + 2 * i := by omega
  rw [e]

/-- The write loop of the string codec on a zero-filled span, started at
character `ci`: register `i` receives characters `ci + 2i` and `ci + 2i + 1`,
a missing character counting as 0. -/
theorem convertToRegistersStringLoop_eq (s : List Nat) (max_chars : Nat)
    (hs : ∀ c ∈ s, c < 256) (hmax : s.length ≤ max_chars) (m ci : Nat) :
    convertToRegistersStringLoop s max_chars (List.replicate m 0) ci
      = (List.range m).map
          (fun i => 256 * s.getD (ci + 2 * i) 0 + s.getD (ci + 2 * i + 1) 0) := by
  induction m generalizing ci with
  | zero => rfl
  | succ m ih =>
    have hc0 := List.getD_lt_of_forall (by decide : 0 < 256) hs ci
    have hc1 := List.getD_lt_of_forall (by decide : 0 < 256) hs (ci + 1)
    rw [map_range_succ_shift, List.replicate_succ]
    unfold convertToRegistersStringLoop
    by_cases h0 : ci < s.length
    · have c0 : ci < s.length ∧ ci < max_chars := ⟨h0, by omega⟩
      have e1 : (0 ||| (s.getD ci 0 % 65536) <<< 8) % 65536 = 256 * s.getD ci 0 := by
        rw [Nat.zero_or, Nat.mod_eq_of_lt (by omega), Nat.shiftLeft_eq,
          Nat.mod_eq_of_lt (by omega)]
        omega
      simp only [if_pos c0, e1]
      by_cases h1 : ci + 1 < s.length
      · have c1 : ci + 1 < s.length ∧ ci + 1 < max_chars := ⟨h1, by omega⟩
        have e2 : (256 * s.getD ci 0 ||| s.getD (ci + 1) 0 % 65536) % 65536
            = 256 * s.getD ci 0 + s.getD (ci + 1) 0 := by
          rw [Nat.mod_eq_of_lt (show s.getD (ci + 1) 0 < 65536 by omega),
            show (256 : Nat) = 2 ^ 8 from rfl, ← Nat.mul_add_lt_is_or (by omega)]
          apply Nat.mod_eq_of_lt
          omega
        simp only [if_pos c1, e2]
        by_cases h2 : ci + 1 + 1 ≥ s.length
        · rw [if_pos h2, map_range_zero_of_le s m (ci + 2) (by omega)]
        · rw [if_neg h2, ih (ci + 1 + 1)]
      · have c1 : ¬ (ci + 1 < s.length ∧ ci + 1 < max_chars) := fun h => h1 h.1
        have c2 : ci + 1 ≥ s.length := by omega
        simp only [if_neg c1, if_pos c0, if_pos c2]
        rw [map_range_zero_of_le s m (ci + 2) (by omega),
          List.getD_eq_default _ _ (by omega : s.length ≤ ci + 1), Nat.add_zero]
    · have c0 : ¬ (ci < s.length ∧ ci < max_chars) := fun h => h0 h.1
      have c2 : ci ≥ s.length := by omega
      simp only [if_neg c0, if_pos c2]
      rw [map_range_zero_of_le s m (ci + 2) (by omega),
        List.getD_eq_default _ _ (by omega : s.length ≤ ci),
        List.getD_eq_default _ _ (by omega : s.length ≤ ci + 1)]

/-- The read loop of the string codec on the registers that hold the
characters of `s` from `ci` on, two per register, returns those characters. -/
theorem convertFromRegistersString_eq (s : List Nat) (hs : ∀ c ∈ s, 0 < c ∧ c < 128)
    (m ci : Nat) (h0 : ci ≤ s.length) (h1 : s.length ≤ ci + 2 * m) :
    convertFromRegistersString
        ((List.range m).map
          (fun i => 256 * s.getD (ci + 2 * i) 0 + s.getD (ci + 2 * i + 1) 0))
      = s.drop ci := by
  have hs256 : ∀ c ∈ s, c < 256 := fun c hc => by have := (hs c hc).2; omega
  induction m generalizing ci with
  | zero =>
    have e : ci = s.length := by omega
    rw [e, List.drop_length]
    rfl
  | succ m ih =>
    have hc0 := List.getD_lt_of_forall (by decide : 0 < 256) hs256 ci
    have hc1 := List.getD_lt_of_forall (by decide : 0 < 256) hs256 (ci + 1)
    rw [map_range_succ_shift]
    unfold convertFromRegistersString
    simp only []
    rw [getU8MSB_eq _ (by omega), getU8LSB_eq]
    have em : (256 * s.getD ci 0 + s.getD (ci + 1) 0) / 256 = s.getD ci 0 := by omega
    have el : (256 * s.getD ci 0 + s.getD (ci + 1) 0) % 256 = s.getD (ci + 1) 0 := by omega
    rw [em, el]
    by_cases hci : ci < s.length
    · have g0 : s.getD ci 0 = s[ci] := List.getD_eq_getElem _ _ hci
      have p0 := (hs _ (List.getElem_mem hci)).1
      rw [if_neg (by omega), List.drop_eq_getElem_cons hci, ← g0]
      by_cases hci1 : ci + 1 < s.length
      · have g1 : s.getD (ci + 1) 0 = s[ci + 1] := List.getD_eq_getElem _ _ hci1
        have p1 := (hs _ (List.getElem_mem hci1)).1
        rw [if_neg (by omega), List.drop_eq_getElem_cons hci1, ← g1,
          ih (ci + 2) (by omega) (by omega)]
      · rw [if_pos (List.getD_eq_default _ _ (by omega)),
          List.drop_eq_nil_of_le (by omega : s.length ≤ ci + 1)]
    · rw [if_pos (List.getD_eq_default _ _ (by omega)), List.drop_eq_nil_of_le (by omega)]

/-- C18: string codec round trip.  For a string `s` of 7-bit characters without
a zero octet and a span `regs` of `r` registers with `len(s) <= 2r`, the write
succeeds; afterwards register `i` holds `256 * s[2i] + s[2i+1]` (a missing
character counting as 0) for `i < ceil(len(s)/2)` and every later register of
the span holds `0x0000`; reading the written span returns `s`. -/
theorem string_codec_roundtrip (regs s : List Nat) (hs : ∀ c ∈ s, 0 < c ∧ c < 128)
    (hlen : s.length ≤ 2 * regs.length) :
    ∃ out : List Nat, convertToRegistersString regs s = .ok out
      ∧ out.length = regs.length
      ∧ (∀ i, i < (s.length + 1) / 2 →
          out.getD i 0 = 256 * s.getD (2 * i) 0 + s.getD (2 * i + 1) 0)
      ∧ (∀ i, (s.length + 1) / 2 ≤ i → i < regs.length → out.getD i 0 = 0x0000)
      ∧ convertFromRegistersString out = s := by
  have hs256 : ∀ c ∈ s, c < 256 := fun c hc => by have := (hs c hc).2; omega
  have hz : regs.map (fun _ => 0x0000) = List.replicate regs.length 0 := by
    simp [List.map_const']
  have hw : convertToRegistersString regs s
      = .ok ((List.range regs.length).map
          (fun i => 256 * s.getD (0 + 2 * i) 0 + s.getD (0 + 2 * i + 1) 0)) := by
    unfold convertToRegistersString
    simp only []
    rw [if_neg (by omega), hz,
      convertToRegistersStringLoop_eq s _ hs256 (by omega) regs.length 0]
  have hget : ∀ i, i < regs.length →
      ((List.range regs.length).map
        (fun i => 256 * s.getD (0 + 2 * i) 0 + s.getD (0 + 2 * i + 1) 0)).getD i 0
        = 256 * s.getD (2 * i) 0 + s.getD (2 * i + 1) 0 := by
    intro i hi
    rw [List.getD_eq_getElem _ _ (by simpa using hi)]
    simp
  refine ⟨_, hw, by simp, ?_, ?_, ?_⟩
  · intro i hi
    exact hget i (by omega)
  · intro i hi hr
    rw [hget i hr, List.getD_eq_default _ _ (by omega), List.getD_eq_default _ _ (by omega)]
  · rw [convertFromRegistersString_eq s hs regs.length 0 (by omega) (by omega)]
    rfl

theorem string_codec_roundtrip_witness :
    (∀ c ∈ [0x41, 0x42, 0x43], 0 < c ∧ c < 128)
      ∧ convertToRegistersString [7, 7] [0x41, 0x42, 0x43] = .ok [0x4142, 0x4300]
      ∧ convertFromRegistersString [0x4142, 0x4300] = [0x41, 0x42, 0x43] := by
  have hc : ∀ c ∈ [0x41, 0x42, 0x43], 0 < c ∧ c < 128 := by decide
  obtain ⟨out, h1, _, _, _, h5⟩ :=
    string_codec_roundtrip [7, 7] [0x41, 0x42, 0x43] hc (by decide)
  have e : convertToRegistersString [7, 7] [0x41, 0x42, 0x43] = .ok [0x4142, 0x4300] := rfl
  rw [e] at h1
  cases h1
  exact ⟨hc, e, h5⟩

/-! ## Over-long codec writes -/

/-- C21: over-long writes are rejected atomically.  The string write and the
octet-vector write throw `out_of_range` exactly when the source has more octets
than twice the number of destination registers; when they throw, the
destination registers are the ones before the call; when they do not, the
registers afterwards are those of the write. -/
theorem convertToRegisters_overlong_atomic (registers source : List Nat) :
    ((convertToRegistersStringEffect registers source).2 = some .out_of_range
        ↔ 2 * registers.length < source.length)
      ∧ ((convertToRegistersBytesEffect registers source).2 = some .out_of_range
        ↔ 2 * registers.length < source.length)
      ∧ (convertToRegistersString registers source = .error .out_of_range
        ↔ 2 * registers.length < source.length)
      ∧ (convertToRegistersBytes registers source = .error .out_of_range
        ↔ 2 * registers.length < source.length)
      ∧ (2 * registers.length < source.length →
          (convertToRegistersStringEffect registers source).1 = registers
            ∧ (convertToRegistersBytesEffect registers source).1 = registers)
      ∧ (source.length ≤ 2 * registers.length →
          (convertToRegistersStringEffect registers source).2 = none
            ∧ (convertToRegistersBytesEffect registers source).2 = none
            ∧ convertToRegistersString registers source
                = .ok (convertToRegistersStringEffect registers source).1
            ∧ convertToRegistersBytes registers source
                = .ok (convertToRegistersBytesEffect registers source).1) := by
  have eS : convertToRegistersStringEffect registers source =
      if registers.length * 2 < source.length then (registers, some .out_of_range)
      else (convertToRegistersStringLoop source (registers.length * 2)
        (registers.map fun _ => 0x0000) 0, none) := rfl
  have eB : convertToRegistersBytesEffect registers source =
      if registers.length * 2 < source.length then (registers, some .out_of_range)
      else (convertToRegistersBytesLoop source (min source.length (registers.length * 2))
        (min source.length (registers.length * 2)) 0 0 registers, none) := rfl
  have xS : convertToRegistersString registers source =
      if registers.length * 2 < source.length then .error .out_of_range
      else .ok (convertToRegistersStringLoop source (registers.length * 2)
        (registers.map fun _ => 0x0000) 0) := rfl
  have xB : convertToRegistersBytes registers source =
      if registers.length * 2 < source.length then .error .out_of_range
      else .ok (convertToRegistersBytesLoop source (min source.length (registers.length * 2))
        (min source.length (registers.length * 2)) 0 0 registers) := rfl
  rw [eS, eB, xS, xB]
  by_cases h : registers.length * 2 < source.length
  · have h2 : 2 * registers.length < source.length := by omega
    rw [if_pos h, if_pos h, if_pos h, if_pos h]
    exact ⟨⟨fun _ => h2, fun _ => rfl⟩, ⟨fun _ => h2, fun _ => rfl⟩, ⟨fun _ => h2, fun _ => rfl⟩,
      ⟨fun _ => h2, fun _ => rfl⟩, fun _ => ⟨rfl, rfl⟩, fun h3 => absurd h3 (by omega)⟩
  · have h2 : ¬ 2 * registers.length < source.length := by omega
    rw [if_neg h, if_neg h, if_neg h, if_neg h]
    exact ⟨⟨(fun h3 => nomatch h3), fun h3 => absurd h3 h2⟩,
      ⟨(fun h3 => nomatch h3), fun h3 => absurd h3 h2⟩,
      ⟨(fun h3 => nomatch h3), fun h3 => absurd h3 h2⟩,
      ⟨(fun h3 => nomatch h3), fun h3 => absurd h3 h2⟩,
      fun h3 => absurd h3 h2, fun _ => ⟨rfl, rfl, rfl, rfl⟩⟩

theorem convertToRegisters_overlong_atomic_witness :
    (2 * [0xAAAA].length < [0x41, 0x42, 0x43].length →
        (convertToRegistersStringEffect [0xAAAA] [0x41, 0x42, 0x43]).1 = [0xAAAA]
          ∧ (convertToRegistersBytesEffect [0xAAAA] [0x41, 0x42, 0x43]).1 = [0xAAAA])
      ∧ (convertToRegistersStringEffect [0xAAAA] [0x41, 0x42, 0x43]).2 = some .out_of_range
      ∧ (convertToRegistersBytesEffect [0xAAAA] [0x41, 0x42, 0x43]).2 = some .out_of_range
      ∧ (convertToRegistersStringEffect [0xAAAA, 0xBBBB] [0x41, 0x42, 0x43]).2 = none
      ∧ convertToRegistersString [0xAAAA, 0xBBBB] [0x41, 0x42, 0x43] = .ok [0x4142, 0x4300] :=
  ⟨(convertToRegisters_overlong_atomic [0xAAAA] [0x41, 0x42, 0x43]).2.2.2.2.1,
    (convertToRegisters_overlong_atomic [0xAAAA] [0x41, 0x42, 0x43]).1.mpr (by decide),
    (convertToRegisters_overlong_atomic [0xAAAA] [0x41, 0x42, 0x43]).2.1.mpr (by decide),
    ((convertToRegisters_overlong_atomic [0xAAAA, 0xBBBB] [0x41, 0x42, 0x43]).2.2.2.2.2
      (by decide)).1,
    rfl⟩

/-! ## Register buffer -/

theorem RegisterBufferView.calculate_offset_eq (v : RegisterBufferView) (modbus_address : Nat)
    (ha : modbus_address < 65536) :
    v.calculate_offset modbus_address =
      if modbus_address < v.startAddress_
          ∨ modbus_address - v.startAddress_ > min v.buffer_.length 125 then
        .error .out_of_range
      else .ok (modbus_address - v.startAddress_) := by
  unfold RegisterBufferView.calculate_offset MAX_MODBUS_REGISTERS
  simp only []
  have e : (modbus_address - v.startAddress_) % 65536 = modbus_address - v.startAddress_ :=
    Nat.mod_eq_of_lt (by omega)
  rw [e]
  by_cases h1 : modbus_address < v.startAddress_
  · rw [if_pos h1, if_pos (Or.inl h1)]
  · rw [if_neg h1]
    by_cases h2 : modbus_address - v.startAddress_ > v.buffer_.length
        ∨ modbus_address - v.startAddress_ > 125
    · rw [if_pos h2, if_pos (Or.inr (by omega))]
    · rw [if_neg h2, if_neg (by omega)]

/-- C22: address translation of the register view.  For a view with start
address `a0` over `n` registers and a 16-bit `modbus_address`,
`get_buffer_for_address` throws `out_of_range` exactly when
`modbus_address < a0` or `modbus_address - a0 > min(n, 125)`; otherwise it
returns the sub-span of the buffer that begins at offset
`modbus_address - a0`. -/
theorem get_buffer_for_address_result (v : RegisterBufferView) (modbus_address : Nat)
    (ha : modbus_address < 65536) :
    (v.get_buffer_for_address modbus_address = .error .out_of_range
        ↔ (modbus_address < v.startAddress_
          ∨ modbus_address - v.startAddress_ > min v.buffer_.length 125))
      ∧ v.get_buffer_for_address modbus_address =
        if modbus_address < v.startAddress_
            ∨ modbus_address - v.startAddress_ > min v.buffer_.length 125 then
          .error .out_of_range
        else
          .ok (modbus_address - v.startAddress_,
            v.buffer_.drop (modbus_address - v.startAddress_)) := by
  have hc := v.calculate_offset_eq modbus_address ha
  have key : v.get_buffer_for_address modbus_address =
      if modbus_address < v.startAddress_
          ∨ modbus_address - v.startAddress_ > min v.buffer_.length 125 then
        .error .out_of_range
      else
        .ok (modbus_address - v.startAddress_,
          v.buffer_.drop (modbus_address - v.startAddress_)) := by
    unfold RegisterBufferView.get_buffer_for_address
    rw [hc]
    split_ifs <;> rfl
  refine ⟨?_, key⟩
  rw [key]
  split_ifs with h
  · exact ⟨fun _ => h, fun _ => rfl⟩
  · exact ⟨(fun h3 => nomatch h3), fun h3 => absurd h3 h⟩

theorem get_buffer_for_address_result_witness :
    (102 : Nat) < 65536
      ∧ (⟨100, .Holding, [5, 6, 7]⟩ : RegisterBufferView).get_buffer_for_address 102
          = .ok (2, [7])
      ∧ (⟨100, .Holding, [5, 6, 7]⟩ : RegisterBufferView).get_buffer_for_address 103
          = .ok (3, [])
      ∧ (⟨100, .Holding, [5, 6, 7]⟩ : RegisterBufferView).get_buffer_for_address 104
          = .error .out_of_range
      ∧ (⟨100, .Holding, [5, 6, 7]⟩ : RegisterBufferView).get_buffer_for_address 99
          = .error .out_of_range :=
  ⟨by decide,
    (get_buffer_for_address_result ⟨100, .Holding, [5, 6, 7]⟩ 102 (by decide)).2.trans rfl,
    rfl,
    (get_buffer_for_address_result ⟨100, .Holding, [5, 6, 7]⟩ 104 (by decide)).1.mpr
      (by decide),
    rfl⟩

theorem RegisterBuffer.getU16_eq (b : RegisterBuffer) (c : Nat) (hc0 : b.startAddress_ ≤ c)
    (hc : c < 65536) (hc1 : c - b.startAddress_ < min b.registersValue_.length 126) :
    b.getU16 c = .ok (b.registersValue_.getD (c - b.startAddress_) 0) := by
  have hv := (get_buffer_for_address_result b.view c hc).2
  have e1 : b.view.startAddress_ = b.startAddress_ := rfl
  have e2 : b.view.buffer_ = b.registersValue_ := rfl
  rw [e1, e2, if_neg (by omega)] at hv
  unfold RegisterBuffer.getU16 RegisterBufferView.getU16
  rw [hv]
  simp only []
  unfold convertFromRegistersU16
  rw [if_neg (by rw [List.length_drop]; omega)]
  congr 1
  rw [List.getD_eq_getElem?_getD, List.getD_eq_getElem?_getD, List.getElem?_drop, Nat.add_zero]

/-- C23: typed put/get on a register buffer.  For a buffer with start address
`a0` and `n` registers, as `RegisterBuffer(a0, type, n)` constructs it, and
every 16-bit address `a` with `a0 <= a` and `a - a0 < min(n, 126)`,
`put<uint16_t>(a, v)` succeeds, keeps the start address and the number of
registers, and afterwards `get<uint16_t>(a)` returns `v` while
`get<uint16_t>(c)` returns what it returned before for every other address `c`
in that range. -/
theorem RegisterBuffer_put_get (b : RegisterBuffer) (a v : Nat)
    (ha0 : b.startAddress_ ≤ a) (ha : a < 65536)
    (ha1 : a - b.startAddress_ < min b.registersValue_.length 126) (hv : v < 65536) :
    ∃ b2 : RegisterBuffer, b.putU16 a v = .ok b2
      ∧ b2.startAddress_ = b.startAddress_
      ∧ b2.registersValue_.length = b.registersValue_.length
      ∧ b2.getU16 a = .ok v
      ∧ ∀ c, b.startAddress_ ≤ c → c < 65536 →
          c - b.startAddress_ < min b.registersValue_.length 126 → c ≠ a →
          b2.getU16 c = b.getU16 c
            ∧ b.getU16 c = .ok (b.registersValue_.getD (c - b.startAddress_) 0) := by
  have hg := (get_buffer_for_address_result b.view a ha).2
  have e1 : b.view.startAddress_ = b.startAddress_ := rfl
  have e2 : b.view.buffer_ = b.registersValue_ := rfl
  rw [e1, e2, if_neg (by omega)] at hg
  have hlen : ¬ (List.drop (a - b.startAddress_) b.registersValue_).length < 1 := by
    rw [List.length_drop]; omega
  have hput : b.putU16 a v =
      .ok { b with registersValue_ := b.registersValue_.take (a - b.startAddress_)
              ++ (b.registersValue_.drop (a - b.startAddress_)).set 0 v } := by
    unfold RegisterBuffer.putU16 RegisterBufferView.putU16
    rw [hg]
    simp only []
    unfold convertToRegistersU16
    rw [if_neg hlen, Nat.mod_eq_of_lt hv]
    rfl
  have hk : a - b.startAddress_ < b.registersValue_.length := by omega
  have hset : b.registersValue_.take (a - b.startAddress_)
      ++ (b.registersValue_.drop (a - b.startAddress_)).set 0 v
      = b.registersValue_.set (a - b.startAddress_) v := by
    rw [List.drop_eq_getElem_cons hk, List.set_cons_zero, List.set_eq_take_append_cons_drop,
      if_pos hk]
  rw [hset] at hput
  have hs2 : ∀ c, b.startAddress_ ≤ c → c < 65536 →
      c - b.startAddress_ < min b.registersValue_.length 126 →
      ({ b with registersValue_ := b.registersValue_.set (a - b.startAddress_) v }
        : RegisterBuffer).getU16 c
        = .ok ((b.registersValue_.set (a - b.startAddress_) v).getD (c - b.startAddress_) 0) := by
    intro c hc0 hc hc1
    exact RegisterBuffer.getU16_eq
      { b with registersValue_ := b.registersValue_.set (a - b.startAddress_) v } c hc0 hc
      (by simpa using hc1)
  refine ⟨_, hput, rfl, by simp, ?_, ?_⟩
  · rw [hs2 a ha0 ha ha1, List.getD_eq_getElem?_getD, List.getElem?_set_self (by omega)]
    rfl
  · intro c hc0 hc hc1 hca
    rw [hs2 c hc0 hc hc1, RegisterBuffer.getU16_eq b c hc0 hc hc1]
    refine ⟨?_, rfl⟩
    rw [List.getD_eq_getElem?_getD, List.getD_eq_getElem?_getD,
      List.getElem?_set_ne (by omega)]

theorem RegisterBuffer_put_get_witness :
    (RegisterBuffer.new 100 .Holding 3).registersValue_.length = 3
      ∧ ∃ b2 : RegisterBuffer, (RegisterBuffer.new 100 .Holding 3).putU16 102 0xBEEF = .ok b2
        ∧ b2.startAddress_ = 100
        ∧ b2.registersValue_.length = 3
        ∧ b2.getU16 102 = .ok 0xBEEF
        ∧ b2.getU16 101 = (RegisterBuffer.new 100 .Holding 3).getU16 101 := by
  obtain ⟨b2, h1, h2, h3, h4, h5⟩ :=
    RegisterBuffer_put_get (RegisterBuffer.new 100 .Holding 3) 102 0xBEEF (by decide)
      (by decide) (by decide) (by decide)
  exact ⟨rfl, b2, h1, h2, h3, h4, (h5 101 (by decide) (by decide) (by decide) (by decide)).1⟩

/-! ## Request planner -/

theorem List.getLast?_of_ne_nil {α : Type} {l : List α} (h : l ≠ []) :
    ∃ x, l.getLast? = some x ∧ x ∈ l := by
  cases hl : l.getLast? with
  | none => exact absurd (List.getLast?_eq_none_iff.mp hl) h
  | some x => exact ⟨x, rfl, List.mem_of_getLast?_eq_some hl⟩

theorem MasterTag.prepareReadRequestsStep_no_exclusion (tagsDatabase : List Tag)
    (IDtoTagMap : TagMap) (excludedTags : List TagID) (requests : List Request)
    (currentTag : Tag) :
    (MasterTag.mk tagsDatabase IDtoTagMap excludedTags (fun _ => [])).prepareReadRequestsStep
        requests currentTag
      = (if requests.isEmpty then requests ++ [currentTag.request] else requests)
        ++ [currentTag.request] := by
  unfold MasterTag.prepareReadRequestsStep MasterTag.checkForExcludedRegisters
  simp only [List.any_nil, Bool.and_false]
  have hne : (if requests.isEmpty = true then requests ++ [currentTag.request] else requests)
      ≠ [] := by
    cases requests with
    | nil => simp
    | cons a l => simp
  obtain ⟨x, hx, _⟩ := List.getLast?_of_ne_nil hne
  rw [hx]
  simp

theorem MasterTag.foldl_prepareReadRequestsStep_no_exclusion (tagsDatabase : List Tag)
    (IDtoTagMap : TagMap) (excludedTags : List TagID) (tags : List Tag) :
    ∀ requests : List Request, requests ≠ [] →
      tags.foldl
          (MasterTag.mk tagsDatabase IDtoTagMap excludedTags (fun _ => [])).prepareReadRequestsStep
          requests
        = requests ++ tags.map Tag.request := by
  induction tags with
  | nil => intro requests _; simp
  | cons t tags ih =>
    intro requests hne
    rw [List.foldl_cons, MasterTag.prepareReadRequestsStep_no_exclusion]
    cases requests with
    | nil => exact absurd rfl hne
    | cons a l =>
      have e : (if (a :: l).isEmpty = true then (a :: l) ++ [t.request] else a :: l) = a :: l := by
        simp
      rw [e, ih _ (by simp)]
      simp

set_option maxRecDepth 100000 in
/-- C24 at the failing input: with empty exclusion sets the planner returns
four requests for the tags `A`, `B`, `C`, the span of `A` twice and then the
spans of `B` and `C`, not the two requests `{Holding, 10, 3}` and
`{Holding, 100, 1}`.  With empty exclusion sets it never widens a request: a
selection `tag :: rest` yields the span of `tag` twice followed by the span of
every tag of `rest`.  The overload that takes tag identifiers returns the same
four requests for the catalog `A`, `B`, `C`. -/
theorem prepareReadRequests_example_not_coalesced :
    (MasterTag.withExcludedHolding []).prepareReadRequests
        [exampleTagA, exampleTagB, exampleTagC]
        = [⟨.Holding, 10, 2⟩, ⟨.Holding, 10, 2⟩, ⟨.Holding, 12, 1⟩, ⟨.Holding, 100, 1⟩]
      ∧ (MasterTag.withExcludedHolding []).prepareReadRequests
        [exampleTagA, exampleTagB, exampleTagC]
        ≠ [⟨.Holding, 10, 3⟩, ⟨.Holding, 100, 1⟩]
      ∧ (∀ (tagsDatabase : List Tag) (IDtoTagMap : TagMap) (excludedTags : List TagID)
          (tag : Tag) (rest : List Tag),
          (MasterTag.mk tagsDatabase IDtoTagMap excludedTags (fun _ => [])).prepareReadRequests
              (tag :: rest)
            = tag.request :: tag.request :: rest.map Tag.request)
      ∧ ((MasterTag.withExcludedHolding []).registerTags
          [exampleTagA, exampleTagB, exampleTagC]).prepareReadRequestsTagID ["A", "B", "C"]
        = [⟨.Holding, 10, 2⟩, ⟨.Holding, 10, 2⟩, ⟨.Holding, 12, 1⟩, ⟨.Holding, 100, 1⟩] := by
  refine ⟨by decide, by decide, ?_, by decide⟩
  intro tagsDatabase IDtoTagMap excludedTags tag rest
  unfold MasterTag.prepareReadRequests
  simp only []
  rw [if_neg (by simp), List.foldl_cons, MasterTag.prepareReadRequestsStep_no_exclusion,
    MasterTag.foldl_prepareReadRequestsStep_no_exclusion _ _ _ _ _ (by simp)]
  simp

/-- C26 at the failing input: the planner does not sort its input.  The
selection `C`, `A` and its permutation `A`, `C` give different request
sequences, and the first is not in ascending order of start address, although
the sorted copy that the function computes is `A`, `C`. -/
theorem prepareReadRequests_order_dependent :
    (MasterTag.withExcludedHolding []).prepareReadRequests [exampleTagC, exampleTagA]
        = [⟨.Holding, 100, 1⟩, ⟨.Holding, 100, 1⟩, ⟨.Holding, 10, 2⟩]
      ∧ (MasterTag.withExcludedHolding []).prepareReadRequests [exampleTagA, exampleTagC]
        = [⟨.Holding, 10, 2⟩, ⟨.Holding, 10, 2⟩, ⟨.Holding, 100, 1⟩]
      ∧ (MasterTag.withExcludedHolding []).prepareReadRequests [exampleTagC, exampleTagA]
        ≠ (MasterTag.withExcludedHolding []).prepareReadRequests [exampleTagA, exampleTagC]
      ∧ ¬ ((MasterTag.withExcludedHolding []).prepareReadRequests
          [exampleTagC, exampleTagA]).Pairwise (fun a b => a.startAddress ≤ b.startAddress)
      ∧ sortTagsByRegister [exampleTagC, exampleTagA] = [exampleTagA, exampleTagC] := by
  decide

/-- C28 at the failing input: a selection of exactly one tag yields two
requests, both equal to the span of the tag, in the overload that takes tag
references and in the overload that takes tag identifiers (with the tag
registered in the catalog and not excluded). -/
theorem prepareReadRequests_single_tag_twice :
    (MasterTag.withExcludedHolding []).prepareReadRequests [exampleTagA]
        = [⟨.Holding, 10, 2⟩, ⟨.Holding, 10, 2⟩]
      ∧ ((MasterTag.withExcludedHolding []).prepareReadRequests [exampleTagA]).length = 2
      ∧ ((MasterTag.withExcludedHolding []).registerTags [exampleTagA]).IDtoTagMap.contains "A"
          = true
      ∧ ((MasterTag.withExcludedHolding []).registerTags [exampleTagA]).prepareReadRequestsTagID
          ["A"] = [⟨.Holding, 10, 2⟩, ⟨.Holding, 10, 2⟩]
      ∧ (((MasterTag.withExcludedHolding []).registerTags
          [exampleTagA]).prepareReadRequestsTagID ["A"]).length = 2 := by
  decide

theorem tagLess_eq_false_iff (a b : Tag) :
    tagLess b a = false ↔
      (a.register_type.toNat < b.register_type.toNat
        ∨ (a.register_type = b.register_type ∧ a.register_number ≤ b.register_number)) := by
  unfold tagLess
  cases a.register_type <;> cases b.register_type <;>
    simp [RegisterType.toNat, Nat.not_lt]

theorem tagLess_total (a b : Tag) : tagLess b a = false ∨ tagLess a b = false := by
  rw [tagLess_eq_false_iff, tagLess_eq_false_iff]
  by_cases h : a.register_type = b.register_type
  · rw [h]
    rcases Nat.le_total a.register_number b.register_number with h1 | h1
    · exact Or.inl (Or.inr ⟨rfl, h1⟩)
    · exact Or.inr (Or.inr ⟨rfl, h1⟩)
  · have hne : a.register_type.toNat ≠ b.register_type.toNat := by
      revert h
      cases a.register_type <;> cases b.register_type <;> simp [RegisterType.toNat]
    rcases Nat.lt_or_gt_of_ne hne with h1 | h1
    · exact Or.inl (Or.inl h1)
    · exact Or.inr (Or.inl h1)

theorem tagLess_trans (a b c : Tag) (h1 : tagLess b a = false) (h2 : tagLess c b = false) :
    tagLess c a = false := by
  rw [tagLess_eq_false_iff] at h1 h2 ⊢
  rcases h1 with h1 | ⟨e1, h1⟩
  · rcases h2 with h2 | ⟨e2, _⟩
    · exact Or.inl (Nat.lt_trans h1 h2)
    · rw [← e2]; exact Or.inl h1
  · rcases h2 with h2 | ⟨e2, h2⟩
    · rw [e1]; exact Or.inl h2
    · exact Or.inr ⟨e1.trans e2, Nat.le_trans h1 h2⟩

theorem sortTagsByRegister_perm (tags : List Tag) : List.Perm (sortTagsByRegister tags) tags :=
  List.perm_insertionSort _ tags

theorem sortTagsByRegister_sorted (tags : List Tag) :
    (sortTagsByRegister tags).Pairwise (fun a b =>
      a.register_type.toNat < b.register_type.toNat
        ∨ (a.register_type = b.register_type ∧ a.register_number ≤ b.register_number)) := by
  haveI : IsTotal Tag (fun a b => tagLess b a = false) := ⟨tagLess_total⟩
  haveI : IsTrans Tag (fun a b => tagLess b a = false) := ⟨tagLess_trans⟩
  have h := List.sorted_insertionSort (fun a b : Tag => tagLess b a = false) tags
  exact List.Pairwise.imp (fun {a b} hab => (tagLess_eq_false_iff a b).mp hab) h

theorem TagMap.emplace_of_some (m : TagMap) (key : TagID) (index : Nat) (k : TagID) (j : Nat)
    (h : m k = some j) : m.emplace key index k = some j := by
  unfold TagMap.emplace
  by_cases hk : k = key
  · subst hk
    rw [if_pos rfl, h]
  · rw [if_neg hk, h]

theorem TagMap.emplace_self (m : TagMap) (key : TagID) (index : Nat) :
    (m.emplace key index key).isSome = true := by
  unfold TagMap.emplace
  rw [if_pos rfl]
  cases m key <;> rfl

theorem TagMap.emplace_eq_some (m : TagMap) (key : TagID) (index : Nat) (k : TagID) (j : Nat)
    (h : m.emplace key index k = some j) : m k = some j ∨ (k = key ∧ j = index) := by
  unfold TagMap.emplace at h
  by_cases hk : k = key
  · subst hk
    rw [if_pos rfl] at h
    cases hm : m k with
    | none =>
      rw [hm] at h
      injection h with h
      exact Or.inr ⟨rfl, h.symm⟩
    | some i =>
      rw [hm] at h
      exact Or.inl h
  · rw [if_neg hk] at h
    exact Or.inl h

/-- The loop of `registerTags` keeps the entries of the map it starts from. -/
theorem registerTagsLoop_of_some (rest : List Tag) :
    ∀ (m : TagMap) (i : Nat) (k : TagID) (j : Nat), m k = some j →
      registerTagsLoop m i rest k = some j := by
  induction rest with
  | nil => intro m i k j h; exact h
  | cons t rest ih =>
    intro m i k j h
    exact ih _ _ k j (TagMap.emplace_of_some m t.key i k j h)

/-- After the loop of `registerTags` the key of every element it ran over is in
the map. -/
theorem registerTagsLoop_contains (rest : List Tag) :
    ∀ (m : TagMap) (i : Nat), ∀ t ∈ rest, (registerTagsLoop m i rest).contains t.key = true := by
  induction rest with
  | nil => intro m i t ht; cases ht
  | cons t0 rest ih =>
    intro m i t ht
    rcases List.mem_cons.mp ht with h | h
    · subst h
      have hs := TagMap.emplace_self m t.key i
      cases hj : m.emplace t.key i t.key with
      | none => rw [hj] at hs; cases hs
      | some j =>
        unfold TagMap.contains
        show (registerTagsLoop (m.emplace t.key i) (i + 1) rest t.key).isSome = true
        rw [registerTagsLoop_of_some rest _ _ _ _ hj]
        rfl
    · exact ih _ _ t h

/-- An entry of the map after the loop of `registerTags` was there before or
maps the key of an element to the index of that element. -/
theorem registerTagsLoop_eq_some (rest : List Tag) :
    ∀ (m : TagMap) (i : Nat) (k : TagID) (j : Nat), registerTagsLoop m i rest k = some j →
      m k = some j ∨ (i ≤ j ∧ ∃ t, rest[j - i]? = some t ∧ t.key = k) := by
  induction rest with
  | nil => intro m i k j h; exact Or.inl h
  | cons t0 rest ih =>
    intro m i k j h
    rcases ih _ _ k j h with h1 | ⟨h1, t, h2, h3⟩
    · rcases TagMap.emplace_eq_some m t0.key i k j h1 with h4 | ⟨h4, h5⟩
      · exact Or.inl h4
      · refine Or.inr ⟨by omega, t0, ?_, h4.symm⟩
        rw [h5, Nat.sub_self, List.getElem?_cons_zero]
    · refine Or.inr ⟨by omega, t, ?_, h3⟩
      have e : j - i = (j - (i + 1)) + 1 := by omega
      rw [e, List.getElem?_cons_succ]
      exact h2

theorem MasterTag.registerTags_tagsDatabase (m : MasterTag) (tagsToRegister : List Tag) :
    (m.registerTags tagsToRegister).tagsDatabase = sortTagsByRegister tagsToRegister := rfl

theorem MasterTag.registerTags_IDtoTagMap (m : MasterTag) (tagsToRegister : List Tag) :
    (m.registerTags tagsToRegister).IDtoTagMap
      = registerTagsLoop TagMap.empty 0 (sortTagsByRegister tagsToRegister) := rfl

/-- C30: catalog invariant.  After `registerTags(list)` the catalog is a
permutation of `list` in ascending order of `(register_type,
register_number)`, with `Coil < DiscreteInput < AnalogInput < Holding`; the key
of every tag of `list` is in the key-to-index map; every entry `k -> i` of the
map points at a catalog element whose key is `k`; the catalog and the map do
not depend on what the object held before the call.  After `clearTags()` the
catalog and the map are empty. -/
theorem registerTags_catalog_invariant (m : MasterTag) (tagsToRegister : List Tag) :
    List.Perm (m.registerTags tagsToRegister).tagsDatabase tagsToRegister
      ∧ (m.registerTags tagsToRegister).tagsDatabase.Pairwise (fun a b =>
          a.register_type.toNat < b.register_type.toNat
            ∨ (a.register_type = b.register_type ∧ a.register_number ≤ b.register_number))
      ∧ (RegisterType.Coil.toNat < RegisterType.DiscreteInput.toNat
          ∧ RegisterType.DiscreteInput.toNat < RegisterType.AnalogInput.toNat
          ∧ RegisterType.AnalogInput.toNat < RegisterType.Holding.toNat)
      ∧ (∀ t ∈ tagsToRegister,
          (m.registerTags tagsToRegister).IDtoTagMap.contains t.key = true)
      ∧ (∀ k i, (m.registerTags tagsToRegister).IDtoTagMap k = some i →
          ∃ t, (m.registerTags tagsToRegister).tagsDatabase[i]? = some t ∧ t.key = k)
      ∧ (∀ m2 : MasterTag,
          (m2.registerTags tagsToRegister).tagsDatabase
              = (m.registerTags tagsToRegister).tagsDatabase
            ∧ (m2.registerTags tagsToRegister).IDtoTagMap
              = (m.registerTags tagsToRegister).IDtoTagMap)
      ∧ m.clearTags.tagsDatabase = []
      ∧ (∀ k, m.clearTags.IDtoTagMap.contains k = false)
      ∧ (m.registerTags tagsToRegister).clearTags.tagsDatabase = []
      ∧ (∀ k, (m.registerTags tagsToRegister).clearTags.IDtoTagMap.contains k = false) := by
  rw [MasterTag.registerTags_tagsDatabase, MasterTag.registerTags_IDtoTagMap]
  refine ⟨sortTagsByRegister_perm _, sortTagsByRegister_sorted _, by decide, ?_, ?_,
    fun m2 => ⟨rfl, rfl⟩, rfl, fun k => rfl, rfl, fun k => rfl⟩
  · intro t ht
    exact registerTagsLoop_contains _ _ _ t ((sortTagsByRegister_perm _).mem_iff.mpr ht)
  · intro k i h
    rcases registerTagsLoop_eq_some _ _ _ k i h with h1 | ⟨_, t, h2, h3⟩
    · cases h1
    · exact ⟨t, h2, h3⟩

set_option maxRecDepth 100000 in
theorem registerTags_catalog_invariant_witness :
    ((MasterTag.withExcludedHolding []).registerTags
        [exampleTagC, exampleTagB, exampleTagA]).tagsDatabase
        = [exampleTagA, exampleTagB, exampleTagC]
      ∧ List.Perm
          ((MasterTag.withExcludedHolding []).registerTags
            [exampleTagC, exampleTagB, exampleTagA]).tagsDatabase
          [exampleTagC, exampleTagB, exampleTagA]
      ∧ ((MasterTag.withExcludedHolding []).registerTags
          [exampleTagC, exampleTagB, exampleTagA]).IDtoTagMap "C" = some 2
      ∧ (∀ t ∈ [exampleTagC, exampleTagB, exampleTagA],
          ((MasterTag.withExcludedHolding []).registerTags
            [exampleTagC, exampleTagB, exampleTagA]).IDtoTagMap.contains t.key = true) :=
  ⟨by decide,
    (registerTags_catalog_invariant (MasterTag.withExcludedHolding [])
      [exampleTagC, exampleTagB, exampleTagA]).1,
    by decide,
    (registerTags_catalog_invariant (MasterTag.withExcludedHolding [])
      [exampleTagC, exampleTagB, exampleTagA]).2.2.2.1⟩

/-! ## Function-code selection -/

/-- C31: function-code selection and read-only rejection.
`getFunctionCode(true, t)` is `ReadCoils`, `ReadDiscreteInputs`,
`ReadInputRegisters`, `ReadHoldingRegisters` for `t` = `Coil`,
`DiscreteInput`, `AnalogInput`, `Holding`; `getFunctionCode(false, Coil)` is
`WriteMultipleCoils` and `getFunctionCode(false, Holding)` is
`WriteMultipleRegisters`; it throws `invalid_argument` exactly for a write to
`DiscreteInput` or `AnalogInput`.  `MasterBase::write` on those two register
types throws `invalid_argument` and leaves the master as it was: no call is
made on the stream device and the discovered-baud table is unchanged. -/
theorem getFunctionCode_selection :
    MasterBase.getFunctionCode true .Coil = .ok ReadCoils
      ∧ MasterBase.getFunctionCode true .DiscreteInput = .ok ReadDiscreteInputs
      ∧ MasterBase.getFunctionCode true .AnalogInput = .ok ReadInputRegisters
      ∧ MasterBase.getFunctionCode true .Holding = .ok ReadHoldingRegisters
      ∧ MasterBase.getFunctionCode false .Coil = .ok WriteMultipleCoils
      ∧ MasterBase.getFunctionCode false .Holding = .ok WriteMultipleRegisters
      ∧ (∀ (isRead : Bool) (t : RegisterType),
          MasterBase.getFunctionCode isRead t = .error .invalid_argument
            ↔ (isRead = false ∧ (t = .DiscreteInput ∨ t = .AnalogInput)))
      ∧ (∀ (m : MasterBase) (slave_ID start_address : Nat) (values : List Nat),
          m.write slave_ID .DiscreteInput start_address values = (m, some .invalid_argument)
            ∧ m.write slave_ID .AnalogInput start_address values = (m, some .invalid_argument)
            ∧ (m.write slave_ID .DiscreteInput start_address values).1.streamDevice.calls
                = m.streamDevice.calls
            ∧ (m.write slave_ID .AnalogInput start_address values).1.streamDevice.calls
                = m.streamDevice.calls
            ∧ (m.write slave_ID .DiscreteInput start_address values).1.devicesBaudratesMap
                = m.devicesBaudratesMap
            ∧ (m.write slave_ID .AnalogInput start_address values).1.devicesBaudratesMap
                = m.devicesBaudratesMap) := by
  refine ⟨rfl, rfl, rfl, rfl, rfl, rfl, ?_, fun m _ _ _ => ⟨rfl, rfl, rfl, rfl, rfl, rfl⟩⟩
  intro isRead t
  cases isRead <;> cases t <;> simp [MasterBase.getFunctionCode]

/-! ## The discovered-baud table after a probe -/

set_option maxRecDepth 100000 in
/-- C32 at the failing input: with the table holding `1 -> 9600`, a device
that answers at 19200 only and the candidate list `[19200]`, `detectBaud(1,
...)` returns 19200 and the table still maps slave 1 to 9600: `emplace` does
not replace an entry.  With a device that reports no rate and fails the write,
`detectBaud` returns 0 and the entry `1 -> 9600` is still there: the early
`return` skips the `erase`.  From an empty table the same probe does store
`1 -> 19200`. -/
theorem detectBaud_table_stale :
    ((exampleMaster (exampleDevice 19200) (exampleTable 1 9600)).detectBaud 1 [19200]).2 = 19200
      ∧ ((exampleMaster (exampleDevice 19200) (exampleTable 1 9600)).detectBaud 1
          [19200]).1.devicesBaudratesMap 1 = some 9600
      ∧ ((exampleMaster exampleDeadDevice (exampleTable 1 9600)).detectBaud 1 [19200]).2 = 0
      ∧ ((exampleMaster exampleDeadDevice (exampleTable 1 9600)).detectBaud 1
          [19200]).1.devicesBaudratesMap 1 = some 9600
      ∧ ((exampleMaster (exampleDevice 19200) (fun _ => none)).detectBaud 1
          [19200]).1.devicesBaudratesMap 1 = some 19200 := by
  decide

/-! ## Baud probing -/

theorem Frame.storeRead_isRequest (f : Frame) (offset : Nat) (data : List Nat) :
    (f.storeRead offset data).isRequest = f.isRequest := rfl

theorem functionGroup_eq_iff (fc : Nat) :
    (functionGroup fc = .bulkRead ↔
        (fc = ReadCoils ∨ fc = ReadDiscreteInputs ∨ fc = ReadHoldingRegisters
          ∨ fc = ReadInputRegisters))
      ∧ (functionGroup fc = .writeSingle ↔ (fc = WriteSingleCoil ∨ fc = WriteSingleRegister))
      ∧ (functionGroup fc = .writeMultiple ↔
        (fc = WriteMultipleCoils ∨ fc = WriteMultipleRegisters)) := by
  unfold functionGroup
  simp only [ReadCoils_eq, ReadDiscreteInputs_eq, ReadHoldingRegisters_eq, ReadInputRegisters_eq,
    WriteSingleCoil_eq, WriteSingleRegister_eq, WriteMultipleCoils_eq, WriteMultipleRegisters_eq]
  split_ifs with h1 h2 h3
  · simp only [reduceCtorEq, true_iff, false_iff]
    exact ⟨h1, by omega, by omega⟩
  · simp only [reduceCtorEq, true_iff, false_iff]
    exact ⟨h1, h2, by omega⟩
  · simp only [reduceCtorEq, true_iff, false_iff]
    exact ⟨h1, h2, h3⟩
  · simp only [reduceCtorEq, false_iff]
    exact ⟨h1, h2, h3⟩

/-- C34: the conditional accessors on every frame state.  `hasStartAddress()`
is true exactly when the frame is not an exception and either the function code
is one of the four write codes or the frame is a request with a bulk-read code;
`hasRegistersValues()` is true exactly when the frame is not an exception and
either the code is `WriteSingleCoil`/`WriteSingleRegister`, or the frame is a
response with a bulk-read code, or a request with
`WriteMultipleCoils`/`WriteMultipleRegisters`.  When `hasStartAddress()` is
false, `startAddress()` returns 0 and the setter leaves the frame as it is. -/
theorem conditional_accessors (f : Frame) :
    (f.hasStartAddress = true ↔
        (f.isException = false
          ∧ ((f.functionCode = WriteSingleCoil ∨ f.functionCode = WriteSingleRegister
              ∨ f.functionCode = WriteMultipleCoils ∨ f.functionCode = WriteMultipleRegisters)
            ∨ (f.isRequest = true
              ∧ (f.functionCode = ReadCoils ∨ f.functionCode = ReadDiscreteInputs
                ∨ f.functionCode = ReadHoldingRegisters
                ∨ f.functionCode = ReadInputRegisters)))))
      ∧ (f.hasRegistersValues = true ↔
        (f.isException = false
          ∧ ((f.functionCode = WriteSingleCoil ∨ f.functionCode = WriteSingleRegister)
            ∨ (f.isRequest = false
              ∧ (f.functionCode = ReadCoils ∨ f.functionCode = ReadDiscreteInputs
                ∨ f.functionCode = ReadHoldingRegisters
                ∨ f.functionCode = ReadInputRegisters))
            ∨ (f.isRequest = true
              ∧ (f.functionCode = WriteMultipleCoils
                ∨ f.functionCode = WriteMultipleRegisters)))))
      ∧ (f.hasStartAddress = false →
          f.startAddress = 0 ∧ ∀ v, f.setStartAddress v = f ∧ (f.setStartAddress v).buf = f.buf) := by
  obtain ⟨hb, hs, hm⟩ := functionGroup_eq_iff f.functionCode
  refine ⟨?_, ?_, ?_⟩
  · unfold Frame.hasStartAddress
    rw [← hb, ← or_assoc, ← hs, ← hm]
    cases f.isException <;> cases functionGroup f.functionCode <;> cases f.isRequest <;> simp
  · unfold Frame.hasRegistersValues
    rw [← hb, ← hs, ← hm]
    cases f.isException <;> cases functionGroup f.functionCode <;> cases f.isRequest <;> simp
  · intro h
    unfold Frame.startAddress Frame.setStartAddress
    rw [h]
    exact ⟨rfl, fun v => ⟨rfl, rfl⟩⟩

set_option maxRecDepth 100000 in
theorem conditional_accessors_witness :
    (Frame.fromRawRtuData [0x01, 0x03, 0x02, 0x12, 0x34, 0xB5, 0x33] false).hasStartAddress
        = false
      ∧ (Frame.fromRawRtuData [0x01, 0x03, 0x02, 0x12, 0x34, 0xB5, 0x33] false).startAddress = 0
      ∧ (Frame.fromRawRtuData [0x01, 0x03, 0x02, 0x12, 0x34, 0xB5, 0x33] false).setStartAddress
          0xABCD = Frame.fromRawRtuData [0x01, 0x03, 0x02, 0x12, 0x34, 0xB5, 0x33] false
      ∧ (Frame.fromRawRtuData [0x01, 0x03, 0x02, 0x12, 0x34, 0xB5, 0x33] false).hasRegistersValues
        = true :=
  ⟨by decide,
    ((conditional_accessors
      (Frame.fromRawRtuData [0x01, 0x03, 0x02, 0x12, 0x34, 0xB5, 0x33] false)).2.2
        (by decide)).1,
    (((conditional_accessors
      (Frame.fromRawRtuData [0x01, 0x03, 0x02, 0x12, 0x34, 0xB5, 0x33] false)).2.2
        (by decide)).2 0xABCD).1,
    by decide⟩

/-! ## The four-argument length calculation -/

/-- C35 at the failing input: the four-argument `calculateRTULength` depends on
the frame it is called on.  With the arguments `(false, false,
ReadHoldingRegisters, 4)` it returns 8 on a frame whose direction flag is
"request" (the table gives 5 + 4 = 9) and 9 on a frame whose flag is
"response"; with `(false, true, ReadHoldingRegisters, 4)` it returns 9 on a
response frame (the table gives 8).  Its parameter `isRequest` has no effect
on any frame. -/
theorem calculateRTULength_reads_member :
    (Frame.mk (fun _ => toByte 0) true).calculateRTULengthOf false false ReadHoldingRegisters 4
        = 8
      ∧ (Frame.mk (fun _ => toByte 0) false).calculateRTULengthOf false false
          ReadHoldingRegisters 4 = 9
      ∧ (Frame.mk (fun _ => toByte 0) false).calculateRTULengthOf false true
          ReadHoldingRegisters 4 = 9
      ∧ (Frame.mk (fun _ => toByte 0) true).calculateRTULengthOf false false
          WriteMultipleRegisters 4 = 13
      ∧ (∀ (f : Frame) (isException isRequest : Bool) (functionCode byteCount : Nat),
          f.calculateRTULengthOf isException isRequest functionCode byteCount
            = f.calculateRTULengthOf isException (!isRequest) functionCode byteCount) :=
  ⟨by decide, by decide, by decide, by decide, fun _ _ _ _ _ => rfl⟩

/-! ## `build` with a function code outside the eight serialized ones -/

/-- A frame as `build` assembles it for a function code that the length
calculation does not know, before the CRC: no field is written and the MBAP
length is 0. -/
theorem Frame.build_other (r : Bool) (s fc a n : Nat) (v : List Nat) (t : Nat)
    (hg : functionGroup fc = .other) (hlt : fc < 128) :
    Frame.build r s fc a n v t =
      Frame.appendCRC
        ⟨letobe 0 (((letobe t (fun _ => toByte 0) 0).write 6 s).write 7 fc) 4, r⟩ := by
  rw [Frame.build_unfold]
  generalize hb : (((letobe t (fun _ => toByte 0) 0).write 6 s).write 7 fc) = base
  have h0 : base 7 = toByte fc := by rw [← hb]; exact Buffer.write_same _ _ _
  rw [Frame.setStartAddress_mk r a h0 hlt, if_neg (by simp [hg]),
    Frame.setRegisterCount_mk r n h0 hlt, if_neg (by simp [hg]),
    Frame.setByteCount_mk r _ h0 hlt, if_neg (by simp [hg]), if_neg (by simp [hg]),
    Frame.setRegistersValues_mk r v h0 hlt, if_neg (by simp [hg]), if_neg (by simp [hg]),
    if_neg (by simp [hg]), Frame.RTULengthWithoutCRC_mk r h0 hlt, if_neg (by simp [hg]),
    if_neg (by simp [hg]), if_neg (by simp [hg])]
  rfl

theorem Frame.build_other_header (r : Bool) (s fc a n : Nat) (v : List Nat) (t : Nat)
    (hg : functionGroup fc = .other) (hlt : fc < 128) :
    (Frame.build r s fc a n v t).slaveID = 255
      ∧ (Frame.build r s fc a n v t).functionCode = 127
      ∧ (Frame.build r s fc a n v t).isException = true := by
  rw [Frame.build_other r s fc a n v t hg hlt]
  generalize hb : letobe 0 (((letobe t (fun _ => toByte 0) 0).write 6 s).write 7 fc) 4 = b
  have h7 : b 7 = toByte fc := by
    rw [← hb, letobe_of_ne _ _ (by omega) (by omega)]
    exact Buffer.write_same _ _ _
  have hL : (Frame.mk b r).RTULengthWithoutCRC = 0 := by
    rw [Frame.RTULengthWithoutCRC_mk r h7 hlt, if_neg (by simp [hg]), if_neg (by simp [hg]),
      if_neg (by simp [hg])]
  have hc : (Frame.mk b r).calculateModbusCRC = 0xFFFF := by
    unfold Frame.calculateModbusCRC
    rw [hL]
    rfl
  have e6 : ((Frame.mk b r).appendCRC.buf 6).val = 255 := by
    rw [Frame.appendCRC_buf, hL, hc, if_neg (by omega), if_pos rfl]
    rfl
  have e7 : ((Frame.mk b r).appendCRC.buf 7).val = 255 := by
    rw [Frame.appendCRC_buf, hL, hc, if_pos rfl]
    rfl
  refine ⟨?_, ?_, ?_⟩
  · unfold Frame.slaveID
    rw [UNIT_ID_eq, e6]
  · unfold Frame.functionCode
    rw [FUNCTION_CODE_eq, e7]
    rfl
  · unfold Frame.isException
    rw [FUNCTION_CODE_eq, e7]
    rfl

set_option maxRecDepth 100000 in
/-- C36 at the failing input: the frame returned by
`build(true, 1, Diagnostics, 0, 0)` has `slaveID() == 0xFF`,
`functionCode() == 0x7F` and `isException() == true`, not slave id 1, function
code `Diagnostics` and no exception.  The same holds for every direction, slave
id and argument list and each of `Diagnostics`, `MaskWriteRegister`,
`ReadWriteMultipleRegisters`, `ReadDeviceIdentification`: the computed length
is 0, so `appendCRC()` stores the checksum of the empty range, `0xFFFF`, over
the unit-id and function-code octets. -/
theorem build_unserialized_header_overwritten :
    (Frame.build true 1 Diagnostics 0 0 [] 0).slaveID = 0xFF
      ∧ (Frame.build true 1 Diagnostics 0 0 [] 0).functionCode = 0x7F
      ∧ (Frame.build true 1 Diagnostics 0 0 [] 0).isException = true
      ∧ (Frame.build true 1 Diagnostics 0 0 [] 0).slaveID ≠ 1
      ∧ (Frame.build true 1 Diagnostics 0 0 [] 0).functionCode ≠ Diagnostics
      ∧ (∀ (r : Bool) (s a n : Nat) (v : List Nat) (t : Nat),
          ∀ fc ∈ [Diagnostics, MaskWriteRegister, ReadWriteMultipleRegisters,
            ReadDeviceIdentification],
          (Frame.build r s fc a n v t).slaveID = 0xFF
            ∧ (Frame.build r s fc a n v t).functionCode = 0x7F
            ∧ (Frame.build r s fc a n v t).isException = true) := by
  refine ⟨by decide, by decide, by decide, by decide, by decide, ?_⟩
  intro r s a n v t fc hfc
  have h : functionGroup fc = .other ∧ fc < 128 := by
    simp only [List.mem_cons, List.mem_singleton, List.not_mem_nil, or_false] at hfc
    rcases hfc with rfl | rfl | rfl | rfl <;> decide
  exact Frame.build_other_header r s fc a n v t h.1 h.2

/-! ## The size of the TCP frame on an arbitrary frame -/

theorem Frame.setMBAPLength_RTULengthWithoutCRC (f : Frame) (v : Nat) :
    (f.setMBAPLength v).RTULengthWithoutCRC = f.RTULengthWithoutCRC := by
  have h7 : (f.setMBAPLength v).buf 7 = f.buf 7 := f.setMBAPLength_buf_ge v 7 (by omega)
  have h8 : (f.setMBAPLength v).buf 8 = f.buf 8 := f.setMBAPLength_buf_ge v 8 (by omega)
  have h12 : (f.setMBAPLength v).buf 12 = f.buf 12 := f.setMBAPLength_buf_ge v 12 (by omega)
  rw [Frame.RTULengthWithoutCRC_eq, Frame.RTULengthWithoutCRC_eq, Frame.isException_congr h7,
    Frame.functionCode_congr h7, h8, h12]
  rfl

theorem Frame.tcpFrame_snd (f : Frame) :
    f.tcpFrame.2 = f.tcpFrame.1.buf.subspan 0 f.tcpFrame.1.tcpFrameSize := rfl

/-- The size of the span that `tcpFrame()` returns: `6 + L` when the computed
RTU length without CRC `L` is non-zero, `7 + 65535` when it is zero. -/
theorem Frame.tcpFrame_tcpFrameSize (f : Frame) :
    f.tcpFrame.1.tcpFrameSize =
      if f.RTULengthWithoutCRC = 0 then 65542 else 6 + f.RTULengthWithoutCRC := by
  have hle := f.calculateRTULength_le
  have hsub := f.RTULengthWithoutCRC_eq_sub
  have hm : (f.setMBAPLength f.RTULengthWithoutCRC).MBAPLength = f.RTULengthWithoutCRC := by
    unfold Frame.MBAPLength Frame.setMBAPLength
    rw [betole_letobe]
    exact Nat.mod_eq_of_lt (by omega)
  have hl := f.setMBAPLength_RTULengthWithoutCRC f.RTULengthWithoutCRC
  show (f.setMBAPLength f.RTULengthWithoutCRC).tcpFrameSize = _
  unfold Frame.tcpFrameSize Frame.pduLength
  simp only []
  rw [hm, hl, MBAP_HEADER_SIZE_eq, UNIT_ID_SIZE_eq]
  by_cases h0 : f.RTULengthWithoutCRC = 0
  · rw [if_pos h0, if_pos h0, h0]
    rfl
  · rw [if_neg h0, if_neg h0]
    have e : ((f.RTULengthWithoutCRC : Int) - ((1 : Nat) : Int)) % 65536
        = ((f.RTULengthWithoutCRC - 1 : Nat) : Int) := by omega
    rw [e, Int.toNat_ofNat]
    omega

set_option maxRecDepth 100000 in
/-- C39 at the failing input: on a default-constructed frame `tcpFrame()` asks
for `subspan(0, 65542)` of the 300-octet buffer: the computed RTU length
without CRC is 0, the MBAP length is set to 0, and `pduLength()` is `0 - 1` as
`uint16_t`.  The same happens on every frame whose computed length is 0, such
as a non-exception frame with function code `Diagnostics`; on every other
frame the size is `6 + L`. -/
theorem tcpFrameSize_exceeds_buffer :
    Frame.empty.RTULengthWithoutCRC = 0
      ∧ Frame.empty.tcpFrame.1.tcpFrameSize = 65542
      ∧ Frame.empty.tcpFrame.2.length = 65542
      ∧ BUFFER_SIZE < Frame.empty.tcpFrame.1.tcpFrameSize
      ∧ Frame.empty.tcpFrame.1.tcpFrameSize ≠ 6 + Frame.empty.RTULengthWithoutCRC
      ∧ (Frame.empty.setFunctionCode Diagnostics).tcpFrame.1.tcpFrameSize = 65542
      ∧ (∀ f : Frame, f.tcpFrame.1.tcpFrameSize =
          if f.RTULengthWithoutCRC = 0 then 65542 else 6 + f.RTULengthWithoutCRC) := by
  have h0 : Frame.empty.RTULengthWithoutCRC = 0 := by decide
  have h1 : Frame.empty.tcpFrame.1.tcpFrameSize = 65542 := by
    rw [Frame.tcpFrame_tcpFrameSize, if_pos h0]
  have hd : (Frame.empty.setFunctionCode Diagnostics).RTULengthWithoutCRC = 0 := by decide
  refine ⟨h0, h1, ?_, ?_, ?_, ?_, Frame.tcpFrame_tcpFrameSize⟩
  · rw [Frame.tcpFrame_snd, Buffer.subspan_length, h1]
  · rw [h1]; decide
  · rw [h1, h0]; decide
  · rw [Frame.tcpFrame_tcpFrameSize, if_pos hd]

/-! ## Index bounds of the RTU accessors -/

/-- C38: the RTU accessors stay inside the 300-octet buffer.  For every buffer
content and either direction flag: the two octets of the checksum lie at
`crcPosition()` and `crcPosition() + 1 <= 299`; the range of `registersData()`
ends at or before offset 300; the range that `calculateModbusCRC()` reads and
the range that `rtuFrame()` returns, `6 + calculateRTULength()`, end at or
before offset 300; and `registersData()` has `byteCount() <= 255` octets or is
empty. -/
theorem rtu_accessors_in_buffer (f : Frame) :
    f.crcPosition + 1 ≤ 299
      ∧ f.crcPosition = RTU_HEADER_START_POSITION + f.RTULengthWithoutCRC
      ∧ f.registersDataSpan.1 + f.registersDataSpan.2 ≤ BUFFER_SIZE
      ∧ RTU_HEADER_START_POSITION + f.RTULengthWithoutCRC ≤ BUFFER_SIZE
      ∧ RTU_HEADER_START_POSITION + f.calculateRTULength ≤ BUFFER_SIZE
      ∧ f.registersData.length = f.registersDataSpan.2
      ∧ f.registersDataSpan.2 ≤ 255 := by
  have hle := f.calculateRTULength_le
  have hsub := f.RTULengthWithoutCRC_eq_sub
  have hpos := f.crcPosition_eq
  have hbc := f.byteCount_lt
  have hspan2 : f.registersDataSpan.2 ≤ 255 := by
    unfold Frame.registersDataSpan
    split_ifs
    · exact Nat.zero_le _
    · show f.byteCount ≤ 255
      omega
  rw [RTU_HEADER_START_POSITION_eq, BUFFER_SIZE_eq]
  refine ⟨by omega, hpos, ?_, by omega, by omega, ?_, hspan2⟩
  · rcases f.registersDataSpan_bounds with h0 | ⟨_, h2⟩
    · rw [h0]; decide
    · omega
  · unfold Frame.registersData
    rw [Buffer.subspan_length]

/-! ## Byte count of a write-multiple request -/

theorem Frame.build_writeMultipleRequest_fields (s fc a n : Nat) (v : List Nat) (t : Nat)
    (hg : functionGroup fc = .writeMultiple) (hlt : fc < 128) (hn : n < 65536) :
    ∃ b : Buffer, Frame.build true s fc a n v t = Frame.appendCRC ⟨b, true⟩
      ∧ b 7 = toByte fc ∧ (b 12).val = 2 * n % 256 ∧ betole b 10 = n := by
  rw [Frame.build_writeMultipleRequest s fc a n v t hg hlt]
  generalize hx : letobe a (((letobe t (fun _ => toByte 0) 0).write 6 s).write 7 fc) 8 = x
  have hx7 : x 7 = toByte fc := by
    rw [← hx, letobe_of_ne _ _ (by omega) (by omega)]
    exact Buffer.write_same _ _ _
  have key : ∀ p, 6 ≤ p → p < 13 →
      (letobe (7 + n * 2 % 256)
        (registersValuesLoop v 13 (n * 2 % 256) (n * 2 % 256) 0
          ((letobe n x 10).write 12 (n * 2))) 4) p = ((letobe n x 10).write 12 (n * 2)) p := by
    intro p h6 h13
    rw [letobe_of_ne _ _ (by omega) (by omega), registersValuesLoop_of_lt _ _ _ _ h13]
  refine ⟨_, rfl, ?_, ?_, ?_⟩
  · rw [key 7 (by omega) (by omega), Buffer.write_of_ne _ _ (by omega),
      letobe_of_ne _ _ (by omega) (by omega), hx7]
  · rw [key 12 (by omega) (by omega), Buffer.write_same, toByte_val, Nat.mul_comm]
  · have e : betole (letobe (7 + n * 2 % 256)
        (registersValuesLoop v 13 (n * 2 % 256) (n * 2 % 256) 0
          ((letobe n x 10).write 12 (n * 2))) 4) 10 = betole (letobe n x 10) 10 := by
      apply betole_congr
      · rw [key 10 (by omega) (by omega), Buffer.write_of_ne _ _ (by omega)]
      · rw [key 11 (by omega) (by omega), Buffer.write_of_ne _ _ (by omega)]
    rw [e, betole_letobe, Nat.mod_eq_of_lt hn]

/-- C40: the byte count is the register count doubled modulo 256.  For every
register count `n` in `0..65535` and every value list, the
`WriteMultipleRegisters` request returned by `build` has
`byteCount() == (2 * n) mod 256`, `registerCount() == n` and
`floor(((2 * n) mod 256) / 2)` register values; `byteCount() == 2 * n` holds
exactly when `n <= 127`, and so does
`len(registersValues()) == registerCount()`. -/
theorem build_writeMultiple_byteCount (s a n : Nat) (v : List Nat) (t : Nat) (hn : n < 65536) :
    (Frame.build true s WriteMultipleRegisters a n v t).byteCount = 2 * n % 256
      ∧ (Frame.build true s WriteMultipleRegisters a n v t).registerCount = n
      ∧ (Frame.build true s WriteMultipleRegisters a n v t).registersValues.length
          = 2 * n % 256 / 2
      ∧ ((Frame.build true s WriteMultipleRegisters a n v t).byteCount = 2 * n ↔ n ≤ 127)
      ∧ ((Frame.build true s WriteMultipleRegisters a n v t).registersValues.length
          = (Frame.build true s WriteMultipleRegisters a n v t).registerCount ↔ n ≤ 127) := by
  obtain ⟨b, hb, h7, h12, h10⟩ :=
    Frame.build_writeMultipleRequest_fields s WriteMultipleRegisters a n v t (by decide)
      (by decide) hn
  have hs : (Frame.mk b true).Serialized := Frame.mk_serialized true h7 (by decide) (by decide)
  obtain ⟨e1, e2⟩ := Frame.mk_header true h7 (by decide : WriteMultipleRegisters < 128)
  have hag := (Frame.mk b true).appendCRC_agree
  have hbc0 : (Frame.mk b true).byteCount = 2 * n % 256 := by
    unfold Frame.byteCount
    rw [e1, e2, BYTE_COUNT_MULTIPLE_REGISTERS_eq]
    simpa [show functionGroup WriteMultipleRegisters = .writeMultiple by decide] using h12
  have hrc0 : (Frame.mk b true).registerCount = n := by
    unfold Frame.registerCount
    rw [e1, e2, REGISTER_COUNT_eq]
    simpa [WriteMultipleRegisters_eq, ReadCoils_eq, ReadDiscreteInputs_eq,
      ReadHoldingRegisters_eq, ReadInputRegisters_eq, WriteSingleCoil_eq,
      WriteSingleRegister_eq, WriteMultipleCoils_eq] using h10
  have hlen0 : (Frame.mk b true).registersValues.length = 2 * n % 256 / 2 := by
    rw [Frame.registersValues_words _ (by rw [e1]; decide), List.length_map, List.length_range]
    unfold Frame.registersData
    rw [Buffer.subspan_length,
      Frame.registersDataSpan_mk true h7 (by decide : WriteMultipleRegisters < 128)]
    simp only [show functionGroup WriteMultipleRegisters = .writeMultiple by decide, h12]
    simp
  have hbc : (Frame.build true s WriteMultipleRegisters a n v t).byteCount = 2 * n % 256 := by
    rw [hb, hag.byteCount hs, hbc0]
  have hrc : (Frame.build true s WriteMultipleRegisters a n v t).registerCount = n := by
    rw [hb, hag.registerCount hs, hrc0]
  have hlen : (Frame.build true s WriteMultipleRegisters a n v t).registersValues.length
      = 2 * n % 256 / 2 := by
    rw [hb, hag.registersValues hs, hlen0]
  refine ⟨hbc, hrc, hlen, ?_, ?_⟩
  · rw [hbc]; omega
  · rw [hlen, hrc]; omega

set_option maxRecDepth 100000 in
theorem build_writeMultiple_byteCount_witness :
    (130 : Nat) < 65536
      ∧ (Frame.build true 1 WriteMultipleRegisters 0 130 [1, 2, 3] 0).byteCount = 4
      ∧ (Frame.build true 1 WriteMultipleRegisters 0 130 [1, 2, 3] 0).registerCount = 130
      ∧ (Frame.build true 1 WriteMultipleRegisters 0 130 [1, 2, 3] 0).registersValues.length = 2
      ∧ (Frame.build true 1 WriteMultipleRegisters 0 130 [1, 2, 3] 0).registersValues = [1, 2] :=
  ⟨by decide,
    (build_writeMultiple_byteCount 1 0 130 [1, 2, 3] 0 (by decide)).1,
    (build_writeMultiple_byteCount 1 0 130 [1, 2, 3] 0 (by decide)).2.1,
    (build_writeMultiple_byteCount 1 0 130 [1, 2, 3] 0 (by decide)).2.2.1,
    by decide⟩

/-! ## The CRC step is injective -/

theorem crcBitStep_lt (x : Nat) (h : x < 65536) : crcBitStep x < 65536 := by
  unfold crcBitStep
  have h1 : x >>> 1 < 2 ^ 16 := by
    rw [Nat.shiftRight_eq_div_pow]; omega
  split_ifs
  · exact Nat.xor_lt_two_pow h1 (by decide)
  · exact h1

theorem xor_poly_testBit (y : Nat) (h : y < 32768) : (y ^^^ 0xA001).testBit 15 = true := by
  rw [Nat.testBit_xor, Nat.testBit_lt_two_pow (show y < 2 ^ 15 from h)]
  decide

theorem crcBitStep_injective (x y : Nat) (hx : x < 65536) (hy : y < 65536)
    (h : crcBitStep x = crcBitStep y) : x = y := by
  unfold crcBitStep at h
  rw [Nat.shiftRight_eq_div_pow, Nat.shiftRight_eq_div_pow] at h
  have hx2 : x / 2 ^ 1 < 32768 := by omega
  have hy2 : y / 2 ^ 1 < 32768 := by omega
  by_cases px : x % 2 = 1 <;> by_cases py : y % 2 = 1
  · rw [if_pos px, if_pos py] at h
    have e : x / 2 ^ 1 = y / 2 ^ 1 := Nat.xor_left_injective h
    omega
  · rw [if_pos px, if_neg py] at h
    have t1 := xor_poly_testBit _ hx2
    rw [h, Nat.testBit_lt_two_pow (show y / 2 ^ 1 < 2 ^ 15 from hy2)] at t1
    cases t1
  · rw [if_neg px, if_pos py] at h
    have t1 := xor_poly_testBit _ hy2
    rw [← h, Nat.testBit_lt_two_pow (show x / 2 ^ 1 < 2 ^ 15 from hx2)] at t1
    cases t1
  · rw [if_neg px, if_neg py] at h
    omega

theorem crcBitStep_iterate_lt (k x : Nat) (h : x < 65536) : crcBitStep^[k] x < 65536 := by
  induction k generalizing x with
  | zero => exact h
  | succ k ih =>
    rw [Function.iterate_succ, Function.comp_apply]
    exact ih _ (crcBitStep_lt x h)

theorem crcBitStep_iterate_injective (k x y : Nat) (hx : x < 65536) (hy : y < 65536)
    (h : crcBitStep^[k] x = crcBitStep^[k] y) : x = y := by
  induction k generalizing x y with
  | zero => exact h
  | succ k ih =>
    simp only [Function.iterate_succ, Function.comp_apply] at h
    exact crcBitStep_injective x y hx hy (ih _ _ (crcBitStep_lt x hx) (crcBitStep_lt y hy) h)

theorem xor_octet_lt (crc byte : Nat) (hc : crc < 65536) (hb : byte < 256) :
    crc ^^^ byte < 65536 :=
  Nat.xor_lt_two_pow (show crc < 2 ^ 16 from hc) (show byte < 2 ^ 16 by omega)

/-- For a fixed octet the table step is injective in the register. -/
theorem crcStep_injective_crc (c d byte : Nat) (hc : c < 65536) (hd : d < 65536)
    (hb : byte < 256) (h : crcStep c byte = crcStep d byte) : c = d := by
  rw [crcStep_eq_bitSerialByte c byte hb, crcStep_eq_bitSerialByte d byte hb] at h
  unfold crcBitSerialByte at h
  exact Nat.xor_left_injective
    (crcBitStep_iterate_injective 8 _ _ (xor_octet_lt c byte hc hb) (xor_octet_lt d byte hd hb) h)

/-- For a fixed register the table step is injective in the octet. -/
theorem crcStep_injective_byte (c a b : Nat) (hc : c < 65536) (ha : a < 256) (hb : b < 256)
    (h : crcStep c a = crcStep c b) : a = b := by
  rw [crcStep_eq_bitSerialByte c a ha, crcStep_eq_bitSerialByte c b hb] at h
  unfold crcBitSerialByte at h
  exact Nat.xor_right_injective
    (crcBitStep_iterate_injective 8 _ _ (xor_octet_lt c a hc ha) (xor_octet_lt c b hc hb) h)

theorem crcStep_lt (c byte : Nat) (hc : c < 65536) : crcStep c byte < 65536 :=
  calcCRC_lt_aux [byte] c hc

theorem foldl_crcStep_injective (data : List Nat) (h : ∀ b ∈ data, b < 256) :
    ∀ c d, c < 65536 → d < 65536 → data.foldl crcStep c = data.foldl crcStep d → c = d := by
  induction data with
  | nil => intro c d _ _ e; exact e
  | cons b rest ih =>
    intro c d hc hd e
    have hb : b < 256 := h b (List.mem_cons_self b rest)
    have hrest : ∀ x ∈ rest, x < 256 := fun x hx => h x (List.mem_cons_of_mem b hx)
    rw [List.foldl_cons, List.foldl_cons] at e
    exact crcStep_injective_crc c d b hc hd hb
      (ih hrest _ _ (crcStep_lt c b hc) (crcStep_lt d b hd) e)

/-- Two octet sequences with a common prefix and a common suffix around one
differing octet have different checksums. -/
theorem calculateModbusCRC_ne_of_one_octet (pre suf : List Nat) (a b : Nat)
    (hsuf : ∀ x ∈ suf, x < 256) (ha : a < 256) (hb : b < 256)
    (hab : a ≠ b) :
    calculateModbusCRC (pre ++ a :: suf) ≠ calculateModbusCRC (pre ++ b :: suf) := by
  intro e
  unfold calculateModbusCRC at e
  rw [List.foldl_append, List.foldl_append, List.foldl_cons, List.foldl_cons] at e
  have hs : pre.foldl crcStep 0xFFFF < 65536 := calcCRC_lt_aux pre _ (by decide)
  have e2 := foldl_crcStep_injective suf hsuf _ _ (crcStep_lt _ a hs) (crcStep_lt _ b hs) e
  exact hab (crcStep_injective_byte _ a b hs ha hb e2)

/-- C37: the CRC detects every single-octet corruption.  Two octet sequences of
equal length that differ in exactly one position `p` have different
`calculateModbusCRC` values. -/
theorem calculateModbusCRC_detects_single_octet (xs ys : List Nat) (p : Nat)
    (hx : ∀ x ∈ xs, x < 256) (hy : ∀ y ∈ ys, y < 256) (hlen : xs.length = ys.length)
    (hp : p < xs.length) (hdiff : xs.getD p 0 ≠ ys.getD p 0)
    (hsame : ∀ q, q ≠ p → xs.getD q 0 = ys.getD q 0) :
    calculateModbusCRC xs ≠ calculateModbusCRC ys := by
  have hpy : p < ys.length := by omega
  have ex : xs = xs.take p ++ xs.getD p 0 :: xs.drop (p + 1) := by
    rw [List.getD_eq_getElem _ _ hp, ← List.drop_eq_getElem_cons hp, List.take_append_drop]
  have ey : ys = ys.take p ++ ys.getD p 0 :: ys.drop (p + 1) := by
    rw [List.getD_eq_getElem _ _ hpy, ← List.drop_eq_getElem_cons hpy, List.take_append_drop]
  have hq : ∀ q, q ≠ p → ys[q]? = xs[q]? := by
    intro q hqp
    by_cases hl : q < xs.length
    · have hl2 : q < ys.length := by omega
      have h1 := hsame q hqp
      rw [List.getD_eq_getElem xs 0 hl, List.getD_eq_getElem ys 0 hl2] at h1
      rw [List.getElem?_eq_getElem hl, List.getElem?_eq_getElem hl2, h1]
    · have hl2 : ¬ q < ys.length := by omega
      rw [List.getElem?_eq_none (Nat.le_of_not_lt hl),
        List.getElem?_eq_none (Nat.le_of_not_lt hl2)]
  have etake : ys.take p = xs.take p := by
    apply List.ext_getElem?
    intro i
    by_cases hi : i < p
    · rw [List.getElem?_take_of_lt hi, List.getElem?_take_of_lt hi]
      exact hq i (by omega)
    · rw [List.getElem?_eq_none (by rw [List.length_take]; omega),
        List.getElem?_eq_none (by rw [List.length_take]; omega)]
  have edrop : ys.drop (p + 1) = xs.drop (p + 1) := by
    apply List.ext_getElem?
    intro i
    rw [List.getElem?_drop, List.getElem?_drop]
    exact hq (p + 1 + i) (by omega)
  rw [ex, ey, etake, edrop]
  have hmx : xs.getD p 0 < 256 := by
    rw [List.getD_eq_getElem _ _ hp]; exact hx _ (List.getElem_mem hp)
  have hmy : ys.getD p 0 < 256 := by
    rw [List.getD_eq_getElem _ _ hpy]; exact hy _ (List.getElem_mem hpy)
  exact calculateModbusCRC_ne_of_one_octet _ _ _ _
    (fun x h => hx x (List.mem_of_mem_drop h)) hmx hmy hdiff

set_option maxRecDepth 100000 in
theorem calculateModbusCRC_detects_single_octet_witness :
    ([0x01, 0x04, 0x02, 0x00, 0x07] : List Nat).length
        = ([0x01, 0x04, 0x02, 0x10, 0x07] : List Nat).length
      ∧ calculateModbusCRC [0x01, 0x04, 0x02, 0x00, 0x07] = 0xF2F8
      ∧ calculateModbusCRC [0x01, 0x04, 0x02, 0x00, 0x07]
          ≠ calculateModbusCRC [0x01, 0x04, 0x02, 0x10, 0x07] :=
  ⟨rfl, by decide,
    calculateModbusCRC_detects_single_octet [0x01, 0x04, 0x02, 0x00, 0x07]
      [0x01, 0x04, 0x02, 0x10, 0x07] 3 (by decide) (by decide) rfl (by decide) (by decide)
      (by
        intro q hq
        match q, hq with
        | 0, _ => rfl
        | 1, _ => rfl
        | 2, _ => rfl
        | 3, h => exact absurd rfl h
        | 4, _ => rfl
        | (n + 5), _ => rfl)⟩

end eModbus
